import Mathlib

/-! Team Task Manager: membership, task authorisation, sessions.

Shallow embedding of the route handlers of `server/server.js` over the
relational schema of `server/db/migrations/20250611203719_initial_schema.js`.

* A table is the list of its rows; `.first()` is `List.find?`, `.del()` is a
  `List.filter` that keeps the rows not matched, `.update()` is a `List.map`.
* `created_at` / `updated_at` and `users.password_hash` are left out: no handler
  below branches on them.
* Identifiers are natural numbers; `req.params` are taken as already numeric.
* A request body field that the code tests against `undefined` and `null`
  separately is a `Field`; one that it only tests for truthiness is an `Option`
  (`none` for an absent field), with `""` and `0` falsy as in JavaScript.
* A handler returns the store it leaves behind together with the HTTP status.
-/

namespace TeamTaskManager

/-! ## Schema -/

/-- Row of table `users`. -/
structure User where
  id : Nat
  username : String
  email : String
  deriving DecidableEq, Repr

/-- Row of table `teams`. -/
structure Team where
  id : Nat
  name : String
  description : Option String
  created_by_user_id : Nat
  deriving DecidableEq, Repr

/-- Row of table `team_memberships`; `role` is a nullable `varchar(50)`. -/
structure Membership where
  id : Nat
  user_id : Nat
  team_id : Nat
  role : Option String
  deriving DecidableEq, Repr

/-- Row of table `tasks`; `status` is a nullable `varchar(50)`, the two user
references are nullable, `due_date` is a date kept as a day number. -/
structure Task where
  id : Nat
  title : String
  description : Option String
  status : Option String
  team_id : Nat
  assigned_to_user_id : Option Nat
  due_date : Option Nat
  created_by_user_id : Option Nat
  deriving DecidableEq, Repr

/-- The store: the four tables and the sequences behind their `increments('id')`
columns. A sequence is advanced by a successful insert. -/
structure Db where
  users : List User
  teams : List Team
  team_memberships : List Membership
  tasks : List Task
  next_user_id : Nat
  next_team_id : Nat
  next_membership_id : Nat
  next_task_id : Nat
  deriving DecidableEq, Repr

/-- The store right after the migrations ran: no rows, sequences at 1. -/
def Db.empty : Db :=
  { users := [], teams := [], team_memberships := [], tasks := [],
    next_user_id := 1, next_team_id := 1, next_membership_id := 1, next_task_id := 1 }

/-- A body field as JavaScript sees it: missing, `null`, or a value. -/
inductive Field (α : Type) where
  | undefined : Field α
  | null : Field α
  | value (a : α) : Field α
  deriving DecidableEq, Repr

/-- Errors the store raises on a write; `unique_violation` is PostgreSQL code
`23505`, the one the handlers look for. `connection_failure` stands for every
rejection that is not a constraint of the schema (the store cannot be reached,
the statement is cancelled). -/
inductive DbError where
  | unique_violation
  | foreign_key_violation
  | not_null_violation
  | string_data_right_truncation
  | connection_failure
  deriving DecidableEq, Repr

/-- JavaScript truthiness of a string field: absent and `""` are falsy. -/
def truthyStr : Option String → Bool
  | none => false
  | some s => !(s == "")

/-- JavaScript truthiness of a numeric field: absent and `0` are falsy. -/
def truthyNum : Option Nat → Bool
  | none => false
  | some n => !(n == 0)

/-! ## Queries -/

/-- `db('users').where({ id })` has a row. -/
def userExists (db : Db) (id : Nat) : Bool :=
  db.users.any (fun u => decide (u.id = id))

/-- `db('teams').where({ id: teamId }).first()`. -/
def teamById (db : Db) (teamId : Nat) : Option Team :=
  db.teams.find? (fun t => decide (t.id = teamId))

/-- `db('team_memberships').where({ user_id, team_id }).first()`. -/
def membershipOf (db : Db) (userId teamId : Nat) : Option Membership :=
  db.team_memberships.find? (fun m => decide (m.user_id = userId ∧ m.team_id = teamId))

/-- `db('team_memberships').where({ user_id, team_id, role: 'admin' }).first()`. -/
def adminMembershipOf (db : Db) (userId teamId : Nat) : Option Membership :=
  db.team_memberships.find?
    (fun m => decide (m.user_id = userId ∧ m.team_id = teamId ∧ m.role = some "admin"))

/-- `db('team_memberships').where({ team_id, role: 'admin' }).select('user_id')`. -/
def currentAdminMemberships (db : Db) (teamId : Nat) : List Nat :=
  (db.team_memberships.filter
    (fun m => decide (m.team_id = teamId ∧ m.role = some "admin"))).map (fun m => m.user_id)

/-- `db('users').where({ email }).first()`. -/
def userByEmail (db : Db) (email : String) : Option User :=
  db.users.find? (fun u => decide (u.email = email))

/-- `db('tasks').where({ id }).first()`. -/
def taskById (db : Db) (taskId : Nat) : Option Task :=
  db.tasks.find? (fun t => decide (t.id = taskId))

/-! ## Writes, with the constraints of the schema -/

/-- `db('users').insert({ username, email, password_hash })`: both text columns
are `varchar(255)` and unique. -/
def insertUser (db : Db) (username email : String) : Except DbError (Db × Nat) :=
  if decide (255 < username.length) || decide (255 < email.length) then
    .error .string_data_right_truncation
  else if db.users.any (fun u => decide (u.username = username ∨ u.email = email)) then
    .error .unique_violation
  else
    .ok ({ db with users := db.users ++ [⟨db.next_user_id, username, email⟩],
                   next_user_id := db.next_user_id + 1 }, db.next_user_id)

/-- `db('teams').insert({ name, description, created_by_user_id })`: `name` is a
unique `varchar(255)`, `created_by_user_id` references `users`. -/
def insertTeam (db : Db) (name : String) (description : Option String)
    (created_by_user_id : Nat) : Except DbError (Db × Nat) :=
  if 255 < name.length then .error .string_data_right_truncation
  else if db.teams.any (fun t => decide (t.name = name)) then .error .unique_violation
  else if !userExists db created_by_user_id then .error .foreign_key_violation
  else
    .ok ({ db with teams := db.teams ++ [⟨db.next_team_id, name, description, created_by_user_id⟩],
                   next_team_id := db.next_team_id + 1 }, db.next_team_id)

/-- `db('team_memberships').insert({ user_id, team_id, role })`: `role` is a
`varchar(50)`, `(user_id, team_id)` is unique, both ids are foreign keys. -/
def insertMembership (db : Db) (user_id team_id : Nat) (role : Option String) :
    Except DbError Db :=
  if (match role with | some r => decide (50 < r.length) | none => false) then
    .error .string_data_right_truncation
  else if (membershipOf db user_id team_id).isSome then .error .unique_violation
  else if !userExists db user_id || (teamById db team_id).isNone then
    .error .foreign_key_violation
  else
    .ok { db with team_memberships :=
                    db.team_memberships ++ [⟨db.next_membership_id, user_id, team_id, role⟩],
                  next_membership_id := db.next_membership_id + 1 }

/-- `db('tasks').insert({...})`: `title` is a `varchar(255)`, `status` a
`varchar(50)`, `team_id` references `teams`, the user columns reference `users`. -/
def insertTask (db : Db) (title : String) (description : Option String) (team_id : Nat)
    (assigned_to_user_id : Option Nat) (due_date : Option Nat) (created_by_user_id : Nat)
    (status : String) : Except DbError (Db × Nat) :=
  if decide (255 < title.length) || decide (50 < status.length) then
    .error .string_data_right_truncation
  else if (teamById db team_id).isNone || !userExists db created_by_user_id
      || (match assigned_to_user_id with | some a => !userExists db a | none => false) then
    .error .foreign_key_violation
  else
    .ok ({ db with tasks := db.tasks ++ [⟨db.next_task_id, title, description, some status,
                              team_id, assigned_to_user_id, due_date, some created_by_user_id⟩],
                   next_task_id := db.next_task_id + 1 }, db.next_task_id)

/-- `db('teams').where({ id }).del()` with the `ON DELETE CASCADE` of
`team_memberships.team_id` and `tasks.team_id`; also gives the number of team
rows deleted. -/
def deleteTeamRow (db : Db) (teamId : Nat) : Db × Nat :=
  let deleted := (db.teams.filter (fun t => decide (t.id = teamId))).length
  if deleted = 0 then (db, 0)
  else
    ({ db with teams := db.teams.filter (fun t => !decide (t.id = teamId)),
               team_memberships :=
                 db.team_memberships.filter (fun m => !decide (m.team_id = teamId)),
               tasks := db.tasks.filter (fun t => !decide (t.team_id = teamId)) }, deleted)

/-- `db('team_memberships').where({ user_id, team_id }).del()`, with the number
of rows deleted. -/
def deleteMembershipRows (db : Db) (userId teamId : Nat) : Db × Nat :=
  ({ db with team_memberships := db.team_memberships.filter
               (fun m => !decide (m.user_id = userId ∧ m.team_id = teamId)) },
   (db.team_memberships.filter
      (fun m => decide (m.user_id = userId ∧ m.team_id = teamId))).length)

/-- `db('tasks').where({ id }).del()`, with the number of rows deleted. -/
def deleteTaskRows (db : Db) (taskId : Nat) : Db × Nat :=
  ({ db with tasks := db.tasks.filter (fun t => !decide (t.id = taskId)) },
   (db.tasks.filter (fun t => decide (t.id = taskId))).length)

/-- The row written by `db('teams').where({ id }).update({ name, description })`:
knex drops the keys whose value is `undefined`. -/
def Team.updated (t : Team) (name description : Field String) : Team :=
  { t with
    name := (match name with | .value n => n | _ => t.name),
    description := (match description with
      | .undefined => t.description | .null => none | .value d => some d) }

/-- `db('teams').where({ id }).update({ name, description, updated_at })`, with
the number of rows updated: `name` is a non-null unique `varchar(255)`. -/
def updateTeamRow (db : Db) (teamId : Nat) (name description : Field String) :
    Except DbError (Db × Nat) :=
  let updated := (db.teams.filter (fun t => decide (t.id = teamId))).length
  let rows := db.teams.map (fun t => if t.id = teamId then t.updated name description else t)
  if updated = 0 then .ok (db, 0)
  else
    match name with
    | .null => .error .not_null_violation
    | .value n =>
      if 255 < n.length then .error .string_data_right_truncation
      else if db.teams.any (fun t => decide (t.id ≠ teamId ∧ t.name = n)) then
        .error .unique_violation
      else
        .ok ({ db with teams := rows }, updated)
    | .undefined =>
      .ok ({ db with teams := rows }, updated)

/-- The row written by `db('tasks').where({ id }).update(updatedData)`, where
`updatedData` holds the fields of the body that are not `undefined`. -/
def Task.updated (t : Task) (title description status : Field String)
    (assigned_to_user_id due_date : Field Nat) : Task :=
  { t with
    title := (match title with | .value x => x | _ => t.title),
    description := (match description with
      | .undefined => t.description | .null => none | .value d => some d),
    status := (match status with
      | .undefined => t.status | .null => none | .value x => some x),
    assigned_to_user_id := (match assigned_to_user_id with
      | .undefined => t.assigned_to_user_id | .null => none | .value a => some a),
    due_date := (match due_date with
      | .undefined => t.due_date | .null => none | .value d => some d) }

/-- `db('tasks').where({ id }).update(updatedData)`, with the number of rows
updated: `title` is a non-null `varchar(255)`, `status` a `varchar(50)`,
`assigned_to_user_id` references `users`. -/
def updateTaskRow (db : Db) (taskId : Nat) (title description status : Field String)
    (assigned_to_user_id due_date : Field Nat) : Except DbError (Db × Nat) :=
  let updated := (db.tasks.filter (fun t => decide (t.id = taskId))).length
  let rows := db.tasks.map (fun t =>
    if t.id = taskId then t.updated title description status assigned_to_user_id due_date
    else t)
  if updated = 0 then .ok (db, 0)
  else if decide (title = .null) then .error .not_null_violation
  else if (match title with | .value x => decide (255 < x.length) | _ => false)
      || (match status with | .value x => decide (50 < x.length) | _ => false) then
    .error .string_data_right_truncation
  else if (match assigned_to_user_id with | .value a => !userExists db a | _ => false) then
    .error .foreign_key_violation
  else
    .ok ({ db with tasks := rows }, updated)

/-- The query shared by `PUT /tasks/:id` and `DELETE /tasks/:id`:
`db('tasks').where('tasks.id', taskId).join('team_memberships', 'tasks.team_id',
'=', 'team_memberships.team_id').where('team_memberships.user_id', userId).first()`,
as the task row with the membership row it was joined to. -/
def taskJoinMembership (db : Db) (taskId userId : Nat) : Option (Task × Membership) :=
  ((db.tasks.filter (fun t => decide (t.id = taskId))).flatMap (fun t =>
    (db.team_memberships.filter
      (fun m => decide (t.team_id = m.team_id ∧ m.user_id = userId))).map
        (fun m => (t, m)))).head?

/-! ## Route handlers

Every handler below sits behind `isAuthenticated`; its first numeric argument is
`req.user.id`. The `catch` branch of a handler answers 500, or 409 where the
code looks for error code `23505`. -/

/-- The largest value of an `integer` column. The migration declares every id
column with `increments` or `integer`. -/
def int4Max : Nat := 2147483647

/-- The id fits an `integer` column. A query that binds an id above `int4Max`
is rejected by the store (value out of range for type integer): the `await`
throws and the `catch` of the handler answers 500. -/
def fitsInt4 (id : Nat) : Bool := decide (id ≤ int4Max)

/-- Status chosen by a `catch` block that special-cases `err.code === '23505'`. -/
def catchStatus (e : DbError) : Nat :=
  if e = DbError.unique_violation then 409 else 500

/-- `POST /auth/register`; the third component is the id handed to `req.login`. -/
def postAuthRegister (db : Db) (username email password : Option String) :
    Db × Nat × Option Nat :=
  if !truthyStr username || !truthyStr email || !truthyStr password then (db, 400, none)
  else
    let username := username.getD ""
    let email := email.getD ""
    if db.users.any (fun u => decide (u.username = username ∨ u.email = email)) then
      (db, 409, none)
    else
      match insertUser db username email with
      | .error _ => (db, 500, none)
      | .ok (db1, userId) => (db1, 201, some userId)

/-- `POST /teams`. The two inserts are separate statements: when the second
throws, the team row written by the first stays. -/
def postTeams (db : Db) (created_by_user_id : Nat) (name description : Option String) :
    Db × Nat :=
  if !truthyStr name then (db, 400)
  else
    match insertTeam db (name.getD "") description created_by_user_id with
    | .error e => (db, catchStatus e)
    | .ok (db1, teamId) =>
      match insertMembership db1 created_by_user_id teamId (some "admin") with
      | .error e => (db1, catchStatus e)
      | .ok db2 => (db2, 201)

/-- The guard shared by `PUT /teams/:id` and `DELETE /teams/:id`: no admin
membership, and `!team || team.created_by_user_id !== userId`. -/
def teamWriteForbidden (db : Db) (userId teamId : Nat) : Bool :=
  match adminMembershipOf db userId teamId with
  | some _ => false
  | none =>
    match teamById db teamId with
    | none => true
    | some team => !decide (team.created_by_user_id = userId)

/-- `PUT /teams/:id` for a team id that fits the `integer` column;
`putTeamsIdServed` is the route on every id. -/
def putTeamsId (db : Db) (userId teamId : Nat) (name description : Field String) : Db × Nat :=
  if teamWriteForbidden db userId teamId then (db, 403)
  else
    match updateTeamRow db teamId name description with
    | .error e => (db, catchStatus e)
    | .ok (db1, updated) => if updated = 0 then (db1, 404) else (db1, 200)

/-- `DELETE /teams/:id` for a team id that fits the `integer` column;
`deleteTeamsIdServed` is the route on every id. -/
def deleteTeamsId (db : Db) (userId teamId : Nat) : Db × Nat :=
  if teamWriteForbidden db userId teamId then (db, 403)
  else
    match deleteTeamRow db teamId with
    | (db1, deleted) => if deleted = 0 then (db1, 404) else (db1, 200)

/-- The role stored by `POST /teams/:teamId/members`: the destructuring default
`role = 'member'` applies to a missing field only. -/
def roleOrDefault : Field String → Option String
  | .undefined => some "member"
  | .null => none
  | .value r => some r

/-- `POST /teams/:teamId/members` for a team id that fits the `integer` column;
`postTeamsMembersServed` is the route on every id. -/
def postTeamsMembers (db : Db) (adminUserId teamId : Nat) (member_email : Option String)
    (role : Field String) : Db × Nat :=
  if !truthyStr member_email then (db, 400)
  else
    match adminMembershipOf db adminUserId teamId with
    | none => (db, 403)
    | some _ =>
      match userByEmail db (member_email.getD "") with
      | none => (db, 404)
      | some memberUser =>
        match membershipOf db memberUser.id teamId with
        | some _ => (db, 409)
        | none =>
          match insertMembership db memberUser.id teamId (roleOrDefault role) with
          | .error _ => (db, 500)
          | .ok db1 => (db1, 201)

/-- The value of `isLastAdmin` in `DELETE /teams/:teamId/members/:memberId`:
`currentAdminMemberships.length === 1 &&
 currentAdminMemberships[0].user_id === memberIdToRemove`. -/
def isLastAdmin (db : Db) (teamId memberIdToRemove : Nat) : Bool :=
  decide ((currentAdminMemberships db teamId).length = 1)
    && decide ((currentAdminMemberships db teamId).head? = some memberIdToRemove)

/-- `DELETE /teams/:teamId/members/:memberId` for ids that fit the `integer`
columns; `deleteTeamsMembersServed` is the route on every id. -/
def deleteTeamsMembers (db : Db) (adminUserId teamId memberIdToRemove : Nat) : Db × Nat :=
  match adminMembershipOf db adminUserId teamId with
  | none => (db, 403)
  | some _ =>
    if (match teamById db teamId with
        | some team => decide (team.created_by_user_id = memberIdToRemove)
        | none => false) && decide (adminUserId = memberIdToRemove) then (db, 403)
    else if isLastAdmin db teamId memberIdToRemove && decide (adminUserId = memberIdToRemove) then
      (db, 403)
    else
      match deleteMembershipRows db memberIdToRemove teamId with
      | (db1, deleted) => if deleted = 0 then (db1, 404) else (db1, 200)

/-- `POST /tasks` for ids that fit the `integer` columns; `postTasksServed` is
the route on every id. -/
def postTasks (db : Db) (created_by_user_id : Nat) (title description : Option String)
    (team_id assigned_to_user_id due_date : Option Nat) : Db × Nat :=
  if !truthyStr title || !truthyNum team_id then (db, 400)
  else
    let teamId := team_id.getD 0
    match membershipOf db created_by_user_id teamId with
    | none => (db, 403)
    | some _ =>
      if truthyNum assigned_to_user_id
          && (membershipOf db (assigned_to_user_id.getD 0) teamId).isNone then (db, 400)
      else
        match insertTask db (title.getD "") description teamId
            (if truthyNum assigned_to_user_id then assigned_to_user_id else none)
            due_date created_by_user_id "pending" with
        | .error _ => (db, 500)
        | .ok (db1, _) => (db1, 201)

/-- `PUT /tasks/:id` for ids that fit the `integer` columns; `putTasksIdServed`
is the route on every id. -/
def putTasksId (db : Db) (userId taskId : Nat) (title description status : Field String)
    (assigned_to_user_id due_date : Field Nat) : Db × Nat :=
  match taskJoinMembership db taskId userId with
  | none => (db, 404)
  | some (task, membership) =>
    if !decide (task.created_by_user_id = some userId)
        && !decide (membership.role = some "admin")
        && !decide (membership.role = some "member") then (db, 403)
    else if (match assigned_to_user_id with
        | .value a => (membershipOf db a task.team_id).isNone
        | _ => false) then (db, 400)
    else
      match updateTaskRow db taskId title description status assigned_to_user_id due_date with
      | .error _ => (db, 500)
      | .ok (db1, updated) => if updated = 0 then (db1, 404) else (db1, 200)

/-- `DELETE /tasks/:id`. -/
def deleteTasksId (db : Db) (userId taskId : Nat) : Db × Nat :=
  match taskJoinMembership db taskId userId with
  | none => (db, 404)
  | some (task, membership) =>
    if !decide (task.created_by_user_id = some userId)
        && !decide (membership.role = some "admin") then (db, 403)
    else
      match deleteTaskRows db taskId with
      | (db1, deleted) => if deleted = 0 then (db1, 404) else (db1, 200)

/-! ## The routes on every id

The ids a request carries, path parameters and body fields, are bound into
the queries as they come. One above `int4Max` makes the first query that binds
it throw, and the `catch` of the handler answers 500 with the store as it was.
`req.user.id` and the ids read from rows come out of the `integer` columns
themselves, so they fit. -/

/-- `PUT /teams/:id` on every id: the admin lookup, the first statement of the
`try` block, binds `teamId`. -/
def putTeamsIdServed (db : Db) (userId teamId : Nat) (name description : Field String) :
    Db × Nat :=
  if !fitsInt4 teamId then (db, 500)
  else putTeamsId db userId teamId name description

/-- `DELETE /teams/:id` on every id: the admin lookup, the first statement of
the `try` block, binds `teamId`. -/
def deleteTeamsIdServed (db : Db) (userId teamId : Nat) : Db × Nat :=
  if !fitsInt4 teamId then (db, 500)
  else deleteTeamsId db userId teamId

/-- `POST /teams/:teamId/members` on every id: the check of `member_email`
stands before the `try` block, whose first statement, the admin lookup, binds
`teamId`. -/
def postTeamsMembersServed (db : Db) (adminUserId teamId : Nat) (member_email : Option String)
    (role : Field String) : Db × Nat :=
  if !truthyStr member_email then (db, 400)
  else if !fitsInt4 teamId then (db, 500)
  else
    match adminMembershipOf db adminUserId teamId with
    | none => (db, 403)
    | some _ =>
      match userByEmail db (member_email.getD "") with
      | none => (db, 404)
      | some memberUser =>
        match membershipOf db memberUser.id teamId with
        | some _ => (db, 409)
        | none =>
          match insertMembership db memberUser.id teamId (roleOrDefault role) with
          | .error _ => (db, 500)
          | .ok db1 => (db1, 201)

/-- `DELETE /teams/:teamId/members/:memberId` on every id, the two parameters
being the numbers `parseInt` returns: the admin lookup binds `teamId`; the two
self-removal guards compare `memberIdToRemove` in JavaScript; the delete is the
first query that binds `memberIdToRemove`. -/
def deleteTeamsMembersServed (db : Db) (adminUserId teamId memberIdToRemove : Nat) : Db × Nat :=
  if !fitsInt4 teamId then (db, 500)
  else
    match adminMembershipOf db adminUserId teamId with
    | none => (db, 403)
    | some _ =>
      if (match teamById db teamId with
          | some team => decide (team.created_by_user_id = memberIdToRemove)
          | none => false) && decide (adminUserId = memberIdToRemove) then (db, 403)
      else if isLastAdmin db teamId memberIdToRemove && decide (adminUserId = memberIdToRemove) then
        (db, 403)
      else if !fitsInt4 memberIdToRemove then (db, 500)
      else
        match deleteMembershipRows db memberIdToRemove teamId with
        | (db1, deleted) => if deleted = 0 then (db1, 404) else (db1, 200)

/-- `POST /tasks` on every id: the check of `title` and `team_id` stands before
the `try` block; the membership lookup binds `team_id`; the assignee lookup,
made for a truthy `assigned_to_user_id`, binds it. -/
def postTasksServed (db : Db) (created_by_user_id : Nat) (title description : Option String)
    (team_id assigned_to_user_id due_date : Option Nat) : Db × Nat :=
  if !truthyStr title || !truthyNum team_id then (db, 400)
  else
    let teamId := team_id.getD 0
    if !fitsInt4 teamId then (db, 500)
    else
      match membershipOf db created_by_user_id teamId with
      | none => (db, 403)
      | some _ =>
        if truthyNum assigned_to_user_id && !fitsInt4 (assigned_to_user_id.getD 0) then (db, 500)
        else if truthyNum assigned_to_user_id
            && (membershipOf db (assigned_to_user_id.getD 0) teamId).isNone then (db, 400)
        else
          match insertTask db (title.getD "") description teamId
              (if truthyNum assigned_to_user_id then assigned_to_user_id else none)
              due_date created_by_user_id "pending" with
          | .error _ => (db, 500)
          | .ok (db1, _) => (db1, 201)

/-- `PUT /tasks/:id` on every id: the join binds `taskId`; the assignee lookup,
made for an `assigned_to_user_id` that is neither `undefined` nor `null`, binds
it. -/
def putTasksIdServed (db : Db) (userId taskId : Nat) (title description status : Field String)
    (assigned_to_user_id due_date : Field Nat) : Db × Nat :=
  if !fitsInt4 taskId then (db, 500)
  else
    match taskJoinMembership db taskId userId with
    | none => (db, 404)
    | some (task, membership) =>
      if !decide (task.created_by_user_id = some userId)
          && !decide (membership.role = some "admin")
          && !decide (membership.role = some "member") then (db, 403)
      else if (match assigned_to_user_id with
          | .value a => !fitsInt4 a
          | _ => false) then (db, 500)
      else if (match assigned_to_user_id with
          | .value a => (membershipOf db a task.team_id).isNone
          | _ => false) then (db, 400)
      else
        match updateTaskRow db taskId title description status assigned_to_user_id due_date with
        | .error _ => (db, 500)
        | .ok (db1, updated) => if updated = 0 then (db1, 404) else (db1, 200)

/-! ## Runs of the server -/

/-- A request that can change the store. -/
inductive Request where
  | register (username email password : Option String)
  | createTeam (userId : Nat) (name description : Option String)
  | updateTeam (userId teamId : Nat) (name description : Field String)
  | deleteTeam (userId teamId : Nat)
  | addMember (adminUserId teamId : Nat) (member_email : Option String) (role : Field String)
  | removeMember (adminUserId teamId memberIdToRemove : Nat)
  | createTask (userId : Nat) (title description : Option String)
      (team_id assigned_to_user_id due_date : Option Nat)
  | updateTask (userId taskId : Nat) (title description status : Field String)
      (assigned_to_user_id due_date : Field Nat)
  | deleteTask (userId taskId : Nat)
  deriving DecidableEq, Repr

/-- One request served to completion: the store left behind and the status. -/
def handle (db : Db) : Request → Db × Nat
  | .register u e p => ((postAuthRegister db u e p).1, (postAuthRegister db u e p).2.1)
  | .createTeam u n d => postTeams db u n d
  | .updateTeam u t n d => putTeamsId db u t n d
  | .deleteTeam u t => deleteTeamsId db u t
  | .addMember u t e r => postTeamsMembers db u t e r
  | .removeMember u t m => deleteTeamsMembers db u t m
  | .createTask u ti de te a du => postTasks db u ti de te a du
  | .updateTask u t ti de st a du => putTasksId db u t ti de st a du
  | .deleteTask u t => deleteTasksId db u t

/-- Requests served one after the other, each to completion. -/
def run (db : Db) : List Request → Db
  | [] => db
  | r :: rs => run (handle db r).1 rs

/-- Stores reachable from the empty store by serving requests one after the
other, every request satisfying `allowed` in the store it is served in. -/
inductive ReachableVia (allowed : Db → Request → Prop) : Db → Prop where
  | init : ReachableVia allowed Db.empty
  | step {db : Db} (r : Request) :
      ReachableVia allowed db → allowed db r → ReachableVia allowed (handle db r).1

/-- Stores reachable from the empty store by any sequence of requests. -/
def Reachable (db : Db) : Prop := ReachableVia (fun _ _ => True) db

/-! ## Predicates on the store -/

/-- User `u` holds a membership with role `'admin'` in team `t`. -/
def IsAdmin (db : Db) (u t : Nat) : Prop :=
  ∃ x ∈ db.team_memberships, x.user_id = u ∧ x.team_id = t ∧ x.role = some "admin"

instance (db : Db) (u t : Nat) : Decidable (IsAdmin db u t) := by
  unfold IsAdmin; infer_instance

/-- User `u` holds a membership in team `t`, whatever its role. -/
def IsMember (db : Db) (u t : Nat) : Prop :=
  ∃ x ∈ db.team_memberships, x.user_id = u ∧ x.team_id = t

instance (db : Db) (u t : Nat) : Decidable (IsMember db u t) := by
  unfold IsMember; infer_instance

/-- The constraint `table.unique(['user_id', 'team_id'])` of `team_memberships`. -/
def UniqueMembership (db : Db) : Prop :=
  db.team_memberships.Pairwise (fun a b => ¬ (a.user_id = b.user_id ∧ a.team_id = b.team_id))

instance (db : Db) : Decidable (UniqueMembership db) := by
  unfold UniqueMembership; infer_instance

/-- The rows of `team_memberships` for the pair `(u, t)`. -/
def membershipRows (db : Db) (u t : Nat) : List Membership :=
  db.team_memberships.filter (fun m => decide (m.user_id = u ∧ m.team_id = t))

/-- What the schema and its sequences maintain: team and task ids were handed
out by their sequence and no two tasks share one, `team_memberships.team_id`
references an existing team, and `(user_id, team_id)` is unique. -/
def Integrity (db : Db) : Prop :=
  (∀ t ∈ db.teams, t.id < db.next_team_id) ∧
  (∀ m ∈ db.team_memberships, ∃ t ∈ db.teams, t.id = m.team_id) ∧
  UniqueMembership db ∧
  (∀ t ∈ db.tasks, t.id < db.next_task_id) ∧
  db.tasks.Pairwise (fun a b => a.id ≠ b.id)

instance (db : Db) : Decidable (Integrity db) := by
  unfold Integrity; infer_instance

/-- Every membership row sits in a team that has a row with role `'admin'`. -/
def MembersHaveAdmin (db : Db) : Prop :=
  ∀ m ∈ db.team_memberships,
    ∃ a ∈ db.team_memberships, a.team_id = m.team_id ∧ a.role = some "admin"

instance (db : Db) : Decidable (MembersHaveAdmin db) := by
  unfold MembersHaveAdmin; infer_instance

/-- The request is a remove-member whose target is, in this store, the assignee
of a task of that team. -/
def removesAssignee (db : Db) : Request → Prop
  | .removeMember _ teamId memberIdToRemove =>
    ∃ task ∈ db.tasks, task.team_id = teamId ∧ task.assigned_to_user_id = some memberIdToRemove
  | _ => False

/-- Every task with a non-null `assigned_to_user_id` names a current member of
the task's team. -/
def AssigneesAreMembers (db : Db) : Prop :=
  ∀ task ∈ db.tasks, ∀ a ∈ task.assigned_to_user_id, IsMember db a task.team_id

instance (db : Db) : Decidable (AssigneesAreMembers db) := by
  unfold AssigneesAreMembers; infer_instance

instance (db : Db) (r : Request) : Decidable (removesAssignee db r) := by
  cases r <;> unfold removesAssignee <;> infer_instance

/-! ## Team creation over a failing store, the reading handlers, request bodies -/

/-- `POST /teams` with the second statement, the insert into `team_memberships`,
left to the store: `membershipInsert` is what
`await db('team_memberships').insert({...})` does, so that it may also be
rejected for a reason `insertMembership` does not know. -/
def postTeamsWith (membershipInsert : Db → Nat → Nat → Option String → Except DbError Db)
    (db : Db) (created_by_user_id : Nat) (name description : Option String) : Db × Nat :=
  if !truthyStr name then (db, 400)
  else
    match insertTeam db (name.getD "") description created_by_user_id with
    | .error e => (db, catchStatus e)
    | .ok (db1, teamId) =>
      match membershipInsert db1 created_by_user_id teamId (some "admin") with
      | .error e => (db1, catchStatus e)
      | .ok db2 => (db2, 201)

/-- What `GET /teams/:id` sends: the team row with `my_role`, or a status with
its message. -/
inductive TeamResponse where
  | ok (team : Team) (my_role : Option String)
  | error (status : Nat) (message : String)
  deriving DecidableEq, Repr

/-- The HTTP status of a `TeamResponse`. -/
def TeamResponse.status : TeamResponse → Nat
  | .ok _ _ => 200
  | .error status _ => status

/-- `GET /teams/:id`. The team lookup, the first statement of the `try` block,
binds `teamId`: above `int4Max` it throws and the `catch` answers 500. -/
def getTeamsId (db : Db) (userId teamId : Nat) : TeamResponse :=
  if !fitsInt4 teamId then .error 500 "Server error fetching team."
  else
    match teamById db teamId with
    | none => .error 404 "Team not found."
    | some team =>
      match membershipOf db userId teamId with
      | none => .error 403 "Forbidden: You are not a member of this team."
      | some membership => .ok team membership.role

/-- A row of `GET /tasks`: `tasks.*` with the three joined columns. -/
structure TaskRow where
  task : Task
  my_team_role : Option String
  assigned_to_username : Option String
  created_by_username : Option String
  deriving DecidableEq, Repr

/-- The column `x.username` of `leftJoin('users as x', col, '=', 'x.id')`: one
value per user row matched, a single NULL when no row matches. -/
def leftJoinUsername (db : Db) (id : Option Nat) : List (Option String) :=
  match db.users.filter (fun u => decide (some u.id = id)) with
  | [] => [none]
  | us => us.map (fun u => some u.username)

/-- The rows of `tasks` joined with `team_memberships` on `team_id` and left
joined twice with `users`, before any `where`. -/
def tasksJoined (db : Db) : List (Membership × TaskRow) :=
  db.tasks.flatMap (fun t =>
    (db.team_memberships.filter (fun m => decide (t.team_id = m.team_id))).flatMap (fun m =>
      (leftJoinUsername db t.assigned_to_user_id).flatMap (fun assigned =>
        (leftJoinUsername db t.created_by_user_id).map (fun creator =>
          (m, TaskRow.mk t m.role assigned creator)))))

/-- `GET /tasks`. The query parameters are strings: an id filter is `none` when
the parameter is absent or empty and is applied otherwise, `status` is applied
when truthy. -/
def getTasks (db : Db) (userId : Nat) (team_id assigned_to_user_id : Option Nat)
    (status : Option String) : List TaskRow × Nat :=
  (((tasksJoined db).filter (fun r =>
      decide (r.1.user_id = userId)
      && (match team_id with
          | some t => decide (r.2.task.team_id = t)
          | none => true)
      && (match assigned_to_user_id with
          | some a => decide (r.2.task.assigned_to_user_id = some a)
          | none => true)
      && (if truthyStr status then decide (r.2.task.status = status) else true))).map
    (fun r => r.2), 200)

/-- What `GET /tasks/:id` sends: the task row with `my_team_role`, or a status
with its message. -/
inductive TaskResponse where
  | ok (task : Task) (my_team_role : Option String)
  | error (status : Nat) (message : String)
  deriving DecidableEq, Repr

/-- The HTTP status of a `TaskResponse`. -/
def TaskResponse.status : TaskResponse → Nat
  | .ok _ _ => 200
  | .error status _ => status

/-- `GET /tasks/:id`: the join of `taskJoinMembership`, selecting `tasks.*` and
the role. The join binds `taskId`: above `int4Max` it throws and the `catch`
answers 500. -/
def getTasksId (db : Db) (userId taskId : Nat) : TaskResponse :=
  if !fitsInt4 taskId then .error 500 "Server error fetching task."
  else
    match taskJoinMembership db taskId userId with
    | none => .error 404 "Task not found or you do not have access."
    | some (task, membership) => .ok task membership.role

/-- A body of `POST /tasks` as a client may send it. The handler destructures
`title`, `description`, `team_id`, `assigned_to_user_id` and `due_date`; the
other two fields are never read. -/
structure TaskBody where
  title : Option String
  description : Option String
  team_id : Option Nat
  assigned_to_user_id : Option Nat
  due_date : Option Nat
  status : Option String
  created_by_user_id : Option Nat
  deriving DecidableEq, Repr

/-- `POST /tasks` applied to a whole body. -/
def postTasksOfBody (db : Db) (userId : Nat) (body : TaskBody) : Db × Nat :=
  postTasks db userId body.title body.description body.team_id body.assigned_to_user_id
    body.due_date

/-- The role sent by an add-member request is absent, `'admin'` or `'member'`;
every other request qualifies. -/
def sendsKnownRole : Request → Prop
  | .addMember _ _ _ role => role = .undefined ∨ role = .value "admin" ∨ role = .value "member"
  | _ => True

instance (r : Request) : Decidable (sendsKnownRole r) := by
  cases r <;> unfold sendsKnownRole <;> infer_instance

/-- Every membership row has role `'admin'` or `'member'`. -/
def RolesAdminOrMember (db : Db) : Prop :=
  ∀ m ∈ db.team_memberships, m.role = some "admin" ∨ m.role = some "member"

instance (db : Db) : Decidable (RolesAdminOrMember db) := by
  unfold RolesAdminOrMember; infer_instance

/-! ## Sessions, serialisation of the user, and two variants used for comparison -/

/-- A row of `user_sessions` as passport reads it: the session id carried by the
`connect.sid` cookie and `sess.passport.user`, the id stored at login. Expiry
is left out. -/
structure Session where
  sid : Nat
  user : Option Nat
  deriving DecidableEq, Repr

/-- What `passport.session()` with `deserializeUser` leaves in `req.user`: the
user row whose id the session of the cookie holds; absent without a cookie,
without a stored session, without a login in it, or without that user row. -/
def reqUser (db : Db) (sessions : List Session) (cookie : Option Nat) : Option User :=
  match cookie with
  | none => none
  | some sid =>
    match sessions.find? (fun s => decide (s.sid = sid)) with
    | none => none
    | some session =>
      match session.user with
      | none => none
      | some id => db.users.find? (fun u => decide (u.id = id))

/-- The test `req.isAuthenticated()` of the middleware `isAuthenticated`. -/
def isAuthenticated (db : Db) (sessions : List Session) (cookie : Option Nat) : Bool :=
  (reqUser db sessions cookie).isSome

/-- A route mounted behind `isAuthenticated`: 401 with the store untouched when
the test fails, the handler applied to `req.user.id` otherwise. -/
def behindIsAuthenticated (db : Db) (sessions : List Session) (cookie : Option Nat)
    (handler : Nat → Db × Nat) : Db × Nat :=
  match reqUser db sessions cookie with
  | none => (db, 401)
  | some user => handler user.id

/-- `POST /auth/logout`. The route is mounted without `isAuthenticated`;
`req.logout` drops the login of the session and `req.session.destroy` deletes
the session of the cookie from the store, neither of which fails when nobody is
logged in. -/
def postAuthLogout (sessions : List Session) (cookie : Option Nat) : List Session × Nat :=
  (sessions.filter (fun s => !decide (some s.sid = cookie)), 200)

/-- The sessions after a registration: `req.login` stores a session for the id
it is handed, under a session id `sid` new to the store; without a login
nothing is stored (`saveUninitialized: false`). -/
def sessionsAfterRegister (sessions : List Session) (sid : Nat) (login : Option Nat) :
    List Session :=
  match login with
  | none => sessions
  | some id => sessions ++ [⟨sid, some id⟩]

/-- A JavaScript value as `serializeUser` can tell values apart: an object is
kept with the value of its `id` property (`undefined` when it has none), a
number as an integer or `NaN`. -/
inductive JsValue where
  | undefined : JsValue
  | null : JsValue
  | boolean (b : Bool) : JsValue
  | number (n : Int) : JsValue
  | nan : JsValue
  | string (s : String) : JsValue
  | object (id : JsValue) : JsValue
  deriving DecidableEq, Repr

/-- JavaScript truthiness. -/
def JsValue.truthy : JsValue → Bool
  | .undefined => false
  | .null => false
  | .boolean b => b
  | .number n => !decide (n = 0)
  | .nan => false
  | .string s => !decide (s = "")
  | .object _ => true

/-- The test `typeof v === 'object'`, which `null` passes. -/
def JsValue.typeofObject : JsValue → Bool
  | .null => true
  | .object _ => true
  | _ => false

/-- The property read `v.id` on a value other than `null` and `undefined`. -/
def JsValue.getId : JsValue → JsValue
  | .object id => id
  | _ => .undefined

/-- The value is not an object (`null` counts as a primitive). -/
def JsValue.isPrimitive : JsValue → Bool
  | .object _ => false
  | _ => true

/-- `passport.serializeUser`: the error given to `done`, or the value stored in
the session. -/
def serializeUser (user : JsValue) : Except String JsValue :=
  let userIdToStore :=
    if user.truthy && user.getId.typeofObject && !decide (user.getId = .null)
        && user.getId.getId.truthy then user.getId.getId
    else if user.truthy then user.getId
    else user
  if decide (userIdToStore = .undefined) || decide (userIdToStore = .null) then
    .error "User ID is missing for serialization."
  else .ok userIdToStore

/-- `DELETE /teams/:teamId/members/:memberId` with the last-admin guard reduced
to `if (isLastAdmin)`, the conjunct `adminUserId === memberIdToRemove` dropped. -/
def deleteTeamsMembersLastAdminOnly (db : Db) (adminUserId teamId memberIdToRemove : Nat) :
    Db × Nat :=
  match adminMembershipOf db adminUserId teamId with
  | none => (db, 403)
  | some _ =>
    if (match teamById db teamId with
        | some team => decide (team.created_by_user_id = memberIdToRemove)
        | none => false) && decide (adminUserId = memberIdToRemove) then (db, 403)
    else if isLastAdmin db teamId memberIdToRemove then (db, 403)
    else
      match deleteMembershipRows db memberIdToRemove teamId with
      | (db1, deleted) => if deleted = 0 then (db1, 404) else (db1, 200)

/-- The status is one of the three strings the schema's comment lists. -/
def knownStatus (status : Option String) : Prop :=
  status = some "pending" ∨ status = some "in-progress" ∨ status = some "completed"

instance (status : Option String) : Decidable (knownStatus status) := by
  unfold knownStatus; infer_instance

/-- The status sent by a task-update request is absent or one of the three
strings; every other request qualifies. -/
def sendsKnownStatus : Request → Prop
  | .updateTask _ _ _ _ status _ _ =>
    status = .undefined ∨ status = .value "pending" ∨ status = .value "in-progress"
      ∨ status = .value "completed"
  | _ => True

instance (r : Request) : Decidable (sendsKnownStatus r) := by
  cases r <;> unfold sendsKnownStatus <;> infer_instance

/-- Every task has one of the three statuses. -/
def StatusesKnown (db : Db) : Prop :=
  ∀ task ∈ db.tasks, knownStatus task.status

instance (db : Db) : Decidable (StatusesKnown db) := by
  unfold StatusesKnown; infer_instance

/-- The primary key of `users`: no two rows share an id. -/
def UniqueUserIds (db : Db) : Prop :=
  db.users.Pairwise (fun a b => a.id ≠ b.id)

instance (db : Db) : Decidable (UniqueUserIds db) := by
  unfold UniqueUserIds; infer_instance

/-- Referential integrity of `team_memberships.team_id`. -/
def MembershipsReferenceTeams (db : Db) : Prop :=
  ∀ m ∈ db.team_memberships, ∃ t ∈ db.teams, t.id = m.team_id

instance (db : Db) : Decidable (MembershipsReferenceTeams db) := by
  unfold MembershipsReferenceTeams; infer_instance

/-- The `where` clauses of `GET /tasks` that read the task row alone: the
filters on team, assignee and status. -/
def taskMatches (team_id assigned_to_user_id : Option Nat) (status : Option String)
    (t : Task) : Bool :=
  (match team_id with
    | some x => decide (t.team_id = x)
    | none => true)
  && (match assigned_to_user_id with
      | some a => decide (t.assigned_to_user_id = some a)
      | none => true)
  && (if truthyStr status then decide (t.status = status) else true)

/-! ## Concrete stores used as examples -/

/-- Users a, b and c (ids 1, 2, 3) register and a creates team "Eng" (id 1). -/
def engCreated : Db :=
  run Db.empty
    [ .register (some "a") (some "a@x") (some "pw"),
      .register (some "b") (some "b@x") (some "pw"),
      .register (some "c") (some "c@x") (some "pw"),
      .createTeam 1 (some "Eng") none ]

/-- As `engCreated`, then a adds b with the default role: a is creator and sole
admin, b is a plain member, c is an outsider. -/
def engTeam : Db :=
  run engCreated [ .addMember 1 1 (some "b@x") .undefined ]

/-- As `engCreated`, then a adds b with role `'admin'`. -/
def twoAdmins : Db :=
  run engCreated [ .addMember 1 1 (some "b@x") (.value "admin") ]

/-- As `twoAdmins`, then b removes a: b is the sole admin and not the creator. -/
def handedOver : Db :=
  run twoAdmins [ .removeMember 2 1 1 ]

/-- As `handedOver`, then b adds c with role `'admin'`. -/
def handedOverTwoAdmins : Db :=
  run handedOver [ .addMember 2 1 (some "c@x") (.value "admin") ]

/-- As `engTeam`, then a creates task "Fix bug" assigned to b and removes b from
the team. -/
def assigneeRemoved : Db :=
  run engTeam
    [ .createTask 1 (some "Fix bug") none (some 1) (some 2) none,
      .removeMember 1 1 2 ]

/-- As `engTeam`, then a creates task "Fix bug" assigned to b, adds c and removes
c again. -/
def outsiderRemoved : Db :=
  run engTeam
    [ .createTask 1 (some "Fix bug") none (some 1) (some 2) none,
      .addMember 1 1 (some "c@x") .undefined,
      .removeMember 1 1 3 ]

/-- As `engCreated`, then a adds b with role `'viewer'` and creates the
unassigned task "Fix bug": b is a member whose role is neither `'admin'` nor
`'member'`, and c is an outsider. -/
def viewerTeam : Db :=
  run engCreated
    [ .addMember 1 1 (some "b@x") (.value "viewer"),
      .createTask 1 (some "Fix bug") none (some 1) none none ]

/-- As `engTeam`, then b creates the unassigned task "Fix bug" (id 1) and a
creates the unassigned task "Write docs" (id 2). -/
def twoTasks : Db :=
  run engTeam
    [ .createTask 2 (some "Fix bug") none (some 1) none none,
      .createTask 1 (some "Write docs") none (some 1) none none ]

/-- A store that rejects every insert into `team_memberships`. -/
def membershipInsertDown : Db → Nat → Nat → Option String → Except DbError Db :=
  fun _ _ _ _ => .error .connection_failure

/-- As `engCreated`, then a adds b with role `'owner'`. -/
def ownerAdded : Db :=
  run engCreated [ .addMember 1 1 (some "b@x") (.value "owner") ]

/-- The store in which only a has registered. -/
def onlyUserA : Db :=
  run Db.empty [ .register (some "a") (some "a@x") (some "pw") ]

/-- As `twoTasks`, then b sets the status of task 1 to `'archived'`. -/
def archivedTask : Db :=
  run twoTasks [ .updateTask 2 1 .undefined .undefined (.value "archived") .undefined .undefined ]

/-- As `engTeam`, then a creates the task "Fix bug" assigned to b. -/
def assignedTask : Db :=
  run engTeam [ .createTask 1 (some "Fix bug") none (some 1) (some 2) none ]

/-- One stored session, with id 7, in which user 1 is logged in. -/
def oneSession : List Session := [⟨7, some 1⟩]

/-! ## Lemmas on the queries -/

theorem adminMembershipOf_eq_none_iff (db : Db) (u t : Nat) :
    adminMembershipOf db u t = none ↔ ¬ IsAdmin db u t := by
  unfold adminMembershipOf IsAdmin
  rw [List.find?_eq_none]
  simp

theorem adminMembershipOf_isSome_iff (db : Db) (u t : Nat) :
    (∃ x, adminMembershipOf db u t = some x) ↔ IsAdmin db u t := by
  rw [← not_iff_not, ← adminMembershipOf_eq_none_iff]
  cases adminMembershipOf db u t <;> simp

theorem membershipOf_eq_none_iff (db : Db) (u t : Nat) :
    membershipOf db u t = none ↔ ¬ IsMember db u t := by
  unfold membershipOf IsMember
  rw [List.find?_eq_none]
  simp

theorem membershipOf_isSome_iff (db : Db) (u t : Nat) :
    (∃ x, membershipOf db u t = some x) ↔ IsMember db u t := by
  rw [← not_iff_not, ← membershipOf_eq_none_iff]
  cases membershipOf db u t <;> simp

theorem truthyStr_some {e : String} (he : e ≠ "") : truthyStr (some e) = true := by
  simp [truthyStr, he]

theorem length_le_one_of_pairwise_of_all {α : Type} {R : α → α → Prop} :
    ∀ (l : List α), l.Pairwise R → (∀ a ∈ l, ∀ b ∈ l, ¬ R a b) → l.length ≤ 1
  | [], _, _ => by simp
  | [_], _, _ => by simp
  | a :: b :: l, hp, hall => by
    have hab : R a b := (List.pairwise_cons.mp hp).1 b (by simp)
    exact absurd hab (hall a (by simp) b (by simp))

theorem two_le_length_of_mem_of_ne {α : Type} {x y : α} (hxy : x ≠ y) :
    ∀ (l : List α), x ∈ l → y ∈ l → 2 ≤ l.length
  | [], hx, _ => by simp at hx
  | [a], hx, hy => by
    simp at hx hy
    exact absurd (hx.trans hy.symm) hxy
  | _ :: _ :: _, _, _ => by simp

/-- Under the unique constraint, a sole admin is the whole answer of the admin query. -/
theorem currentAdminMemberships_sole (db : Db) (u t : Nat) (huniq : UniqueMembership db)
    (hadmin : IsAdmin db u t)
    (hsole : ∀ x ∈ db.team_memberships, x.team_id = t → x.role = some "admin" → x.user_id = u) :
    currentAdminMemberships db t = [u] := by
  unfold currentAdminMemberships
  set l := db.team_memberships.filter
    (fun m => decide (m.team_id = t ∧ m.role = some "admin")) with hl
  have hmem : ∀ x ∈ l, x.user_id = u ∧ x.team_id = t := by
    intro x hx
    rw [hl, List.mem_filter] at hx
    simp only [decide_eq_true_eq] at hx
    exact ⟨hsole x hx.1 hx.2.1 hx.2.2, hx.2.1⟩
  have hpw : l.Pairwise (fun a b => ¬ (a.user_id = b.user_id ∧ a.team_id = b.team_id)) :=
    List.Pairwise.sublist (List.filter_sublist _) huniq
  have hlen : l.length ≤ 1 := by
    apply length_le_one_of_pairwise_of_all l hpw
    intro a ha b hb
    have h1 := hmem a ha
    have h2 := hmem b hb
    simp [h1.1, h1.2, h2.1, h2.2]
  obtain ⟨x, hx, hxu, hxt, hxr⟩ := hadmin
  have hxl : x ∈ l := by
    rw [hl, List.mem_filter]
    simp [hx, hxt, hxr]
  match hl2 : l, hxl, hlen, hmem with
  | [y], _, _, hmem => simp [(hmem y (by simp)).1]
  | _ :: _ :: _, _, hlen, _ => simp at hlen

/-- Two admins of a team with different user ids make the admin query at least two long. -/
theorem two_le_currentAdminMemberships (db : Db) (a b t : Nat) (hab : a ≠ b)
    (ha : IsAdmin db a t) (hb : IsAdmin db b t) :
    2 ≤ (currentAdminMemberships db t).length := by
  obtain ⟨x, hx, hxu, hxt, hxr⟩ := ha
  obtain ⟨y, hy, hyu, hyt, hyr⟩ := hb
  unfold currentAdminMemberships
  rw [List.length_map]
  have hxy : x ≠ y := fun h => hab (by rw [← hxu, ← hyu, h])
  refine two_le_length_of_mem_of_ne hxy _ ?_ ?_
  · rw [List.mem_filter]; simp [hx, hxt, hxr]
  · rw [List.mem_filter]; simp [hy, hyt, hyr]

theorem fitsInt4_of_le {id : Nat} (h : id ≤ int4Max) : fitsInt4 id = true := by
  simp [fitsInt4, h]

theorem fitsInt4_of_lt {id : Nat} (h : int4Max < id) : fitsInt4 id = false := by
  simp [fitsInt4, Nat.not_le.mpr h]

/-! ## Remove member and add member: the rejections -/

/-- C6 as stated fails: outsider c asks to remove b from team 2147483648, an id above the
`integer` column `team_id`. c holds no admin membership in that team, the admin lookup
throws, and the answer is 500, not 403. -/
theorem removeMember_not_admin_counterexample :
    ¬ IsAdmin engTeam 3 2147483648 ∧
      deleteTeamsMembersServed engTeam 3 2147483648 2 = (engTeam, 500) := by
  decide

/-- C6, amended: a remove-member request by a user who is not an admin of the team is
answered 403 when the team id fits the `integer` column and 500 when it lies above it; in
both cases the store stays as it was, whoever the target is. -/
theorem removeMember_not_admin_forbidden (db : Db) (adminUserId teamId memberIdToRemove : Nat)
    (h : ¬ IsAdmin db adminUserId teamId) :
    (teamId ≤ int4Max →
      deleteTeamsMembersServed db adminUserId teamId memberIdToRemove = (db, 403)) ∧
    (int4Max < teamId →
      deleteTeamsMembersServed db adminUserId teamId memberIdToRemove = (db, 500)) := by
  refine ⟨?_, ?_⟩
  · intro hfit
    unfold deleteTeamsMembersServed
    rw [fitsInt4_of_le hfit, (adminMembershipOf_eq_none_iff db adminUserId teamId).mpr h]
    rfl
  · intro hlt
    unfold deleteTeamsMembersServed
    rw [fitsInt4_of_lt hlt]
    rfl

/-- C6, amended, at a concrete store: outsider c asks to remove member b from team 1, and
to remove the target 4294967297 from it. -/
theorem removeMember_not_admin_forbidden_witness :
    ¬ IsAdmin engTeam 3 1 ∧ deleteTeamsMembersServed engTeam 3 1 2 = (engTeam, 403) ∧
      deleteTeamsMembersServed engTeam 3 1 4294967297 = (engTeam, 403) :=
  ⟨by decide, (removeMember_not_admin_forbidden engTeam 3 1 2 (by decide)).1 (by decide),
    (removeMember_not_admin_forbidden engTeam 3 1 4294967297 (by decide)).1 (by decide)⟩

/-- C7 as stated fails: plain member b asks to add c to team 2147483648, an id above the
`integer` column `team_id`. b holds no admin membership in that team, the admin lookup
throws, and the answer is 500, not 403. -/
theorem addMember_not_admin_counterexample :
    ¬ IsAdmin engTeam 2 2147483648 ∧
      postTeamsMembersServed engTeam 2 2147483648 (some "c@x") .undefined = (engTeam, 500) := by
  decide

/-- C7, amended: an add-member request with an email supplied, by a user who is not an
admin of the team, is answered 403 when the team id fits the `integer` column and 500 when
it lies above it; in both cases nothing is inserted. -/
theorem addMember_not_admin_forbidden (db : Db) (adminUserId teamId : Nat) (email : String)
    (role : Field String) (he : email ≠ "") (h : ¬ IsAdmin db adminUserId teamId) :
    (teamId ≤ int4Max →
      postTeamsMembersServed db adminUserId teamId (some email) role = (db, 403)) ∧
    (int4Max < teamId →
      postTeamsMembersServed db adminUserId teamId (some email) role = (db, 500)) := by
  refine ⟨?_, ?_⟩
  · intro hfit
    unfold postTeamsMembersServed
    rw [truthyStr_some he, fitsInt4_of_le hfit,
      (adminMembershipOf_eq_none_iff db adminUserId teamId).mpr h]
    rfl
  · intro hlt
    unfold postTeamsMembersServed
    rw [truthyStr_some he, fitsInt4_of_lt hlt]
    rfl

/-- C7, amended, at a concrete store: plain member b asks to add c to team 1. -/
theorem addMember_not_admin_forbidden_witness :
    ¬ IsAdmin engTeam 2 1 ∧
      postTeamsMembersServed engTeam 2 1 (some "c@x") (.value "admin") = (engTeam, 403) :=
  ⟨by decide, (addMember_not_admin_forbidden engTeam 2 1 "c@x" (.value "admin")
    (by decide) (by decide)).1 (by decide)⟩

/-- C5: the creator of a team, being an admin of it and targeting themselves, is answered
403 and the store stays as it was, whatever other admins the team has. -/
theorem removeMember_creator_self_forbidden (db : Db) (userId teamId : Nat) (team : Team)
    (hteam : teamById db teamId = some team) (hcreator : team.created_by_user_id = userId)
    (hadmin : IsAdmin db userId teamId) :
    deleteTeamsMembers db userId teamId userId = (db, 403) := by
  obtain ⟨x, hx⟩ := (adminMembershipOf_isSome_iff db userId teamId).mpr hadmin
  unfold deleteTeamsMembers
  rw [hx]
  simp [hteam, hcreator]

/-- C5 at a concrete store: creator a, with b a second admin, asks to remove themselves. -/
theorem removeMember_creator_self_forbidden_witness :
    IsAdmin twoAdmins 2 1 ∧ deleteTeamsMembers twoAdmins 1 1 1 = (twoAdmins, 403) :=
  ⟨by decide, removeMember_creator_self_forbidden twoAdmins 1 1
    ⟨1, "Eng", none, 1⟩ (by decide) rfl (by decide)⟩

/-- C8: an add-member request by an admin whose target, looked up by email, already holds
a membership in the team is answered 409 and the store, hence the role of the existing
membership, stays as it was. -/
theorem addMember_existing_conflict (db : Db) (adminUserId teamId : Nat) (email : String)
    (role : Field String) (memberUser : User) (he : email ≠ "")
    (hadmin : IsAdmin db adminUserId teamId) (huser : userByEmail db email = some memberUser)
    (hmember : IsMember db memberUser.id teamId) :
    postTeamsMembers db adminUserId teamId (some email) role = (db, 409) := by
  obtain ⟨x, hx⟩ := (adminMembershipOf_isSome_iff db adminUserId teamId).mpr hadmin
  obtain ⟨y, hy⟩ := (membershipOf_isSome_iff db memberUser.id teamId).mpr hmember
  unfold postTeamsMembers
  rw [truthyStr_some he, hx]
  simp [huser, hy]

/-- C8 at a concrete store: admin a adds plain member b again, now as admin. -/
theorem addMember_existing_conflict_witness :
    membershipOf engTeam 2 1 = some ⟨2, 2, 1, some "member"⟩ ∧
      postTeamsMembers engTeam 1 1 (some "b@x") (.value "admin") = (engTeam, 409) :=
  ⟨by decide, addMember_existing_conflict engTeam 1 1 "b@x" (.value "admin")
    ⟨2, "b", "b@x"⟩ (by decide) (by decide) (by decide) (by decide)⟩

/-- C3: under the unique constraint on memberships, the only admin of a team asking to
remove themselves is answered 403 and the store stays as it was. -/
theorem removeMember_sole_admin_self_forbidden (db : Db) (userId teamId : Nat)
    (huniq : UniqueMembership db) (hadmin : IsAdmin db userId teamId)
    (hsole : ∀ x ∈ db.team_memberships,
      x.team_id = teamId → x.role = some "admin" → x.user_id = userId) :
    deleteTeamsMembers db userId teamId userId = (db, 403) := by
  obtain ⟨x, hx⟩ := (adminMembershipOf_isSome_iff db userId teamId).mpr hadmin
  have hlast : isLastAdmin db teamId userId = true := by
    unfold isLastAdmin
    rw [currentAdminMemberships_sole db userId teamId huniq hadmin hsole]
    simp
  unfold deleteTeamsMembers
  rw [hx, hlast]
  simp

/-- C3 at a concrete store: b, sole admin and not the creator, asks to remove themselves. -/
theorem removeMember_sole_admin_self_forbidden_witness :
    teamById handedOver 1 = some ⟨1, "Eng", none, 1⟩ ∧
      deleteTeamsMembers handedOver 2 1 2 = (handedOver, 403) :=
  ⟨by decide, removeMember_sole_admin_self_forbidden handedOver 2 1
    (by decide) (by decide) (by decide)⟩


/-! ## What a successful write leaves behind -/

theorem teamById_isSome_iff (db : Db) (teamId : Nat) :
    ¬ (teamById db teamId).isNone = true ↔ ∃ t ∈ db.teams, t.id = teamId := by
  unfold teamById
  cases h : db.teams.find? (fun t => decide (t.id = teamId)) with
  | none =>
    rw [List.find?_eq_none] at h
    simp only [Option.isNone_none, not_true_eq_false, false_iff, not_exists, not_and]
    intro t ht
    simpa using h t ht
  | some t =>
    have h1 := List.mem_of_find?_eq_some h
    have h2 := List.find?_some h
    simp only [decide_eq_true_eq] at h2
    simp only [Option.isNone_some, Bool.false_eq_true, not_false_eq_true, true_iff]
    exact ⟨t, h1, h2⟩

theorem insertTeam_ok {db db1 : Db} {name : String} {description : Option String}
    {userId teamId : Nat} (h : insertTeam db name description userId = .ok (db1, teamId)) :
    teamId = db.next_team_id ∧
      db1 = { db with teams := db.teams ++ [⟨db.next_team_id, name, description, userId⟩], next_team_id := db.next_team_id + 1 } := by
  unfold insertTeam at h
  split_ifs at h
  simp only [Except.ok.injEq, Prod.mk.injEq] at h
  exact ⟨h.2.symm, h.1.symm⟩

theorem insertMembership_ok {db db1 : Db} {userId teamId : Nat} {role : Option String}
    (h : insertMembership db userId teamId role = .ok db1) :
    db1 = { db with team_memberships := db.team_memberships ++ [⟨db.next_membership_id, userId, teamId, role⟩], next_membership_id := db.next_membership_id + 1 } ∧
      ¬ IsMember db userId teamId ∧ ∃ t ∈ db.teams, t.id = teamId := by
  unfold insertMembership at h
  split_ifs at h with h1 h2 h3
  simp only [Except.ok.injEq] at h
  refine ⟨h.symm, ?_, ?_⟩
  · rw [← membershipOf_eq_none_iff]
    cases hm : membershipOf db userId teamId with
    | none => rfl
    | some x => simp [hm] at h2
  · rw [← teamById_isSome_iff]
    simp only [Bool.or_eq_true, not_or] at h3
    exact h3.2

theorem insertTask_ok {db db1 : Db} {title status : String} {description : Option String}
    {teamId userId taskId : Nat} {assignee dueDate : Option Nat}
    (h : insertTask db title description teamId assignee dueDate userId status
      = .ok (db1, taskId)) :
    db1 = { db with tasks := db.tasks ++ [⟨db.next_task_id, title, description, some status, teamId, assignee, dueDate, some userId⟩], next_task_id := db.next_task_id + 1 } := by
  unfold insertTask at h
  split_ifs at h
  simp only [Except.ok.injEq, Prod.mk.injEq] at h
  exact h.1.symm


/-! ## What each handler can do to the store -/

theorem catchStatus_ne_created (e : DbError) : catchStatus e ≠ 201 := by
  unfold catchStatus
  split_ifs <;> decide

theorem postAuthRegister_effect (db : Db) (username email password : Option String) :
    (postAuthRegister db username email password).1.teams = db.teams ∧
    (postAuthRegister db username email password).1.team_memberships = db.team_memberships ∧
    (postAuthRegister db username email password).1.tasks = db.tasks ∧
    (postAuthRegister db username email password).1.next_team_id = db.next_team_id ∧
    (postAuthRegister db username email password).1.next_task_id = db.next_task_id := by
  unfold postAuthRegister
  split
  · simp
  · simp only
    split
    · simp
    · split
      · simp
      · rename_i db1 userId h
        unfold insertUser at h
        split_ifs at h
        simp only [Except.ok.injEq, Prod.mk.injEq] at h
        rw [← h.1]
        simp

theorem postTeams_effect (db : Db) (userId : Nat) (name description : Option String) :
    ((postTeams db userId name description).1 = db ∧
      (postTeams db userId name description).2 ≠ 201) ∨
    ((postTeams db userId name description).1 = { db with teams := db.teams ++ [⟨db.next_team_id, name.getD "", description, userId⟩], next_team_id := db.next_team_id + 1 } ∧
      (postTeams db userId name description).2 ≠ 201) ∨
    ((postTeams db userId name description).1 = { db with teams := db.teams ++ [⟨db.next_team_id, name.getD "", description, userId⟩], next_team_id := db.next_team_id + 1, team_memberships := db.team_memberships ++ [⟨db.next_membership_id, userId, db.next_team_id, some "admin"⟩], next_membership_id := db.next_membership_id + 1 } ∧
      (postTeams db userId name description).2 = 201 ∧
      ¬ IsMember db userId db.next_team_id) := by
  unfold postTeams
  split_ifs
  · left; exact ⟨rfl, by simp⟩
  · split
    · left; exact ⟨rfl, catchStatus_ne_created _⟩
    · rename_i db1 teamId h1
      obtain ⟨hid, hdb1⟩ := insertTeam_ok h1
      split
      · right; left
        exact ⟨hdb1, catchStatus_ne_created _⟩
      · rename_i db2 h2
        obtain ⟨hdb2, hnm, _⟩ := insertMembership_ok h2
        right; right
        refine ⟨?_, rfl, ?_⟩
        · simp only [hdb2, hdb1, hid]
        · rw [hid, hdb1] at hnm
          exact hnm

theorem putTeamsId_effect (db : Db) (userId teamId : Nat) (name description : Field String) :
    (putTeamsId db userId teamId name description).1.team_memberships = db.team_memberships ∧
    (putTeamsId db userId teamId name description).1.tasks = db.tasks ∧
    (putTeamsId db userId teamId name description).1.next_team_id = db.next_team_id ∧
    (putTeamsId db userId teamId name description).1.next_task_id = db.next_task_id ∧
    (putTeamsId db userId teamId name description).1.teams.map (fun t => t.id)
      = db.teams.map (fun t => t.id) := by
  have hmap : (db.teams.map (fun t =>
      if t.id = teamId then t.updated name description else t)).map (fun t => t.id)
      = db.teams.map (fun t => t.id) := by
    rw [List.map_map]
    apply List.map_congr_left
    intro t _
    simp only [Function.comp]
    split_ifs <;> rfl
  unfold putTeamsId
  split
  · simp
  · split
    · simp
    · rename_i db1 updated h
      have hdb1 : db1.team_memberships = db.team_memberships ∧ db1.tasks = db.tasks ∧
          db1.next_team_id = db.next_team_id ∧ db1.next_task_id = db.next_task_id ∧
          db1.teams.map (fun t => t.id) = db.teams.map (fun t => t.id) := by
        unfold updateTeamRow at h
        simp only at h
        split_ifs at h
        · simp only [Except.ok.injEq, Prod.mk.injEq] at h
          rw [← h.1]
          simp
        · split at h
          · simp at h
          · split_ifs at h
            simp only [Except.ok.injEq, Prod.mk.injEq] at h
            rw [← h.1]
            exact ⟨rfl, rfl, rfl, rfl, hmap⟩
          · simp only [Except.ok.injEq, Prod.mk.injEq] at h
            rw [← h.1]
            exact ⟨rfl, rfl, rfl, rfl, hmap⟩
      split <;> exact hdb1

theorem deleteTeamsId_effect (db : Db) (userId teamId : Nat) :
    (deleteTeamsId db userId teamId).1 = db ∨
    (deleteTeamsId db userId teamId).1 = { db with teams := db.teams.filter (fun t => !decide (t.id = teamId)), team_memberships := db.team_memberships.filter (fun m => !decide (m.team_id = teamId)), tasks := db.tasks.filter (fun t => !decide (t.team_id = teamId)) } := by
  unfold deleteTeamsId deleteTeamRow
  split
  · left; rfl
  · simp only
    split_ifs
    · left; rfl
    · left; rfl
    · right; rfl

theorem postTeamsMembers_effect (db : Db) (adminUserId teamId : Nat)
    (member_email : Option String) (role : Field String) :
    (postTeamsMembers db adminUserId teamId member_email role).1 = db ∨
    ∃ target r, (postTeamsMembers db adminUserId teamId member_email role).1 = { db with team_memberships := db.team_memberships ++ [⟨db.next_membership_id, target, teamId, r⟩], next_membership_id := db.next_membership_id + 1 } ∧
      IsAdmin db adminUserId teamId ∧ ¬ IsMember db target teamId ∧
      ∃ t ∈ db.teams, t.id = teamId := by
  unfold postTeamsMembers
  split
  · left; rfl
  · split
    · left; rfl
    · rename_i x hx
      split
      · left; rfl
      · split
        · left; rfl
        · split
          · left; rfl
          · rename_i db1 h
            obtain ⟨hdb1, hnm, hteam⟩ := insertMembership_ok h
            right
            exact ⟨_, _, hdb1, (adminMembershipOf_isSome_iff db adminUserId teamId).mp ⟨x, hx⟩,
              hnm, hteam⟩

theorem deleteTeamsMembers_effect (db : Db) (adminUserId teamId memberIdToRemove : Nat) :
    (deleteTeamsMembers db adminUserId teamId memberIdToRemove).1 = db ∨
    ((deleteTeamsMembers db adminUserId teamId memberIdToRemove).1
        = (deleteMembershipRows db memberIdToRemove teamId).1 ∧
      IsAdmin db adminUserId teamId ∧
      ¬ (isLastAdmin db teamId memberIdToRemove = true ∧ adminUserId = memberIdToRemove)) := by
  unfold deleteTeamsMembers
  split
  · left; rfl
  · rename_i x hx
    split_ifs with h1 h2
    · left; rfl
    · left; rfl
    · right
      refine ⟨?_, (adminMembershipOf_isSome_iff db adminUserId teamId).mp ⟨x, hx⟩, ?_⟩
      · simp only [deleteMembershipRows]
        split_ifs <;> rfl
      · simpa using h2

theorem taskJoinMembership_some {db : Db} {taskId userId : Nat} {task : Task}
    {membership : Membership} (h : taskJoinMembership db taskId userId = some (task, membership)) :
    task ∈ db.tasks ∧ task.id = taskId ∧ membership ∈ db.team_memberships ∧
      membership.team_id = task.team_id ∧ membership.user_id = userId := by
  unfold taskJoinMembership at h
  have hmem := List.mem_of_mem_head? h
  simp only [List.mem_flatMap, List.mem_filter, List.mem_map, decide_eq_true_eq,
    Prod.mk.injEq] at hmem
  obtain ⟨t, ⟨ht, hid⟩, m, ⟨hm, hteam, huser⟩, htt, hmm⟩ := hmem
  subst htt; subst hmm
  exact ⟨ht, hid, hm, hteam.symm, huser⟩

theorem postTasks_effect (db : Db) (userId : Nat) (title description : Option String)
    (team_id assigned_to_user_id due_date : Option Nat) :
    (postTasks db userId title description team_id assigned_to_user_id due_date).1 = db ∨
    ∃ task, (postTasks db userId title description team_id assigned_to_user_id due_date).1 = { db with tasks := db.tasks ++ [task], next_task_id := db.next_task_id + 1 } ∧
      task.id = db.next_task_id ∧
      ∀ a, task.assigned_to_user_id = some a → IsMember db a task.team_id := by
  unfold postTasks
  split
  · left; rfl
  · simp only
    split
    · left; rfl
    · split
      · left; rfl
      · rename_i hassignee
        split
        · left; rfl
        · rename_i db1 taskId h
          right
          refine ⟨_, insertTask_ok h, rfl, ?_⟩
          intro a ha
          simp only at ha
          split_ifs at ha with htruthy
          simp only [htruthy, Bool.true_and, ha, Option.getD_some] at hassignee
          rw [← membershipOf_isSome_iff]
          cases hm : membershipOf db a (team_id.getD 0) with
          | none =>
            rw [ha] at htruthy
            simp [hm, htruthy] at hassignee
          | some x => exact ⟨x, rfl⟩

theorem putTasksId_effect (db : Db) (userId taskId : Nat) (title description status : Field String)
    (assigned_to_user_id due_date : Field Nat) :
    (putTasksId db userId taskId title description status assigned_to_user_id due_date).1 = db ∨
    ∃ task ∈ db.tasks, task.id = taskId ∧
      (putTasksId db userId taskId title description status assigned_to_user_id due_date).1 = { db with tasks := db.tasks.map (fun t => if t.id = taskId then t.updated title description status assigned_to_user_id due_date else t) } ∧
      ∀ a, assigned_to_user_id = .value a → IsMember db a task.team_id := by
  unfold putTasksId
  split
  · left; rfl
  · rename_i task membership hjoin
    obtain ⟨htask, hid, _⟩ := taskJoinMembership_some hjoin
    split
    · left; rfl
    · split
      · left; rfl
      · rename_i hassignee
        split
        · left; rfl
        · rename_i db1 updated h
          have hdb1 : db1 = db ∨ db1 = { db with tasks := db.tasks.map (fun t => if t.id = taskId then t.updated title description status assigned_to_user_id due_date else t) } := by
            unfold updateTaskRow at h
            simp only at h
            split_ifs at h
            · simp only [Except.ok.injEq, Prod.mk.injEq] at h
              exact Or.inl h.1.symm
            · simp only [Except.ok.injEq, Prod.mk.injEq] at h
              exact Or.inr h.1.symm
          have hres : (if updated = 0 then (db1, 404) else (db1, 200)).1 = db1 := by
            split <;> rfl
          rw [hres]
          rcases hdb1 with hdb1 | hdb1
          · left; exact hdb1
          · right
            refine ⟨task, htask, hid, hdb1, ?_⟩
            intro a ha
            rw [ha] at hassignee
            rw [← membershipOf_isSome_iff]
            cases hm : membershipOf db a task.team_id with
            | none => simp [hm] at hassignee
            | some x => exact ⟨x, rfl⟩

theorem deleteTasksId_effect (db : Db) (userId taskId : Nat) :
    (deleteTasksId db userId taskId).1 = db ∨
    (deleteTasksId db userId taskId).1 = { db with tasks := db.tasks.filter (fun t => !decide (t.id = taskId)) } := by
  unfold deleteTasksId deleteTaskRows
  split
  · left; rfl
  · split
    · left; rfl
    · simp only
      split_ifs <;> exact Or.inr rfl


/-! ## Integrity is kept by every request -/

theorem integrity_of_same_ids {db db1 : Db} (hm : db1.team_memberships = db.team_memberships)
    (hk : db1.tasks = db.tasks) (hn : db1.next_team_id = db.next_team_id)
    (hnt : db1.next_task_id = db.next_task_id)
    (hids : db1.teams.map (fun t => t.id) = db.teams.map (fun t => t.id))
    (h : Integrity db) : Integrity db1 := by
  obtain ⟨h1, h2, h3, h4, h5⟩ := h
  have hid : ∀ i, (∃ t ∈ db1.teams, t.id = i) ↔ ∃ t ∈ db.teams, t.id = i := by
    intro i
    have : i ∈ db1.teams.map (fun t => t.id) ↔ i ∈ db.teams.map (fun t => t.id) := by rw [hids]
    simpa only [List.mem_map] using this
  refine ⟨?_, ?_, ?_, ?_, ?_⟩
  · intro t ht
    obtain ⟨t0, ht0, he⟩ := (hid t.id).mp ⟨t, ht, rfl⟩
    rw [hn, ← he]
    exact h1 t0 ht0
  · intro m hmem
    rw [hm] at hmem
    exact (hid m.team_id).mpr (h2 m hmem)
  · unfold UniqueMembership at h3 ⊢
    rw [hm]; exact h3
  · rw [hk, hnt]; exact h4
  · rw [hk]; exact h5

theorem uniqueMembership_append {l : List Membership} {row : Membership}
    (h : l.Pairwise (fun a b => ¬ (a.user_id = b.user_id ∧ a.team_id = b.team_id)))
    (hnew : ∀ a ∈ l, ¬ (a.user_id = row.user_id ∧ a.team_id = row.team_id)) :
    (l ++ [row]).Pairwise (fun a b => ¬ (a.user_id = b.user_id ∧ a.team_id = b.team_id)) := by
  rw [List.pairwise_append]
  refine ⟨h, List.pairwise_singleton _ _, ?_⟩
  intro a ha b hb
  rw [List.mem_singleton] at hb
  rw [hb]
  exact hnew a ha

theorem postTeams_integrity (db : Db) (userId : Nat) (name description : Option String)
    (h : Integrity db) : Integrity (postTeams db userId name description).1 := by
  obtain ⟨h1, h2, h3, h4, h5⟩ := h
  rcases postTeams_effect db userId name description with
    ⟨he, _⟩ | ⟨he, _⟩ | ⟨he, _, hnm⟩
  · rw [he]; exact ⟨h1, h2, h3, h4, h5⟩
  · rw [he]
    refine ⟨?_, ?_, h3, h4, h5⟩
    · intro t ht
      simp only [List.mem_append, List.mem_singleton] at ht
      rcases ht with ht | ht
      · exact Nat.lt_succ_of_lt (h1 t ht)
      · rw [ht]; exact Nat.lt_succ_self _
    · intro m hm
      obtain ⟨t, ht, hid⟩ := h2 m hm
      exact ⟨t, List.mem_append_left _ ht, hid⟩
  · rw [he]
    refine ⟨?_, ?_, ?_, h4, h5⟩
    · intro t ht
      simp only [List.mem_append, List.mem_singleton] at ht
      rcases ht with ht | ht
      · exact Nat.lt_succ_of_lt (h1 t ht)
      · rw [ht]; exact Nat.lt_succ_self _
    · intro m hm
      simp only [List.mem_append, List.mem_singleton] at hm
      rcases hm with hm | hm
      · obtain ⟨t, ht, hid⟩ := h2 m hm
        exact ⟨t, List.mem_append_left _ ht, hid⟩
      · rw [hm]
        exact ⟨_, List.mem_append_right _ (List.mem_singleton_self _), rfl⟩
    · apply uniqueMembership_append h3
      intro a ha hpair
      exact hnm ⟨a, ha, hpair.1, hpair.2⟩

theorem putTeamsId_integrity (db : Db) (userId teamId : Nat) (name description : Field String)
    (h : Integrity db) : Integrity (putTeamsId db userId teamId name description).1 := by
  obtain ⟨hm, hk, hn, hnt, hids⟩ := putTeamsId_effect db userId teamId name description
  exact integrity_of_same_ids hm hk hn hnt hids h

theorem deleteTeamsId_integrity (db : Db) (userId teamId : Nat) (h : Integrity db) :
    Integrity (deleteTeamsId db userId teamId).1 := by
  rcases deleteTeamsId_effect db userId teamId with he | he
  · rw [he]; exact h
  · obtain ⟨h1, h2, h3, h4, h5⟩ := h
    rw [he]
    refine ⟨?_, ?_, ?_, ?_, ?_⟩
    · intro t ht
      exact h1 t (List.mem_of_mem_filter ht)
    · intro m hm
      simp only [List.mem_filter, Bool.not_eq_true', decide_eq_false_iff_not] at hm
      obtain ⟨t, ht, hid⟩ := h2 m hm.1
      refine ⟨t, ?_, hid⟩
      simp only [List.mem_filter, Bool.not_eq_true', decide_eq_false_iff_not]
      exact ⟨ht, by rw [hid]; exact hm.2⟩
    · exact List.Pairwise.sublist (List.filter_sublist _) h3
    · intro t ht
      exact h4 t (List.mem_of_mem_filter ht)
    · exact List.Pairwise.sublist (List.filter_sublist _) h5

theorem postTeamsMembers_integrity (db : Db) (adminUserId teamId : Nat)
    (member_email : Option String) (role : Field String) (h : Integrity db) :
    Integrity (postTeamsMembers db adminUserId teamId member_email role).1 := by
  rcases postTeamsMembers_effect db adminUserId teamId member_email role with
    he | ⟨target, r, he, _, hnm, hteam⟩
  · rw [he]; exact h
  · obtain ⟨h1, h2, h3, h4, h5⟩ := h
    rw [he]
    refine ⟨h1, ?_, ?_, h4, h5⟩
    · intro m hm
      simp only [List.mem_append, List.mem_singleton] at hm
      rcases hm with hm | hm
      · exact h2 m hm
      · rw [hm]; exact hteam
    · apply uniqueMembership_append h3
      intro a ha hpair
      exact hnm ⟨a, ha, hpair.1, hpair.2⟩

theorem deleteTeamsMembers_integrity (db : Db) (adminUserId teamId memberIdToRemove : Nat)
    (h : Integrity db) :
    Integrity (deleteTeamsMembers db adminUserId teamId memberIdToRemove).1 := by
  rcases deleteTeamsMembers_effect db adminUserId teamId memberIdToRemove with he | ⟨he, _, _⟩
  · rw [he]; exact h
  · obtain ⟨h1, h2, h3, h4, h5⟩ := h
    rw [he]
    refine ⟨h1, ?_, ?_, h4, h5⟩
    · intro m hm
      exact h2 m (List.mem_of_mem_filter hm)
    · exact List.Pairwise.sublist (List.filter_sublist _) h3

theorem postTasks_integrity (db : Db) (userId : Nat) (title description : Option String)
    (team_id assigned_to_user_id due_date : Option Nat) (h : Integrity db) :
    Integrity (postTasks db userId title description team_id assigned_to_user_id due_date).1 := by
  rcases postTasks_effect db userId title description team_id assigned_to_user_id due_date with
    he | ⟨task, he, hid, _⟩
  · rw [he]; exact h
  · obtain ⟨h1, h2, h3, h4, h5⟩ := h
    rw [he]
    refine ⟨h1, h2, h3, ?_, ?_⟩
    · intro t ht
      simp only [List.mem_append, List.mem_singleton] at ht
      rcases ht with ht | ht
      · exact Nat.lt_succ_of_lt (h4 t ht)
      · rw [ht, hid]; exact Nat.lt_succ_self _
    · simp only [List.pairwise_append, List.pairwise_singleton, List.mem_singleton, true_and]
      refine ⟨h5, ?_⟩
      intro a ha b hb
      rw [hb, hid]
      exact Nat.ne_of_lt (h4 a ha)

theorem putTasksId_integrity (db : Db) (userId taskId : Nat)
    (title description status : Field String) (assigned_to_user_id due_date : Field Nat)
    (h : Integrity db) :
    Integrity
      (putTasksId db userId taskId title description status assigned_to_user_id due_date).1 := by
  rcases putTasksId_effect db userId taskId title description status assigned_to_user_id
    due_date with he | ⟨_, _, _, he, _⟩
  · rw [he]; exact h
  · obtain ⟨h1, h2, h3, h4, h5⟩ := h
    have hid : ∀ t : Task, (if t.id = taskId then
        t.updated title description status assigned_to_user_id due_date else t).id = t.id := by
      intro t
      split_ifs <;> rfl
    rw [he]
    refine ⟨h1, h2, h3, ?_, ?_⟩
    · intro t ht
      simp only [List.mem_map] at ht
      obtain ⟨t0, ht0, he0⟩ := ht
      rw [← he0, hid]
      exact h4 t0 ht0
    · simp only [List.pairwise_map, hid]
      exact h5

theorem deleteTasksId_integrity (db : Db) (userId taskId : Nat) (h : Integrity db) :
    Integrity (deleteTasksId db userId taskId).1 := by
  rcases deleteTasksId_effect db userId taskId with he | he
  · rw [he]; exact h
  · obtain ⟨h1, h2, h3, h4, h5⟩ := h
    rw [he]
    refine ⟨h1, h2, h3, ?_, ?_⟩
    · intro t ht
      exact h4 t (List.mem_of_mem_filter ht)
    · exact List.Pairwise.sublist (List.filter_sublist _) h5

theorem handle_integrity (db : Db) (r : Request) (h : Integrity db) :
    Integrity (handle db r).1 := by
  cases r with
  | register u e p =>
    obtain ⟨ht, hm, hk, hn, hnt⟩ := postAuthRegister_effect db u e p
    exact integrity_of_same_ids hm hk hn hnt (by rw [show (handle db (.register u e p)).1.teams
      = db.teams from ht]) h
  | createTeam u n d => exact postTeams_integrity db u n d h
  | updateTeam u t n d => exact putTeamsId_integrity db u t n d h
  | deleteTeam u t => exact deleteTeamsId_integrity db u t h
  | addMember u t e r => exact postTeamsMembers_integrity db u t e r h
  | removeMember u t m => exact deleteTeamsMembers_integrity db u t m h
  | createTask u ti de te a du => exact postTasks_integrity db u ti de te a du h
  | updateTask u t ti de st a du => exact putTasksId_integrity db u t ti de st a du h
  | deleteTask u t => exact deleteTasksId_integrity db u t h

theorem integrity_empty : Integrity Db.empty := by
  refine ⟨?_, ?_, ?_, ?_, ?_⟩ <;> simp [Db.empty, UniqueMembership]

/-- An invariant of the empty store kept by every allowed request holds in every store
reachable through allowed requests. -/
theorem ReachableVia.induct {allowed : Db → Request → Prop} {P : Db → Prop}
    (h0 : P Db.empty) (hstep : ∀ db r, P db → allowed db r → P (handle db r).1) :
    ∀ db, ReachableVia allowed db → P db := by
  intro db h
  induction h with
  | init => exact h0
  | step r _ ha ih => exact hstep _ r ih ha

theorem ReachableVia.integrity {allowed : Db → Request → Prop} {db : Db}
    (h : ReachableVia allowed db) : Integrity db :=
  ReachableVia.induct integrity_empty (fun db r hi _ => handle_integrity db r hi) db h


/-! ## Invariants of the reachable stores -/

/-- C9: in every store reachable by requests served one after the other, a (user, team)
pair has at most one row in `team_memberships`. -/
theorem reachable_membership_unique (db : Db) (h : Reachable db) (userId teamId : Nat) :
    (membershipRows db userId teamId).length ≤ 1 := by
  obtain ⟨_, _, huniq, _, _⟩ := ReachableVia.integrity h
  unfold membershipRows
  apply length_le_one_of_pairwise_of_all _
    (List.Pairwise.sublist (List.filter_sublist _) huniq)
  intro a ha b hb
  simp only [List.mem_filter, decide_eq_true_eq] at ha hb
  simp [ha.2.1, ha.2.2, hb.2.1, hb.2.2]

/-- C9 at a concrete run: after a second, rejected, add of b the pair (b, Eng) has one row. -/
theorem reachable_membership_unique_witness :
    Reachable (run engTeam [ .addMember 1 1 (some "b@x") (.value "admin") ]) ∧
      (membershipRows (run engTeam [ .addMember 1 1 (some "b@x") (.value "admin") ]) 2 1).length
        = 1 ∧
      (membershipRows (run engTeam [ .addMember 1 1 (some "b@x") (.value "admin") ]) 2 1).length
        ≤ 1 :=
  have hr : Reachable (run engTeam [ .addMember 1 1 (some "b@x") (.value "admin") ]) :=
    .step _ (.step _ (.step _ (.step _ (.step _ (.step _ .init trivial) trivial) trivial)
      trivial) trivial) trivial
  ⟨hr, by decide, reachable_membership_unique _ hr 2 1⟩

theorem membersHaveAdmin_append {db : Db} {row : Membership} {l : List Membership}
    (h : MembersHaveAdmin db) (hl : l = db.team_memberships ++ [row])
    (hrow : ∃ a ∈ l, a.team_id = row.team_id ∧ a.role = some "admin") :
    ∀ m ∈ l, ∃ a ∈ l, a.team_id = m.team_id ∧ a.role = some "admin" := by
  intro m hm
  rw [hl] at hm
  simp only [List.mem_append, List.mem_singleton] at hm
  rcases hm with hm | hm
  · obtain ⟨a, ha, hat, har⟩ := h m hm
    exact ⟨a, by rw [hl]; exact List.mem_append_left _ ha, hat, har⟩
  · rw [hm]; exact hrow

theorem postTeams_membersHaveAdmin (db : Db) (userId : Nat) (name description : Option String)
    (h : MembersHaveAdmin db) : MembersHaveAdmin (postTeams db userId name description).1 := by
  rcases postTeams_effect db userId name description with ⟨he, _⟩ | ⟨he, _⟩ | ⟨he, _, _⟩
  · rw [he]; exact h
  · rw [he]; exact h
  · rw [he]
    apply membersHaveAdmin_append h rfl
    exact ⟨_, List.mem_append_right _ (List.mem_singleton_self _), rfl, rfl⟩

theorem deleteTeamsId_membersHaveAdmin (db : Db) (userId teamId : Nat)
    (h : MembersHaveAdmin db) : MembersHaveAdmin (deleteTeamsId db userId teamId).1 := by
  rcases deleteTeamsId_effect db userId teamId with he | he
  · rw [he]; exact h
  · rw [he]
    intro m hm
    simp only [List.mem_filter, Bool.not_eq_true', decide_eq_false_iff_not] at hm
    obtain ⟨a, ha, hat, har⟩ := h m hm.1
    refine ⟨a, ?_, hat, har⟩
    simp only [List.mem_filter, Bool.not_eq_true', decide_eq_false_iff_not]
    exact ⟨ha, by rw [hat]; exact hm.2⟩

theorem postTeamsMembers_membersHaveAdmin (db : Db) (adminUserId teamId : Nat)
    (member_email : Option String) (role : Field String) (h : MembersHaveAdmin db) :
    MembersHaveAdmin (postTeamsMembers db adminUserId teamId member_email role).1 := by
  rcases postTeamsMembers_effect db adminUserId teamId member_email role with
    he | ⟨target, r, he, ⟨x, hx, _, hxt, hxr⟩, _, _⟩
  · rw [he]; exact h
  · rw [he]
    apply membersHaveAdmin_append h rfl
    exact ⟨x, List.mem_append_left _ hx, hxt, hxr⟩

/-- Past the guards of remove-member, team `teamId` keeps an admin other than the target. -/
theorem admin_left_after_guards (db : Db) (adminUserId teamId memberIdToRemove : Nat)
    (huniq : UniqueMembership db) (hadmin : IsAdmin db adminUserId teamId)
    (hguard : ¬ (isLastAdmin db teamId memberIdToRemove = true ∧ adminUserId = memberIdToRemove)) :
    ∃ a ∈ db.team_memberships,
      a.team_id = teamId ∧ a.role = some "admin" ∧ a.user_id ≠ memberIdToRemove := by
  by_cases hsame : adminUserId = memberIdToRemove
  · by_contra hnone
    have hsole : ∀ x ∈ db.team_memberships,
        x.team_id = teamId → x.role = some "admin" → x.user_id = memberIdToRemove := by
      intro x hx hxt hxr
      by_contra hne
      exact hnone ⟨x, hx, hxt, hxr, hne⟩
    have hlist := currentAdminMemberships_sole db memberIdToRemove teamId huniq
      (hsame ▸ hadmin) hsole
    apply hguard
    refine ⟨?_, hsame⟩
    unfold isLastAdmin
    rw [hlist]
    simp
  · obtain ⟨x, hx, hxu, hxt, hxr⟩ := hadmin
    exact ⟨x, hx, hxt, hxr, by rw [hxu]; exact hsame⟩

theorem deleteTeamsMembers_membersHaveAdmin (db : Db) (adminUserId teamId memberIdToRemove : Nat)
    (hi : Integrity db) (h : MembersHaveAdmin db) :
    MembersHaveAdmin (deleteTeamsMembers db adminUserId teamId memberIdToRemove).1 := by
  rcases deleteTeamsMembers_effect db adminUserId teamId memberIdToRemove with
    he | ⟨he, hadmin, hguard⟩
  · rw [he]; exact h
  · rw [he]
    intro m hm
    simp only [deleteMembershipRows, List.mem_filter, Bool.not_eq_true',
      decide_eq_false_iff_not] at hm ⊢
    by_cases hteam : m.team_id = teamId
    · obtain ⟨a, ha, hat, har, hau⟩ :=
        admin_left_after_guards db adminUserId teamId memberIdToRemove hi.2.2.1 hadmin hguard
      exact ⟨a, ⟨ha, fun hc => hau hc.1⟩, by rw [hat, hteam], har⟩
    · obtain ⟨a, ha, hat, har⟩ := h m hm.1
      exact ⟨a, ⟨ha, fun hc => hteam (by rw [← hat]; exact hc.2)⟩, hat, har⟩

theorem membersHaveAdmin_of_same {db db1 : Db} (hm : db1.team_memberships = db.team_memberships)
    (h : MembersHaveAdmin db) : MembersHaveAdmin db1 := by
  unfold MembersHaveAdmin
  rw [hm]; exact h

theorem handle_membersHaveAdmin (db : Db) (r : Request) (hi : Integrity db)
    (h : MembersHaveAdmin db) : MembersHaveAdmin (handle db r).1 := by
  cases r with
  | register u e p => exact membersHaveAdmin_of_same (postAuthRegister_effect db u e p).2.1 h
  | createTeam u n d => exact postTeams_membersHaveAdmin db u n d h
  | updateTeam u t n d => exact membersHaveAdmin_of_same (putTeamsId_effect db u t n d).1 h
  | deleteTeam u t => exact deleteTeamsId_membersHaveAdmin db u t h
  | addMember u t e r => exact postTeamsMembers_membersHaveAdmin db u t e r h
  | removeMember u t m => exact deleteTeamsMembers_membersHaveAdmin db u t m hi h
  | createTask u ti de te a du =>
    rcases postTasks_effect db u ti de te a du with he | ⟨_, he, _, _⟩
    · exact membersHaveAdmin_of_same (by rw [show (handle db (.createTask u ti de te a du)).1
        = db from he]) h
    · exact membersHaveAdmin_of_same (by rw [show (handle db (.createTask u ti de te a du)).1
        = _ from he]) h
  | updateTask u t ti de st a du =>
    rcases putTasksId_effect db u t ti de st a du with he | ⟨_, _, _, he, _⟩
    · exact membersHaveAdmin_of_same (by rw [show (handle db (.updateTask u t ti de st a du)).1
        = db from he]) h
    · exact membersHaveAdmin_of_same (by rw [show (handle db (.updateTask u t ti de st a du)).1
        = _ from he]) h
  | deleteTask u t =>
    rcases deleteTasksId_effect db u t with he | he
    · exact membersHaveAdmin_of_same (by rw [show (handle db (.deleteTask u t)).1
        = db from he]) h
    · exact membersHaveAdmin_of_same (by rw [show (handle db (.deleteTask u t)).1
        = _ from he]) h

/-- C2: in every store reachable by requests served one after the other, every existing
team that has a membership has a membership with role `'admin'`. -/
theorem reachable_team_has_admin (db : Db) (h : Reachable db) (team : Team)
    (_hteam : team ∈ db.teams) (hmember : ∃ m ∈ db.team_memberships, m.team_id = team.id) :
    ∃ a ∈ db.team_memberships, a.team_id = team.id ∧ a.role = some "admin" := by
  have hinv : Integrity db ∧ MembersHaveAdmin db := by
    refine ReachableVia.induct (P := fun db => Integrity db ∧ MembersHaveAdmin db)
      ⟨integrity_empty, ?_⟩ ?_ db h
    · intro m hm
      simp [Db.empty] at hm
    · intro db r hp _
      exact ⟨handle_integrity db r hp.1, handle_membersHaveAdmin db r hp.1 hp.2⟩
  obtain ⟨m, hm, hmt⟩ := hmember
  obtain ⟨a, ha, hat, har⟩ := hinv.2 m hm
  exact ⟨a, ha, by rw [hat, hmt], har⟩

theorem reachable_run (rs : List Request) : ∀ db, Reachable db → Reachable (run db rs) := by
  induction rs with
  | nil => intro db h; exact h
  | cons r rs ih => intro db h; exact ih _ (.step r h trivial)

/-- C2 at a concrete run: after b removed the creator a, team Eng still has admin b. -/
theorem reachable_team_has_admin_witness :
    Reachable handedOver ∧ ¬ IsMember handedOver 1 1 ∧
      ∃ a ∈ handedOver.team_memberships, a.team_id = 1 ∧ a.role = some "admin" :=
  have hr : Reachable handedOver := reachable_run _ _ (reachable_run _ _ (reachable_run _ _ .init))
  ⟨hr, by decide,
    reachable_team_has_admin handedOver hr ⟨1, "Eng", none, 1⟩ (by decide) (by decide)⟩

/-- C10: a team creation answered 201, served in a store that satisfies the schema's
integrity, appends a team row whose id is new and whose `created_by_user_id` is the acting
user, and leaves exactly one membership row for that team: the acting user's, with role
`'admin'`. -/
theorem postTeams_created (db : Db) (userId : Nat) (name description : Option String)
    (hi : Integrity db) (h : (postTeams db userId name description).2 = 201) :
    (∀ t ∈ db.teams, t.id ≠ db.next_team_id) ∧
    (postTeams db userId name description).1.teams
      = db.teams ++ [⟨db.next_team_id, name.getD "", description, userId⟩] ∧
    (postTeams db userId name description).1.team_memberships.filter
        (fun m => decide (m.team_id = db.next_team_id))
      = [⟨db.next_membership_id, userId, db.next_team_id, some "admin"⟩] := by
  obtain ⟨h1, h2, _, _, _⟩ := hi
  have hfresh : ∀ m ∈ db.team_memberships, m.team_id ≠ db.next_team_id := by
    intro m hm
    obtain ⟨t, ht, hid⟩ := h2 m hm
    rw [← hid]
    exact Nat.ne_of_lt (h1 t ht)
  rcases postTeams_effect db userId name description with ⟨_, hne⟩ | ⟨_, hne⟩ | ⟨he, _, _⟩
  · exact absurd h hne
  · exact absurd h hne
  · rw [he]
    refine ⟨fun t ht => Nat.ne_of_lt (h1 t ht), rfl, ?_⟩
    simp only [List.filter_append]
    have hold : db.team_memberships.filter (fun m => decide (m.team_id = db.next_team_id))
        = [] := by
      rw [List.filter_eq_nil_iff]
      intro m hm
      simpa using hfresh m hm
    rw [hold]
    simp

/-- C10 at a concrete store: a registers and creates team "Eng". -/
theorem postTeams_created_witness :
    (postTeams (run Db.empty [ .register (some "a") (some "a@x") (some "pw") ]) 1
        (some "Eng") none).2 = 201 ∧
      (postTeams (run Db.empty [ .register (some "a") (some "a@x") (some "pw") ]) 1
        (some "Eng") none).1.team_memberships.filter (fun m => decide (m.team_id = 1))
        = [⟨1, 1, 1, some "admin"⟩] :=
  ⟨by decide, (postTeams_created (run Db.empty [ .register (some "a") (some "a@x") (some "pw") ])
    1 (some "Eng") none (by decide) (by decide)).2.2⟩


/-! ## Task assignees -/

/-- C1 as stated fails: a adds b to team Eng, assigns a task to b and removes b; the task
stays assigned to b, who holds no membership in the team any more. -/
theorem assignee_removed_counterexample :
    Reachable assigneeRemoved ∧
      assigneeRemoved.tasks = [⟨1, "Fix bug", none, some "pending", 1, some 2, none, some 1⟩] ∧
      ¬ IsMember assigneeRemoved 2 1 ∧ ¬ AssigneesAreMembers assigneeRemoved :=
  ⟨reachable_run _ _ (reachable_run _ _ (reachable_run _ _ .init)), by decide, by decide,
    by decide⟩

theorem assignees_mono {db db1 : Db} (htasks : ∀ task ∈ db1.tasks, task ∈ db.tasks)
    (hrows : ∀ task ∈ db1.tasks, ∀ m ∈ db.team_memberships, m.team_id = task.team_id →
      task.assigned_to_user_id = some m.user_id → m ∈ db1.team_memberships)
    (h : AssigneesAreMembers db) : AssigneesAreMembers db1 := by
  intro task ht a ha
  obtain ⟨m, hm, hmu, hmt⟩ := h task (htasks task ht) a ha
  rw [Option.mem_def] at ha
  exact ⟨m, hrows task ht m hm hmt (by rw [ha, hmu]), hmu, hmt⟩

theorem assignees_of_same {db db1 : Db} (hk : db1.tasks = db.tasks)
    (hm : db1.team_memberships = db.team_memberships) (h : AssigneesAreMembers db) :
    AssigneesAreMembers db1 := by
  apply assignees_mono _ _ h
  · intro task ht; rw [hk] at ht; exact ht
  · intro task _ m hmem _ _; rw [hm]; exact hmem

theorem postTeams_assignees (db : Db) (userId : Nat) (name description : Option String)
    (h : AssigneesAreMembers db) :
    AssigneesAreMembers (postTeams db userId name description).1 := by
  rcases postTeams_effect db userId name description with ⟨he, _⟩ | ⟨he, _⟩ | ⟨he, _, _⟩
  · rw [he]; exact h
  · rw [he]; exact assignees_of_same rfl rfl h
  · rw [he]
    apply assignees_mono _ _ h
    · intro task ht; exact ht
    · intro task _ m hm _ _; exact List.mem_append_left _ hm

theorem deleteTeamsId_assignees (db : Db) (userId teamId : Nat) (h : AssigneesAreMembers db) :
    AssigneesAreMembers (deleteTeamsId db userId teamId).1 := by
  rcases deleteTeamsId_effect db userId teamId with he | he
  · rw [he]; exact h
  · rw [he]
    apply assignees_mono _ _ h
    · intro task ht; exact List.mem_of_mem_filter ht
    · intro task ht m hm hmt _
      simp only [List.mem_filter, Bool.not_eq_true', decide_eq_false_iff_not] at ht ⊢
      exact ⟨hm, by rw [hmt]; exact ht.2⟩

theorem postTeamsMembers_assignees (db : Db) (adminUserId teamId : Nat)
    (member_email : Option String) (role : Field String) (h : AssigneesAreMembers db) :
    AssigneesAreMembers (postTeamsMembers db adminUserId teamId member_email role).1 := by
  rcases postTeamsMembers_effect db adminUserId teamId member_email role with
    he | ⟨target, r, he, _, _, _⟩
  · rw [he]; exact h
  · rw [he]
    apply assignees_mono _ _ h
    · intro task ht; exact ht
    · intro task _ m hm _ _; exact List.mem_append_left _ hm

theorem deleteTeamsMembers_assignees (db : Db) (adminUserId teamId memberIdToRemove : Nat)
    (h : AssigneesAreMembers db)
    (hr : ¬ removesAssignee db (.removeMember adminUserId teamId memberIdToRemove)) :
    AssigneesAreMembers (deleteTeamsMembers db adminUserId teamId memberIdToRemove).1 := by
  rcases deleteTeamsMembers_effect db adminUserId teamId memberIdToRemove with he | ⟨he, _, _⟩
  · rw [he]; exact h
  · rw [he]
    apply assignees_mono _ _ h
    · intro task ht; exact ht
    · intro task ht m hm hmt hma
      simp only [deleteMembershipRows, List.mem_filter, Bool.not_eq_true',
        decide_eq_false_iff_not]
      refine ⟨hm, fun hc => hr ?_⟩
      exact ⟨task, ht, by rw [← hmt]; exact hc.2, by rw [hma, hc.1]⟩

theorem postTasks_assignees (db : Db) (userId : Nat) (title description : Option String)
    (team_id assigned_to_user_id due_date : Option Nat) (h : AssigneesAreMembers db) :
    AssigneesAreMembers
      (postTasks db userId title description team_id assigned_to_user_id due_date).1 := by
  rcases postTasks_effect db userId title description team_id assigned_to_user_id due_date with
    he | ⟨task, he, _, hnew⟩
  · rw [he]; exact h
  · rw [he]
    intro t ht a ha
    simp only [List.mem_append, List.mem_singleton] at ht
    rcases ht with ht | ht
    · exact h t ht a ha
    · rw [ht]
      rw [ht, Option.mem_def] at ha
      exact hnew a ha

theorem putTasksId_assignees (db : Db) (userId taskId : Nat)
    (title description status : Field String) (assigned_to_user_id due_date : Field Nat)
    (hi : Integrity db) (h : AssigneesAreMembers db) :
    AssigneesAreMembers
      (putTasksId db userId taskId title description status assigned_to_user_id due_date).1 := by
  rcases putTasksId_effect db userId taskId title description status assigned_to_user_id
    due_date with he | ⟨task, htask, hid, he, hnew⟩
  · rw [he]; exact h
  · rw [he]
    intro t ht a ha
    simp only [List.mem_map] at ht
    obtain ⟨t0, ht0, he0⟩ := ht
    by_cases hsame : t0.id = taskId
    · have hsym : Symmetric (fun a b : Task => a.id ≠ b.id) := fun _ _ hab => Ne.symm hab
      have heq : t0 = task := by
        by_contra hne
        exact hi.2.2.2.2.forall hsym ht0 htask hne (by rw [hsame, hid])
      rw [if_pos hsame] at he0
      rw [← he0, Option.mem_def] at ha
      rw [← he0]
      show IsMember _ a t0.team_id
      cases hassign : assigned_to_user_id with
      | undefined =>
        simp only [Task.updated, hassign] at ha
        exact h t0 ht0 a ha
      | null =>
        simp [Task.updated, hassign] at ha
      | value b =>
        simp only [Task.updated, hassign, Option.some.injEq] at ha
        rw [heq, ← ha]
        exact hnew b hassign
    · rw [if_neg hsame] at he0
      rw [← he0] at ha ⊢
      exact h t0 ht0 a ha

theorem handle_assignees (db : Db) (r : Request) (hi : Integrity db)
    (h : AssigneesAreMembers db) (hr : ¬ removesAssignee db r) :
    AssigneesAreMembers (handle db r).1 := by
  cases r with
  | register u e p =>
    exact assignees_of_same (postAuthRegister_effect db u e p).2.2.1
      (postAuthRegister_effect db u e p).2.1 h
  | createTeam u n d => exact postTeams_assignees db u n d h
  | updateTeam u t n d =>
    exact assignees_of_same (putTeamsId_effect db u t n d).2.1 (putTeamsId_effect db u t n d).1 h
  | deleteTeam u t => exact deleteTeamsId_assignees db u t h
  | addMember u t e r => exact postTeamsMembers_assignees db u t e r h
  | removeMember u t m => exact deleteTeamsMembers_assignees db u t m h hr
  | createTask u ti de te a du => exact postTasks_assignees db u ti de te a du h
  | updateTask u t ti de st a du => exact putTasksId_assignees db u t ti de st a du hi h
  | deleteTask u t =>
    rcases deleteTasksId_effect db u t with he | he
    · rw [show (handle db (.deleteTask u t)).1 = db from he]; exact h
    · rw [show (handle db (.deleteTask u t)).1 = _ from he]
      apply assignees_mono _ _ h
      · intro task ht; exact List.mem_of_mem_filter ht
      · intro task _ m hm _ _; exact hm

/-- C1, amended: in every store reachable from the empty store by requests none of which is
a remove-member aimed at a user who is at that moment the assignee of a task of that team,
every task with a non-null assignee names a current member of the task's team. -/
theorem reachable_assignees_are_members (db : Db)
    (h : ReachableVia (fun db r => ¬ removesAssignee db r) db) : AssigneesAreMembers db := by
  have hinv : Integrity db ∧ AssigneesAreMembers db := by
    refine ReachableVia.induct (P := fun db => Integrity db ∧ AssigneesAreMembers db)
      ⟨integrity_empty, ?_⟩ ?_ db h
    · intro task ht
      simp [Db.empty] at ht
    · intro db r hp hr
      exact ⟨handle_integrity db r hp.1, handle_assignees db r hp.1 hp.2 hr⟩
  exact hinv.2

/-- C1, amended, at a concrete run: b is assigned a task, c is added and removed again;
the removal of c is allowed and the task's assignee b is still a member. -/
theorem reachable_assignees_are_members_witness :
    outsiderRemoved.tasks = [⟨1, "Fix bug", none, some "pending", 1, some 2, none, some 1⟩] ∧
      ¬ IsMember outsiderRemoved 3 1 ∧ AssigneesAreMembers outsiderRemoved :=
  ⟨by decide, by decide,
    reachable_assignees_are_members outsiderRemoved
      (.step (.removeMember 1 1 3)
        (.step (.addMember 1 1 (some "c@x") .undefined)
          (.step (.createTask 1 (some "Fix bug") none (some 1) (some 2) none)
            (.step (.addMember 1 1 (some "b@x") .undefined)
              (.step (.createTeam 1 (some "Eng") none)
                (.step (.register (some "c") (some "c@x") (some "pw"))
                  (.step (.register (some "b") (some "b@x") (some "pw"))
                    (.step (.register (some "a") (some "a@x") (some "pw")) .init
                      not_false) not_false) not_false) not_false) not_false) not_false)
          not_false) (by decide))⟩


/-! ## Removing an admin -/

/-- C4 as stated fails: in the store of the spec's example (sole admin a, the creator, adds
b as admin) both are admins, yet a's request to remove themselves is answered 403. -/
theorem removeMember_two_admins_counterexample :
    IsAdmin twoAdmins 1 1 ∧ IsAdmin twoAdmins 2 1 ∧
      deleteTeamsMembers twoAdmins 1 1 1 = (twoAdmins, 403) := by
  decide

/-- In a team with an admin other than the target, a remove-member request by an admin that
targets an admin is answered 200, deletes exactly the rows of the target in that team and
leaves every other admin in place, unless the acting admin targets themselves and is the
creator of the team. -/
theorem deleteTeamsMembers_two_admins (db : Db) (adminUserId teamId memberIdToRemove : Nat)
    (hactor : IsAdmin db adminUserId teamId) (htarget : IsAdmin db memberIdToRemove teamId)
    (hother : ∃ b, b ≠ memberIdToRemove ∧ IsAdmin db b teamId)
    (hnotCreator : adminUserId = memberIdToRemove →
      ∀ team, teamById db teamId = some team → team.created_by_user_id ≠ memberIdToRemove) :
    (deleteTeamsMembers db adminUserId teamId memberIdToRemove).2 = 200 ∧
    (deleteTeamsMembers db adminUserId teamId memberIdToRemove).1 =
      (deleteMembershipRows db memberIdToRemove teamId).1 ∧
    ¬ IsMember (deleteTeamsMembers db adminUserId teamId memberIdToRemove).1
        memberIdToRemove teamId ∧
    ∀ b, b ≠ memberIdToRemove → IsAdmin db b teamId →
      IsAdmin (deleteTeamsMembers db adminUserId teamId memberIdToRemove).1 b teamId := by
  obtain ⟨x, hx⟩ := (adminMembershipOf_isSome_iff db adminUserId teamId).mpr hactor
  obtain ⟨b, hb, hbadmin⟩ := hother
  have hlast : isLastAdmin db teamId memberIdToRemove = false := by
    have h2 := two_le_currentAdminMemberships db b memberIdToRemove teamId hb hbadmin htarget
    unfold isLastAdmin
    simp only [Bool.and_eq_false_iff, decide_eq_false_iff_not]
    left; omega
  have hcreator : ((match teamById db teamId with
        | some team => decide (team.created_by_user_id = memberIdToRemove)
        | none => false) && decide (adminUserId = memberIdToRemove)) = false := by
    by_cases hsame : adminUserId = memberIdToRemove
    · cases hteam : teamById db teamId with
      | none => simp
      | some team => simp [hnotCreator hsame team hteam]
    · simp [hsame]
  have hdeleted : (db.team_memberships.filter
      (fun m => decide (m.user_id = memberIdToRemove ∧ m.team_id = teamId))).length ≠ 0 := by
    obtain ⟨y, hy, hyu, hyt, _⟩ := htarget
    have : y ∈ db.team_memberships.filter
        (fun m => decide (m.user_id = memberIdToRemove ∧ m.team_id = teamId)) := by
      rw [List.mem_filter]; simp [hy, hyu, hyt]
    intro h0
    rw [List.length_eq_zero] at h0
    rw [h0] at this
    simp at this
  have hres : deleteTeamsMembers db adminUserId teamId memberIdToRemove =
      ((deleteMembershipRows db memberIdToRemove teamId).1, 200) := by
    unfold deleteTeamsMembers
    rw [hx]
    simp only [hcreator, hlast, deleteMembershipRows, Bool.false_and, Bool.false_eq_true,
      if_false, if_neg hdeleted]
  rw [hres]
  refine ⟨rfl, rfl, ?_, ?_⟩
  · rintro ⟨y, hy, hyu, hyt⟩
    simp only [deleteMembershipRows, List.mem_filter] at hy
    simp [hyu, hyt] at hy
  · rintro c hc ⟨y, hy, hyu, hyt, hyr⟩
    refine ⟨y, ?_, hyu, hyt, hyr⟩
    simp only [deleteMembershipRows, List.mem_filter]
    refine ⟨hy, ?_⟩
    simp [hyu, hc]

/-- An add-member request answered 201 appended one row for the user found by email, with
the role asked for; the acting user was an admin and the target held no membership. -/
theorem postTeamsMembers_created (db : Db) (adminUserId teamId : Nat) (email : String)
    (role : Field String) (memberUser : User) (huser : userByEmail db email = some memberUser)
    (h : (postTeamsMembers db adminUserId teamId (some email) role).2 = 201) :
    (postTeamsMembers db adminUserId teamId (some email) role).1 = { db with team_memberships := db.team_memberships ++ [⟨db.next_membership_id, memberUser.id, teamId, roleOrDefault role⟩], next_membership_id := db.next_membership_id + 1 } ∧
      IsAdmin db adminUserId teamId ∧ ¬ IsMember db memberUser.id teamId := by
  unfold postTeamsMembers at h ⊢
  split at h
  · simp at h
  · rename_i htruthy
    rw [if_neg htruthy]
    split at h
    · simp at h
    · rename_i x hx
      simp only [Option.getD_some, huser] at h ⊢
      split at h
      · simp at h
      · rename_i hnone
        split at h
        · simp at h
        · rename_i db1 hins
          obtain ⟨hdb1, hnm, _⟩ := insertMembership_ok hins
          simp only [hx, hnone, hins]
          exact ⟨hdb1, (adminMembershipOf_isSome_iff db adminUserId teamId).mp ⟨x, hx⟩, hnm⟩

/-- C4, amended. First part: in a team with an admin other than the target, a remove-member
request by an admin that targets an admin is answered 200, deletes exactly the rows of the
target in that team and leaves every other admin in place, unless the acting admin targets
themselves and is the creator of the team. Second part: when an admin A who is not the
creator of the team has added B with role `'admin'` (answer 201), A's request to remove
themselves is answered 200, A is no longer a member and B is an admin. -/
theorem removeMember_admin_of_two_admins :
    (∀ (db : Db) (adminUserId teamId memberIdToRemove : Nat),
      IsAdmin db adminUserId teamId → IsAdmin db memberIdToRemove teamId →
      (∃ b, b ≠ memberIdToRemove ∧ IsAdmin db b teamId) →
      (adminUserId = memberIdToRemove →
        ∀ team, teamById db teamId = some team → team.created_by_user_id ≠ memberIdToRemove) →
      (deleteTeamsMembers db adminUserId teamId memberIdToRemove).2 = 200 ∧
      (deleteTeamsMembers db adminUserId teamId memberIdToRemove).1 =
        (deleteMembershipRows db memberIdToRemove teamId).1 ∧
      ¬ IsMember (deleteTeamsMembers db adminUserId teamId memberIdToRemove).1
          memberIdToRemove teamId ∧
      ∀ b, b ≠ memberIdToRemove → IsAdmin db b teamId →
        IsAdmin (deleteTeamsMembers db adminUserId teamId memberIdToRemove).1 b teamId) ∧
    (∀ (db : Db) (a teamId : Nat) (email : String) (b : User),
      (∀ team, teamById db teamId = some team → team.created_by_user_id ≠ a) →
      userByEmail db email = some b →
      (postTeamsMembers db a teamId (some email) (.value "admin")).2 = 201 →
      (deleteTeamsMembers
        (postTeamsMembers db a teamId (some email) (.value "admin")).1 a teamId a).2 = 200 ∧
      ¬ IsMember (deleteTeamsMembers
        (postTeamsMembers db a teamId (some email) (.value "admin")).1 a teamId a).1 a teamId ∧
      IsAdmin (deleteTeamsMembers
        (postTeamsMembers db a teamId (some email) (.value "admin")).1 a teamId a).1
          b.id teamId) := by
  refine ⟨deleteTeamsMembers_two_admins, ?_⟩
  intro db a teamId email b hnotCreator huser hcreated
  obtain ⟨hdb1, hadmin, hnm⟩ :=
    postTeamsMembers_created db a teamId email (.value "admin") b huser hcreated
  rw [hdb1]
  have hne : b.id ≠ a := by
    intro hba
    obtain ⟨x, hx, hxu, hxt, _⟩ := hadmin
    exact hnm ⟨x, hx, by rw [hba]; exact hxu, hxt⟩
  obtain ⟨x, hx, hxu, hxt, hxr⟩ := hadmin
  have hA : IsAdmin { db with team_memberships := db.team_memberships ++ [⟨db.next_membership_id, b.id, teamId, roleOrDefault (.value "admin")⟩], next_membership_id := db.next_membership_id + 1 } a teamId :=
    ⟨x, List.mem_append_left _ hx, hxu, hxt, hxr⟩
  have hB : IsAdmin { db with team_memberships := db.team_memberships ++ [⟨db.next_membership_id, b.id, teamId, roleOrDefault (.value "admin")⟩], next_membership_id := db.next_membership_id + 1 } b.id teamId :=
    ⟨_, List.mem_append_right _ (List.mem_singleton_self _), rfl, rfl, rfl⟩
  have h := deleteTeamsMembers_two_admins _ a teamId a hA hA ⟨b.id, hne, hB⟩
    (fun _ team hteam => hnotCreator team hteam)
  exact ⟨h.1, h.2.2.1, h.2.2.2 b.id hne hB⟩

/-- C4 at concrete stores: b, sole admin of Eng and not its creator, adds c as admin and then
removes themselves; the answer is 200, b is out and c stays admin. -/
theorem removeMember_admin_of_two_admins_witness :
    (deleteTeamsMembers handedOverTwoAdmins 2 1 2).2 = 200 ∧
    IsAdmin (deleteTeamsMembers handedOverTwoAdmins 2 1 2).1 3 1 ∧
    (deleteTeamsMembers
      (postTeamsMembers handedOver 2 1 (some "c@x") (.value "admin")).1 2 1 2).2 = 200 ∧
    ¬ IsMember (deleteTeamsMembers
      (postTeamsMembers handedOver 2 1 (some "c@x") (.value "admin")).1 2 1 2).1 2 1 :=
  have h1 := removeMember_admin_of_two_admins.1 handedOverTwoAdmins 2 1 2
    (by decide) (by decide) ⟨3, by decide, by decide⟩ (by decide)
  have h2 := removeMember_admin_of_two_admins.2 handedOver 2 1 "c@x" ⟨3, "c", "c@x"⟩
    (by decide) (by decide) (by decide)
  ⟨h1.1, h1.2.2.2 3 (by decide) (by decide), h2.1, h2.2.1⟩


/-! ## Lookups under the unique constraints -/

theorem filter_eq_singleton {α : Type} {R : α → α → Prop} {p : α → Bool} {l : List α} {x : α}
    (hpw : l.Pairwise R) (hx : x ∈ l) (hpx : p x = true)
    (hall : ∀ a ∈ l, ∀ b ∈ l, p a = true → p b = true → ¬ R a b) :
    l.filter p = [x] := by
  have hxf : x ∈ l.filter p := List.mem_filter.mpr ⟨hx, hpx⟩
  have hlen : (l.filter p).length ≤ 1 := by
    apply length_le_one_of_pairwise_of_all _ (List.Pairwise.sublist (List.filter_sublist _) hpw)
    intro a ha b hb
    rw [List.mem_filter] at ha hb
    exact hall a ha.1 b hb.1 ha.2 hb.2
  match hf : l.filter p, hxf, hlen with
  | [y], hxf, _ => rw [List.mem_singleton] at hxf; rw [hxf]
  | _ :: _ :: _, _, hlen => simp at hlen

/-- Under the unique constraint the lookup of a pair returns the row of that pair. -/
theorem membershipOf_eq_some {db : Db} {m : Membership} (huniq : UniqueMembership db)
    (hm : m ∈ db.team_memberships) :
    membershipOf db m.user_id m.team_id = some m := by
  unfold membershipOf
  have hf := filter_eq_singleton (p := fun x => decide (x.user_id = m.user_id ∧ x.team_id = m.team_id))
    huniq hm (by simp) (by
      intro a _ b _ ha hb
      simp only [decide_eq_true_eq] at ha hb
      simp [ha.1, ha.2, hb.1, hb.2])
  rw [← List.filter_head?, hf]
  rfl

/-- With task ids and memberships unique, the join of a task with the acting user's
memberships returns that task and the user's row in its team. -/
theorem taskJoinMembership_eq_some {db : Db} {task : Task} {m : Membership}
    (hi : Integrity db) (htask : task ∈ db.tasks) (hm : m ∈ db.team_memberships)
    (hteam : m.team_id = task.team_id) :
    taskJoinMembership db task.id m.user_id = some (task, m) := by
  obtain ⟨_, _, huniq, _, hids⟩ := hi
  unfold taskJoinMembership
  have hft : db.tasks.filter (fun t => decide (t.id = task.id)) = [task] :=
    filter_eq_singleton hids htask (by simp) (by
      intro a _ b _ ha hb
      simp only [decide_eq_true_eq] at ha hb
      simp [ha, hb])
  have hfm : db.team_memberships.filter
      (fun x => decide (task.team_id = x.team_id ∧ x.user_id = m.user_id)) = [m] :=
    filter_eq_singleton huniq hm (by simp [hteam]) (by
      intro a _ b _ ha hb
      simp only [decide_eq_true_eq] at ha hb
      simp [ha.2, hb.2, ← ha.1, ← hb.1])
  rw [hft]
  simp only [List.flatMap_cons, List.flatMap_nil, List.append_nil, hfm, List.map_cons,
    List.map_nil, List.head?_cons]

theorem taskJoinMembership_eq_none {db : Db} {taskId userId : Nat}
    (h : ∀ t ∈ db.tasks, t.id = taskId → ¬ IsMember db userId t.team_id) :
    taskJoinMembership db taskId userId = none := by
  cases hj : taskJoinMembership db taskId userId with
  | none => rfl
  | some r =>
    obtain ⟨task, m⟩ := r
    obtain ⟨htask, hid, hm, hteam, huser⟩ := taskJoinMembership_some hj
    exact absurd ⟨m, hm, huser, hteam⟩ (h task htask hid)

theorem truthyNum_some {n : Nat} (hn : n ≠ 0) : truthyNum (some n) = true := by
  simp [truthyNum, hn]


/-! ## Task creation -/

/-- C18 as stated fails: outsider c asks for a task in team 2147483648, an id above the
`integer` column `team_id`. c holds no membership in that team, the membership lookup
throws, and the answer is 500, not 403. -/
theorem postTasks_not_member_counterexample :
    ¬ IsMember engTeam 3 2147483648 ∧
      postTasksServed engTeam 3 (some "Fix bug") none (some 2147483648) none none
        = (engTeam, 500) := by
  decide

/-- C18, amended: a task-create request with a title and a team id supplied, by a user who
holds no membership in that team, is answered 403 when the team id fits the `integer`
column and 500 when it lies above it; in both cases no task is created. -/
theorem postTasks_not_member_forbidden (db : Db) (userId teamId : Nat) (title : String)
    (description : Option String) (assigned_to_user_id due_date : Option Nat)
    (htitle : title ≠ "") (hteam : teamId ≠ 0) (h : ¬ IsMember db userId teamId) :
    (teamId ≤ int4Max →
      postTasksServed db userId (some title) description (some teamId) assigned_to_user_id
        due_date = (db, 403)) ∧
    (int4Max < teamId →
      postTasksServed db userId (some title) description (some teamId) assigned_to_user_id
        due_date = (db, 500)) := by
  refine ⟨?_, ?_⟩
  · intro hfit
    unfold postTasksServed
    rw [truthyStr_some htitle, truthyNum_some hteam]
    simp only [Bool.not_true, Bool.or_self, Bool.false_eq_true, if_false, Option.getD_some]
    rw [fitsInt4_of_le hfit, (membershipOf_eq_none_iff db userId teamId).mpr h]
    rfl
  · intro hlt
    unfold postTasksServed
    rw [truthyStr_some htitle, truthyNum_some hteam]
    simp only [Bool.not_true, Bool.or_self, Bool.false_eq_true, if_false, Option.getD_some]
    rw [fitsInt4_of_lt hlt]
    rfl

/-- C18, amended, at a concrete store: outsider c asks for a task in team Eng. -/
theorem postTasks_not_member_forbidden_witness :
    ¬ IsMember engTeam 3 1 ∧
      postTasksServed engTeam 3 (some "Fix bug") none (some 1) (some 2) none = (engTeam, 403) :=
  ⟨by decide, (postTasks_not_member_forbidden engTeam 3 1 "Fix bug" none (some 2) none
    (by decide) (by decide) (by decide)).1 (by decide)⟩

/-- C19: a task creation answered 201 appends exactly one task, whose status is `'pending'`,
whose `created_by_user_id` is the acting user and whose `team_id` is the team asked for,
whatever the body holds in `status` and `created_by_user_id`. -/
theorem postTasks_created (db : Db) (userId : Nat) (body : TaskBody)
    (h : (postTasksOfBody db userId body).2 = 201) :
    ∃ task, (postTasksOfBody db userId body).1.tasks = db.tasks ++ [task] ∧
      task.status = some "pending" ∧ task.created_by_user_id = some userId ∧
      some task.team_id = body.team_id := by
  unfold postTasksOfBody postTasks at h ⊢
  split at h
  · simp at h
  · rename_i hreq
    rw [if_neg hreq]
    simp only at h ⊢
    split at h
    · simp at h
    · rename_i x hx
      split at h
      · simp at h
      · rename_i hassignee
        rw [if_neg hassignee]
        split at h
        · simp at h
        · rename_i db1 taskId hins
          refine ⟨_, by rw [insertTask_ok hins], rfl, rfl, ?_⟩
          cases hteam : body.team_id with
          | none => simp [hteam, truthyNum] at hreq
          | some t => rfl

/-- C19 at a concrete store: a sends a body that also asks for status `'completed'` and for
c as creator; the task is created pending, by a. -/
theorem postTasks_created_witness :
    (postTasksOfBody engTeam 1
        ⟨some "Fix bug", none, some 1, some 2, none, some "completed", some 3⟩).1.tasks
      = [⟨1, "Fix bug", none, some "pending", 1, some 2, none, some 1⟩] ∧
    ∃ task, (postTasksOfBody engTeam 1
        ⟨some "Fix bug", none, some 1, some 2, none, some "completed", some 3⟩).1.tasks
        = engTeam.tasks ++ [task] ∧
      task.status = some "pending" ∧ task.created_by_user_id = some 1 ∧
      some task.team_id = some 1 :=
  ⟨by decide, postTasks_created engTeam 1
    ⟨some "Fix bug", none, some 1, some 2, none, some "completed", some 3⟩ (by decide)⟩


/-! ## Reading a team, reading a task -/

theorem teamById_eq_none {db : Db} {teamId : Nat} (h : ∀ t ∈ db.teams, t.id ≠ teamId) :
    teamById db teamId = none := by
  unfold teamById
  rw [List.find?_eq_none]
  intro t ht
  simpa using h t ht

/-- C20 as stated fails: no team has the id 2147483648, which lies above the `integer`
column `id`; the team lookup throws and member b is answered 500, not 404. -/
theorem getTeamsId_counterexample :
    (∀ t ∈ twoTasks.teams, t.id ≠ 2147483648) ∧
      getTeamsId twoTasks 2 2147483648 = .error 500 "Server error fetching team." ∧
      (getTeamsId twoTasks 2 2147483648).status ≠ 404 := by
  decide

/-- C20, amended. For a team id that fits the `integer` column, team get answers 404 when
no team has the id; 403 when the team exists and the acting user holds no membership in it;
and otherwise, memberships being unique per (user, team), the team row with `my_role` equal
to the role of the acting user's membership. For a team id above the column it answers
500. -/
theorem getTeamsId_spec (db : Db) (userId teamId : Nat) :
    (teamId ≤ int4Max →
      ((∀ t ∈ db.teams, t.id ≠ teamId) →
        getTeamsId db userId teamId = .error 404 "Team not found.") ∧
      (∀ team, teamById db teamId = some team → ¬ IsMember db userId teamId →
        (getTeamsId db userId teamId).status = 403) ∧
      (∀ team m, teamById db teamId = some team → UniqueMembership db →
        m ∈ db.team_memberships → m.user_id = userId → m.team_id = teamId →
        getTeamsId db userId teamId = .ok team m.role)) ∧
    (int4Max < teamId →
      getTeamsId db userId teamId = .error 500 "Server error fetching team.") := by
  refine ⟨fun hfit => ⟨?_, ?_, ?_⟩, ?_⟩
  · intro h
    unfold getTeamsId
    rw [fitsInt4_of_le hfit, teamById_eq_none h]
    rfl
  · intro team hteam hnm
    unfold getTeamsId
    rw [fitsInt4_of_le hfit, hteam, (membershipOf_eq_none_iff db userId teamId).mpr hnm]
    rfl
  · intro team m hteam huniq hm hu ht
    unfold getTeamsId
    rw [fitsInt4_of_le hfit, hteam, ← hu, ← ht, membershipOf_eq_some huniq hm]
    rfl
  · intro hlt
    unfold getTeamsId
    rw [fitsInt4_of_lt hlt]
    rfl

/-- C20, amended, at a concrete store: an unknown team id, outsider c, and plain member
b. -/
theorem getTeamsId_spec_witness :
    getTeamsId twoTasks 2 5 = .error 404 "Team not found." ∧
      (getTeamsId twoTasks 3 1).status = 403 ∧
      getTeamsId twoTasks 2 1 = .ok ⟨1, "Eng", none, 1⟩ (some "member") :=
  ⟨((getTeamsId_spec twoTasks 2 5).1 (by decide)).1 (by decide),
    ((getTeamsId_spec twoTasks 3 1).1 (by decide)).2.1 ⟨1, "Eng", none, 1⟩
      (by decide) (by decide),
    ((getTeamsId_spec twoTasks 2 1).1 (by decide)).2.2 ⟨1, "Eng", none, 1⟩
      ⟨2, 2, 1, some "member"⟩ (by decide) (by decide) (by decide) rfl rfl⟩

/-- C17 as stated fails: outsider c is answered 404 for task 1 of team Eng and 500 for the
id 2147483648, which no task has and which lies above the `integer` column `id`: the two
answers differ. -/
theorem getTasksId_counterexample :
    (∃ t ∈ twoTasks.tasks, t.id = 1 ∧ ¬ IsMember twoTasks 3 t.team_id) ∧
      (∀ t ∈ twoTasks.tasks, t.id ≠ 2147483648) ∧
      getTasksId twoTasks 3 1 = .error 404 "Task not found or you do not have access." ∧
      getTasksId twoTasks 3 2147483648 = .error 500 "Server error fetching task." ∧
      getTasksId twoTasks 3 1 ≠ getTasksId twoTasks 3 2147483648 := by
  decide

/-- C17, amended: for a task whose team the acting user is not a member of, task get
answers 404, and the whole answer, status and message, is the one given for every id that
no task has and that fits the `integer` column; for an id above the column the answer is
500. -/
theorem getTasksId_hides_existence (db : Db) (userId missingId : Nat) (task : Task)
    (hi : Integrity db) (htask : task ∈ db.tasks) (hfit : task.id ≤ int4Max)
    (hnm : ¬ IsMember db userId task.team_id)
    (hmissing : ∀ t ∈ db.tasks, t.id ≠ missingId) :
    getTasksId db userId task.id = .error 404 "Task not found or you do not have access." ∧
    (missingId ≤ int4Max → getTasksId db userId task.id = getTasksId db userId missingId) ∧
    (int4Max < missingId →
      getTasksId db userId missingId = .error 500 "Server error fetching task.") := by
  have hsym : Symmetric (fun a b : Task => a.id ≠ b.id) := fun _ _ hab => Ne.symm hab
  have h1 : taskJoinMembership db task.id userId = none := by
    apply taskJoinMembership_eq_none
    intro t ht hid
    have heq : t = task := by
      by_contra hne
      exact hi.2.2.2.2.forall hsym ht htask hne hid
    rw [heq]; exact hnm
  have h2 : taskJoinMembership db missingId userId = none :=
    taskJoinMembership_eq_none (fun t ht hid => absurd hid (hmissing t ht))
  have h3 : getTasksId db userId task.id
      = .error 404 "Task not found or you do not have access." := by
    unfold getTasksId
    rw [fitsInt4_of_le hfit, h1]
    rfl
  refine ⟨h3, ?_, ?_⟩
  · intro hm
    rw [h3]
    unfold getTasksId
    rw [fitsInt4_of_le hm, h2]
    rfl
  · intro hlt
    unfold getTasksId
    rw [fitsInt4_of_lt hlt]
    rfl

/-- C17, amended, at a concrete store: outsider c asks for task 1 of team Eng and for task
7, which does not exist. -/
theorem getTasksId_hides_existence_witness :
    taskById twoTasks 1 = some ⟨1, "Fix bug", none, some "pending", 1, none, none, some 2⟩ ∧
      taskById twoTasks 7 = none ∧
      (getTasksId twoTasks 3 1).status = 404 ∧
      getTasksId twoTasks 3 1 = getTasksId twoTasks 3 7 :=
  have h := getTasksId_hides_existence twoTasks 3 7
    ⟨1, "Fix bug", none, some "pending", 1, none, none, some 2⟩
    (by decide) (by decide) (by decide) (by decide) (by decide)
  ⟨by decide, by decide, by rw [h.1]; rfl, h.2.1 (by decide)⟩


/-! ## Deleting and updating a task -/

/-- C14: for an existing task and a member of its team, task delete is answered 200 and
removes the task when the user created the task or has role `'admin'` in the team, and is
answered 403, the store staying as it was, otherwise. -/
theorem deleteTasksId_spec (db : Db) (userId : Nat) (task : Task) (m : Membership)
    (hi : Integrity db) (htask : task ∈ db.tasks) (hm : m ∈ db.team_memberships)
    (huser : m.user_id = userId) (hteam : m.team_id = task.team_id) :
    ((task.created_by_user_id = some userId ∨ m.role = some "admin") →
      (deleteTasksId db userId task.id).2 = 200 ∧
      (deleteTasksId db userId task.id).1 = (deleteTaskRows db task.id).1 ∧
      (∀ t ∈ (deleteTasksId db userId task.id).1.tasks, t.id ≠ task.id) ∧
      (∀ t ∈ db.tasks, t.id ≠ task.id → t ∈ (deleteTasksId db userId task.id).1.tasks)) ∧
    (¬ (task.created_by_user_id = some userId ∨ m.role = some "admin") →
      deleteTasksId db userId task.id = (db, 403)) := by
  have hjoin : taskJoinMembership db task.id userId = some (task, m) := by
    rw [← huser]; exact taskJoinMembership_eq_some hi htask hm hteam
  have hdeleted : (db.tasks.filter (fun t => decide (t.id = task.id))).length ≠ 0 := by
    intro h0
    rw [List.length_eq_zero] at h0
    have : task ∈ db.tasks.filter (fun t => decide (t.id = task.id)) := by
      rw [List.mem_filter]; simp [htask]
    rw [h0] at this
    simp at this
  refine ⟨?_, ?_⟩
  · intro hallowed
    have hguard : (!decide (task.created_by_user_id = some userId)
        && !decide (m.role = some "admin")) = false := by
      rcases hallowed with h | h <;> simp [h]
    have hres : deleteTasksId db userId task.id = ((deleteTaskRows db task.id).1, 200) := by
      unfold deleteTasksId
      rw [hjoin]
      simp only [hguard, Bool.false_eq_true, if_false, deleteTaskRows, if_neg hdeleted]
    rw [hres]
    refine ⟨rfl, rfl, ?_, ?_⟩
    · intro t ht
      simp only [deleteTaskRows, List.mem_filter, Bool.not_eq_true',
        decide_eq_false_iff_not] at ht
      exact ht.2
    · intro t ht hne
      simp only [deleteTaskRows, List.mem_filter, Bool.not_eq_true', decide_eq_false_iff_not]
      exact ⟨ht, hne⟩
  · intro hdenied
    rw [not_or] at hdenied
    unfold deleteTasksId
    rw [hjoin]
    simp [hdenied.1, hdenied.2]

/-- C14 at a concrete store: plain member b asks to delete a's task and is refused; admin a
deletes b's task. -/
theorem deleteTasksId_spec_witness :
    deleteTasksId twoTasks 2 2 = (twoTasks, 403) ∧ (deleteTasksId twoTasks 1 1).2 = 200 ∧
      ∀ t ∈ (deleteTasksId twoTasks 1 1).1.tasks, t.id ≠ 1 :=
  ⟨(deleteTasksId_spec twoTasks 2
      ⟨2, "Write docs", none, some "pending", 1, none, none, some 1⟩ ⟨2, 2, 1, some "member"⟩
      (by decide) (by decide) (by decide) rfl rfl).2 (by decide),
    ((deleteTasksId_spec twoTasks 1
      ⟨1, "Fix bug", none, some "pending", 1, none, none, some 2⟩ ⟨1, 1, 1, some "admin"⟩
      (by decide) (by decide) (by decide) rfl rfl).1 (by decide)).1,
    ((deleteTasksId_spec twoTasks 1
      ⟨1, "Fix bug", none, some "pending", 1, none, none, some 2⟩ ⟨1, 1, 1, some "admin"⟩
      (by decide) (by decide) (by decide) rfl rfl).1 (by decide)).2.2.1⟩

/-- C15 as stated fails: b holds a membership in team Eng with role `'viewer'` and did not
create task 1; b's request to change its title is answered 403. -/
theorem putTasksId_viewer_counterexample :
    membershipOf viewerTeam 2 1 = some ⟨2, 2, 1, some "viewer"⟩ ∧
      taskById viewerTeam 1
        = some ⟨1, "Fix bug", none, some "pending", 1, none, none, some 1⟩ ∧
      putTasksId viewerTeam 2 1 (.value "Fix it") .undefined .undefined .undefined .undefined
        = (viewerTeam, 403) := by
  decide

/-- The answers `PUT /tasks/:id` can give once the join found a row and the permission
guard let the request through. -/
theorem putTasksId_past_guard (db : Db) (userId taskId : Nat) (task : Task) (m : Membership)
    (title description status : Field String) (assigned_to_user_id due_date : Field Nat)
    (hjoin : taskJoinMembership db taskId userId = some (task, m))
    (hallowed : task.created_by_user_id = some userId ∨ m.role = some "admin"
      ∨ m.role = some "member") :
    putTasksId db userId taskId title description status assigned_to_user_id due_date =
      if (match assigned_to_user_id with
          | .value a => (membershipOf db a task.team_id).isNone
          | _ => false) then (db, 400)
      else
        match updateTaskRow db taskId title description status assigned_to_user_id due_date with
        | .error _ => (db, 500)
        | .ok (db1, updated) => if updated = 0 then (db1, 404) else (db1, 200) := by
  have hguard : (!decide (task.created_by_user_id = some userId)
      && !decide (m.role = some "admin") && !decide (m.role = some "member")) = false := by
    rcases hallowed with h | h | h <;> simp [h]
  unfold putTasksId
  rw [hjoin]
  simp only [hguard, Bool.false_eq_true, if_false]

/-- C15, amended: for an existing task and a member of its team, task update is not
answered 403 when the user created the task or the role of their membership is `'admin'`
or `'member'`; it is answered 403, the store staying as it was, when neither holds. -/
theorem putTasksId_forbidden_iff (db : Db) (userId : Nat) (task : Task) (m : Membership)
    (title description status : Field String) (assigned_to_user_id due_date : Field Nat)
    (hi : Integrity db) (htask : task ∈ db.tasks) (hm : m ∈ db.team_memberships)
    (huser : m.user_id = userId) (hteam : m.team_id = task.team_id) :
    ((task.created_by_user_id = some userId ∨ m.role = some "admin" ∨ m.role = some "member") →
      (putTasksId db userId task.id title description status assigned_to_user_id
        due_date).2 ≠ 403) ∧
    (¬ (task.created_by_user_id = some userId ∨ m.role = some "admin"
        ∨ m.role = some "member") →
      putTasksId db userId task.id title description status assigned_to_user_id due_date
        = (db, 403)) := by
  have hjoin : taskJoinMembership db task.id userId = some (task, m) := by
    rw [← huser]; exact taskJoinMembership_eq_some hi htask hm hteam
  refine ⟨?_, ?_⟩
  · intro hallowed
    rw [putTasksId_past_guard db userId task.id task m title description status
      assigned_to_user_id due_date hjoin hallowed]
    split
    · simp
    · split
      · simp
      · split <;> simp
  · intro hdenied
    simp only [not_or] at hdenied
    unfold putTasksId
    rw [hjoin]
    simp [hdenied.1, hdenied.2.1, hdenied.2.2]

/-- C15, amended, at concrete stores: plain member b may retitle a's task; viewer b may not. -/
theorem putTasksId_forbidden_iff_witness :
    (putTasksId twoTasks 2 2 (.value "Docs") .undefined .undefined .undefined .undefined).2
        ≠ 403 ∧
      putTasksId viewerTeam 2 1 (.value "Fix it") .undefined .undefined .undefined .undefined
        = (viewerTeam, 403) :=
  ⟨(putTasksId_forbidden_iff twoTasks 2
      ⟨2, "Write docs", none, some "pending", 1, none, none, some 1⟩ ⟨2, 2, 1, some "member"⟩
      (.value "Docs") .undefined .undefined .undefined .undefined
      (by decide) (by decide) (by decide) rfl rfl).1 (by decide),
    (putTasksId_forbidden_iff viewerTeam 2
      ⟨1, "Fix bug", none, some "pending", 1, none, none, some 1⟩ ⟨2, 2, 1, some "viewer"⟩
      (.value "Fix it") .undefined .undefined .undefined .undefined
      (by decide) (by decide) (by decide) rfl rfl).2 (by decide)⟩


/-! ## Assigning a task to a non-member -/

/-- C13 as stated fails three times. On create, the falsy assignee `0`, who holds no
membership, is treated as absent: the answer is 201 and a task is created. On update,
member b, whose role is `'viewer'` and who did not create the task, names outsider c as
assignee and is answered 403, not 400. On create and on update, admin a names the assignee
2147483648, an id above the `integer` column `user_id` that no member has: the assignee
lookup throws and the answer is 500, not 400. -/
theorem assign_non_member_counterexample :
    (IsMember engTeam 1 1 ∧ ¬ IsMember engTeam 0 1 ∧
      (postTasksServed engTeam 1 (some "Fix bug") none (some 1) (some 0) none).2 = 201 ∧
      (postTasksServed engTeam 1 (some "Fix bug") none (some 1) (some 0) none).1.tasks
        = [⟨1, "Fix bug", none, some "pending", 1, none, none, some 1⟩]) ∧
    (IsMember viewerTeam 2 1 ∧ ¬ IsMember viewerTeam 3 1 ∧
      putTasksIdServed viewerTeam 2 1 .undefined .undefined .undefined (.value 3) .undefined
        = (viewerTeam, 403)) ∧
    (IsMember twoTasks 1 1 ∧ ¬ IsMember twoTasks 2147483648 1 ∧
      postTasksServed twoTasks 1 (some "Fix bug") none (some 1) (some 2147483648) none
        = (twoTasks, 500) ∧
      putTasksIdServed twoTasks 1 1 .undefined .undefined .undefined (.value 2147483648)
        .undefined = (twoTasks, 500)) := by
  decide

/-- C13, amended, for ids that fit the `integer` columns. A task-create request by a
member of the team that names a truthy (non-zero) assignee who holds no membership in that
team is answered 400 and leaves the store as it was. A task-update request by a member of
the task's team who created the task or whose role is `'admin'` or `'member'`, naming a
non-null assignee who holds no membership in the task's team, is answered 400 and leaves
the store as it was. -/
theorem assign_non_member_rejected (db : Db) (userId assignee : Nat)
    (description : Option String) (due_date : Option Nat) (hfit : assignee ≤ int4Max) :
    (∀ (title : Option String) (teamId : Nat), teamId ≠ 0 → teamId ≤ int4Max →
      assignee ≠ 0 → IsMember db userId teamId → ¬ IsMember db assignee teamId →
      postTasksServed db userId title description (some teamId) (some assignee) due_date
        = (db, 400)) ∧
    (∀ (task : Task) (m : Membership) (title newDescription status : Field String)
      (newDue : Field Nat),
      Integrity db → task ∈ db.tasks → task.id ≤ int4Max → m ∈ db.team_memberships →
      m.user_id = userId → m.team_id = task.team_id →
      (task.created_by_user_id = some userId ∨ m.role = some "admin"
        ∨ m.role = some "member") →
      ¬ IsMember db assignee task.team_id →
      putTasksIdServed db userId task.id title newDescription status (.value assignee) newDue
        = (db, 400)) := by
  refine ⟨?_, ?_⟩
  · intro title teamId hteam hteamfit hassignee hmember hnm
    obtain ⟨x, hx⟩ := (membershipOf_isSome_iff db userId teamId).mpr hmember
    unfold postTasksServed
    split
    · rfl
    · simp only [Option.getD_some, hx, truthyNum_some hassignee, fitsInt4_of_le hfit,
        fitsInt4_of_le hteamfit,
        (membershipOf_eq_none_iff db assignee teamId).mpr hnm, Option.isNone_none,
        Bool.and_self, Bool.not_true, Bool.and_false, Bool.false_eq_true, if_false, if_true]
  · intro task m title newDescription status newDue hi htask htaskfit hm huser hteam
      hallowed hnm
    have hjoin : taskJoinMembership db task.id userId = some (task, m) := by
      rw [← huser]; exact taskJoinMembership_eq_some hi htask hm hteam
    have hguard : (!decide (task.created_by_user_id = some userId)
        && !decide (m.role = some "admin") && !decide (m.role = some "member")) = false := by
      rcases hallowed with h | h | h <;> simp [h]
    unfold putTasksIdServed
    rw [fitsInt4_of_le htaskfit, hjoin]
    simp only [Bool.not_true, Bool.false_eq_true, if_false, hguard, fitsInt4_of_le hfit,
      (membershipOf_eq_none_iff db assignee task.team_id).mpr hnm, Option.isNone_none,
      if_true]

/-- C13, amended, at a concrete store: admin a names outsider c as assignee, on create and
on update of task 1. -/
theorem assign_non_member_rejected_witness :
    postTasksServed twoTasks 1 (some "Fix bug") none (some 1) (some 3) none = (twoTasks, 400) ∧
      putTasksIdServed twoTasks 1 1 .undefined .undefined .undefined (.value 3) .undefined
        = (twoTasks, 400) :=
  ⟨(assign_non_member_rejected twoTasks 1 3 none none (by decide)).1 (some "Fix bug") 1
      (by decide) (by decide) (by decide) (by decide) (by decide),
    (assign_non_member_rejected twoTasks 1 3 none none (by decide)).2
      ⟨1, "Fix bug", none, some "pending", 1, none, none, some 2⟩ ⟨1, 1, 1, some "admin"⟩
      .undefined .undefined .undefined .undefined
      (by decide) (by decide) (by decide) (by decide) rfl rfl (by decide) (by decide)⟩

/-! ## Listing tasks -/

theorem tasksJoined_mem {db : Db} {r : Membership × TaskRow} (h : r ∈ tasksJoined db) :
    r.2.task ∈ db.tasks ∧ r.1 ∈ db.team_memberships ∧ r.2.task.team_id = r.1.team_id := by
  unfold tasksJoined at h
  simp only [List.mem_flatMap, List.mem_filter, List.mem_map, decide_eq_true_eq] at h
  obtain ⟨t, ht, m, ⟨hm, hteam⟩, _, _, _, _, hr⟩ := h
  rw [← hr]
  exact ⟨ht, hm, hteam⟩

/-- C16: whatever the filters, every row of task list is a task of a team in which the
acting user holds a membership, and is a row of the answer given with no filter. -/
theorem getTasks_scoped (db : Db) (userId : Nat) (team_id assigned_to_user_id : Option Nat)
    (status : Option String) :
    ∀ row ∈ (getTasks db userId team_id assigned_to_user_id status).1,
      row.task ∈ db.tasks ∧ IsMember db userId row.task.team_id ∧
      row ∈ (getTasks db userId none none none).1 := by
  intro row hrow
  unfold getTasks at hrow ⊢
  simp only [List.mem_map, List.mem_filter, Bool.and_eq_true, decide_eq_true_eq] at hrow
  obtain ⟨r, ⟨hr, ⟨⟨⟨huser, _⟩, _⟩, _⟩⟩, hrrow⟩ := hrow
  obtain ⟨ht, hm, hteam⟩ := tasksJoined_mem hr
  rw [← hrrow]
  refine ⟨ht, ⟨r.1, hm, huser, hteam.symm⟩, ?_⟩
  simp only [List.mem_map, List.mem_filter, Bool.and_eq_true, decide_eq_true_eq]
  exact ⟨r, ⟨hr, by simp [huser, truthyStr]⟩, rfl⟩

/-- C16 at a concrete store: plain member b lists the pending tasks of team 1. -/
theorem getTasks_scoped_witness :
    ((getTasks twoTasks 2 (some 1) none (some "pending")).1.map (fun row => row.task.id))
        = [1, 2] ∧
      IsMember twoTasks 2 1 ∧
      (⟨⟨1, "Fix bug", none, some "pending", 1, none, none, some 2⟩, some "member", none,
        some "b"⟩ : TaskRow) ∈ (getTasks twoTasks 2 none none none).1 :=
  ⟨by decide,
    (getTasks_scoped twoTasks 2 (some 1) none (some "pending")
      ⟨⟨1, "Fix bug", none, some "pending", 1, none, none, some 2⟩, some "member", none,
        some "b"⟩ (by decide)).2.1,
    (getTasks_scoped twoTasks 2 (some 1) none (some "pending")
      ⟨⟨1, "Fix bug", none, some "pending", 1, none, none, some 2⟩, some "member", none,
        some "b"⟩ (by decide)).2.2⟩


/-! ## Team creation is two statements -/

/-- C11 as stated fails: a asks for team "Eng" and the store rejects the insert into
`team_memberships`; the answer is 500 and the team row written by the first statement
stays, with no membership at all. -/
theorem postTeams_orphan_counterexample :
    (postTeamsWith membershipInsertDown onlyUserA 1 (some "Eng") none).2 = 500 ∧
      (postTeamsWith membershipInsertDown onlyUserA 1 (some "Eng") none).1.teams
        = [⟨1, "Eng", none, 1⟩] ∧
      (postTeamsWith membershipInsertDown onlyUserA 1 (some "Eng") none).1.team_memberships
        = [] := by
  decide

/-- In a store that satisfies the schema's integrity, the constraints of the schema cannot
reject the creator's membership once the team row is in. -/
theorem insertMembership_after_insertTeam {db db1 : Db} {name : String}
    {description : Option String} {userId teamId : Nat} (hi : Integrity db)
    (h : insertTeam db name description userId = .ok (db1, teamId)) :
    ∃ db2, insertMembership db1 userId teamId (some "admin") = .ok db2 := by
  obtain ⟨hid, hdb1⟩ := insertTeam_ok h
  have huser : userExists db userId = true := by
    unfold insertTeam at h
    split_ifs at h with h1 h2 h3
    simpa using h3
  obtain ⟨h1, h2, _, _, _⟩ := hi
  have hnm : membershipOf db1 userId teamId = none := by
    rw [membershipOf_eq_none_iff]
    rintro ⟨m, hm, _, hmt⟩
    rw [hdb1] at hm
    obtain ⟨t, ht, hteq⟩ := h2 m hm
    have hlt := h1 t ht
    rw [hteq, hmt, hid] at hlt
    exact Nat.lt_irrefl _ hlt
  have hteam : ¬ (teamById db1 teamId).isNone = true := by
    rw [teamById_isSome_iff, hdb1, hid]
    exact ⟨_, List.mem_append_right _ (List.mem_singleton_self _), rfl⟩
  have huser1 : userExists db1 userId = true := by
    rw [hdb1]; exact huser
  have hlen : decide (50 < "admin".length) = false := by decide
  unfold insertMembership
  simp only [hlen, hnm, huser1, Option.isSome_none, Bool.false_eq_true, if_false, Bool.not_true,
    Bool.false_or, hteam]
  exact ⟨_, rfl⟩

/-- C11, amended. `POST /teams` runs two separate statements. In a store that satisfies the
schema's integrity and rejects a write only on a constraint of the schema, a create-team
request inserts either nothing or both the team row and the creator's admin membership.
When the store rejects the second statement for any reason, the answer is 409 or 500 and
the team row of the first statement stays without a membership. -/
theorem postTeams_two_statements (db : Db) (userId : Nat) (name description : Option String) :
    postTeams db userId name description
      = postTeamsWith insertMembership db userId name description ∧
    (Integrity db →
      ((postTeams db userId name description).1 = db ∧
        (postTeams db userId name description).2 ≠ 201) ∨
      ((postTeams db userId name description).2 = 201 ∧
        (postTeams db userId name description).1.teams
          = db.teams ++ [⟨db.next_team_id, name.getD "", description, userId⟩] ∧
        (postTeams db userId name description).1.team_memberships
          = db.team_memberships
            ++ [⟨db.next_membership_id, userId, db.next_team_id, some "admin"⟩])) ∧
    (∀ (membershipInsert : Db → Nat → Nat → Option String → Except DbError Db)
      (db1 : Db) (teamId : Nat) (e : DbError),
      truthyStr name = true →
      insertTeam db (name.getD "") description userId = .ok (db1, teamId) →
      membershipInsert db1 userId teamId (some "admin") = .error e →
      postTeamsWith membershipInsert db userId name description = (db1, catchStatus e) ∧
      db1.teams = db.teams ++ [⟨db.next_team_id, name.getD "", description, userId⟩] ∧
      db1.team_memberships = db.team_memberships) := by
  refine ⟨rfl, ?_, ?_⟩
  · intro hi
    unfold postTeams
    split
    · left; exact ⟨rfl, by simp⟩
    · split
      · left; exact ⟨rfl, catchStatus_ne_created _⟩
      · rename_i db1 teamId h1
        obtain ⟨db2, h2⟩ := insertMembership_after_insertTeam hi h1
        obtain ⟨hid, hdb1⟩ := insertTeam_ok h1
        obtain ⟨hdb2, _, _⟩ := insertMembership_ok h2
        right
        rw [h2]
        refine ⟨rfl, ?_, ?_⟩
        · simp only [hdb2, hdb1]
        · simp only [hdb2, hdb1, hid]
  · intro membershipInsert db1 teamId e hname h1 h2
    obtain ⟨_, hdb1⟩ := insertTeam_ok h1
    refine ⟨?_, by rw [hdb1], by rw [hdb1]⟩
    unfold postTeamsWith
    simp only [hname, Bool.not_true, Bool.false_eq_true, if_false, h1, h2]

/-- C11, amended, at a concrete store: with only a registered, the request for team "Eng"
inserts both rows; with the second statement rejected, the team row stays alone. -/
theorem postTeams_two_statements_witness :
    ((postTeams onlyUserA 1 (some "Eng") none).2 = 201 ∧
      (postTeams onlyUserA 1 (some "Eng") none).1.team_memberships
        = [⟨1, 1, 1, some "admin"⟩]) ∧
    postTeamsWith membershipInsertDown onlyUserA 1 (some "Eng") none
      = (⟨[⟨1, "a", "a@x"⟩], [⟨1, "Eng", none, 1⟩], [], [], 2, 2, 1, 1⟩, 500) := by
  have h := postTeams_two_statements onlyUserA 1 (some "Eng") none
  refine ⟨?_, ?_⟩
  · rcases h.2.1 (by decide) with ⟨_, hne⟩ | ⟨h201, _, hm⟩
    · exact absurd (by decide) hne
    · exact ⟨h201, hm⟩
  · exact (h.2.2 membershipInsertDown ⟨[⟨1, "a", "a@x"⟩], [⟨1, "Eng", none, 1⟩], [], [], 2, 2, 1, 1⟩
      1 .connection_failure (by decide) rfl rfl).1


/-! ## Roles stored in memberships -/

/-- C12 as stated fails: admin a adds b with role `'owner'`; the request is answered 201 and
the row is stored with that role. -/
theorem role_owner_counterexample :
    Reachable ownerAdded ∧
      (postTeamsMembers engCreated 1 1 (some "b@x") (.value "owner")).2 = 201 ∧
      ownerAdded.team_memberships
        = [⟨1, 1, 1, some "admin"⟩, ⟨2, 2, 1, some "owner"⟩] ∧
      ¬ RolesAdminOrMember ownerAdded :=
  ⟨reachable_run _ _ (reachable_run _ _ .init), by decide, by decide, by decide⟩

/-- What add-member can do to the store, with the role it writes: the role of the body, or
`'member'` when the body has none. -/
theorem postTeamsMembers_effect_role (db : Db) (adminUserId teamId : Nat)
    (member_email : Option String) (role : Field String) :
    (postTeamsMembers db adminUserId teamId member_email role).1 = db ∨
    ∃ target, (postTeamsMembers db adminUserId teamId member_email role).1 = { db with team_memberships := db.team_memberships ++ [⟨db.next_membership_id, target, teamId, roleOrDefault role⟩], next_membership_id := db.next_membership_id + 1 } := by
  unfold postTeamsMembers
  split
  · left; rfl
  · split
    · left; rfl
    · split
      · left; rfl
      · split
        · left; rfl
        · split
          · left; rfl
          · rename_i db1 h
            right
            exact ⟨_, (insertMembership_ok h).1⟩

theorem roles_of_subset {db db1 : Db}
    (hsub : ∀ m ∈ db1.team_memberships, m ∈ db.team_memberships)
    (h : RolesAdminOrMember db) : RolesAdminOrMember db1 :=
  fun m hm => h m (hsub m hm)

theorem handle_roles (db : Db) (r : Request) (h : RolesAdminOrMember db)
    (hr : sendsKnownRole r) : RolesAdminOrMember (handle db r).1 := by
  cases r with
  | register u e p =>
    apply roles_of_subset _ h
    intro m hm
    rw [show (handle db (.register u e p)).1.team_memberships = db.team_memberships from
      (postAuthRegister_effect db u e p).2.1] at hm
    exact hm
  | createTeam u n d =>
    show RolesAdminOrMember (postTeams db u n d).1
    rcases postTeams_effect db u n d with ⟨he, _⟩ | ⟨he, _⟩ | ⟨he, _, _⟩
    · rw [he]; exact h
    · rw [he]; exact h
    · rw [he]
      intro m hm
      simp only [List.mem_append, List.mem_singleton] at hm
      rcases hm with hm | hm
      · exact h m hm
      · rw [hm]; exact Or.inl rfl
  | updateTeam u t n d =>
    apply roles_of_subset _ h
    intro m hm
    rw [show (handle db (.updateTeam u t n d)).1.team_memberships = db.team_memberships from
      (putTeamsId_effect db u t n d).1] at hm
    exact hm
  | deleteTeam u t =>
    show RolesAdminOrMember (deleteTeamsId db u t).1
    rcases deleteTeamsId_effect db u t with he | he
    · rw [he]; exact h
    · rw [he]
      exact roles_of_subset (fun m hm => List.mem_of_mem_filter hm) h
  | addMember u t e role =>
    show RolesAdminOrMember (postTeamsMembers db u t e role).1
    rcases postTeamsMembers_effect_role db u t e role with he | ⟨target, he⟩
    · rw [he]; exact h
    · rw [he]
      intro m hm
      simp only [List.mem_append, List.mem_singleton] at hm
      rcases hm with hm | hm
      · exact h m hm
      · rw [hm]
        rcases hr with hrole | hrole | hrole <;> rw [hrole] <;> simp [roleOrDefault]
  | removeMember u t m =>
    show RolesAdminOrMember (deleteTeamsMembers db u t m).1
    rcases deleteTeamsMembers_effect db u t m with he | ⟨he, _, _⟩
    · rw [he]; exact h
    · rw [he]
      exact roles_of_subset (fun m hm => List.mem_of_mem_filter hm) h
  | createTask u ti de te a du =>
    show RolesAdminOrMember (postTasks db u ti de te a du).1
    rcases postTasks_effect db u ti de te a du with he | ⟨_, he, _, _⟩
    · rw [he]; exact h
    · rw [he]; exact h
  | updateTask u t ti de st a du =>
    show RolesAdminOrMember (putTasksId db u t ti de st a du).1
    rcases putTasksId_effect db u t ti de st a du with he | ⟨_, _, _, he, _⟩
    · rw [he]; exact h
    · rw [he]; exact h
  | deleteTask u t =>
    show RolesAdminOrMember (deleteTasksId db u t).1
    rcases deleteTasksId_effect db u t with he | he
    · rw [he]; exact h
    · rw [he]; exact h

/-- C12, amended: in every store reachable from the empty store by requests whose
add-member bodies carry no role, role `'admin'` or role `'member'`, every membership row
has role `'admin'` or `'member'`. Add-member stores the role of the body as it is. -/
theorem reachable_roles_admin_or_member (db : Db)
    (h : ReachableVia (fun _ r => sendsKnownRole r) db) : RolesAdminOrMember db := by
  refine ReachableVia.induct (P := RolesAdminOrMember) ?_ ?_ db h
  · intro m hm
    simp [Db.empty] at hm
  · intro db r hp hr
    exact handle_roles db r hp hr

/-- C12, amended, at a concrete run: a creates team Eng and adds b with no role given. -/
theorem reachable_roles_admin_or_member_witness :
    engTeam.team_memberships = [⟨1, 1, 1, some "admin"⟩, ⟨2, 2, 1, some "member"⟩] ∧
      RolesAdminOrMember engTeam :=
  ⟨by decide,
    reachable_roles_admin_or_member engTeam
      (.step (.addMember 1 1 (some "b@x") .undefined)
        (.step (.createTeam 1 (some "Eng") none)
          (.step (.register (some "c") (some "c@x") (some "pw"))
            (.step (.register (some "b") (some "b@x") (some "pw"))
              (.step (.register (some "a") (some "a@x") (some "pw")) .init
                trivial) trivial) trivial) trivial) (by decide))⟩


/-! ## Who may update or delete a team -/

theorem catchStatus_cases (e : DbError) : catchStatus e = 409 ∨ catchStatus e = 500 := by
  unfold catchStatus
  split_ifs
  · exact Or.inl rfl
  · exact Or.inr rfl

theorem teamWriteForbidden_iff (db : Db) (userId teamId : Nat) (team : Team)
    (hteam : teamById db teamId = some team) :
    teamWriteForbidden db userId teamId = true ↔
      ¬ (IsAdmin db userId teamId ∨ team.created_by_user_id = userId) := by
  unfold teamWriteForbidden
  rw [hteam]
  cases h : adminMembershipOf db userId teamId with
  | none =>
    have hna := (adminMembershipOf_eq_none_iff db userId teamId).mp h
    simp [hna]
  | some x =>
    have ha := (adminMembershipOf_isSome_iff db userId teamId).mp ⟨x, h⟩
    simp [ha]

theorem putTeamsId_status (db : Db) (userId teamId : Nat) (name description : Field String) :
    (teamWriteForbidden db userId teamId = true →
      putTeamsId db userId teamId name description = (db, 403)) ∧
    (teamWriteForbidden db userId teamId = false →
      (putTeamsId db userId teamId name description).2 ≠ 403) := by
  unfold putTeamsId
  refine ⟨fun h => by rw [if_pos h], fun h => ?_⟩
  rw [h]
  simp only [Bool.false_eq_true, if_false]
  split
  · rcases catchStatus_cases ‹DbError› with hc | hc <;> simp [hc]
  · split <;> simp

theorem deleteTeamsId_status (db : Db) (userId teamId : Nat) :
    (teamWriteForbidden db userId teamId = true → deleteTeamsId db userId teamId = (db, 403)) ∧
    (teamWriteForbidden db userId teamId = false → (deleteTeamsId db userId teamId).2 ≠ 403) := by
  unfold deleteTeamsId
  refine ⟨fun h => by rw [if_pos h], fun h => ?_⟩
  rw [h]
  simp only [Bool.false_eq_true, if_false]
  split <;> simp

/-- C21: for an existing team, team update and team delete are answered 403 exactly when
the acting user neither holds an admin membership in the team nor is its creator, and then
the store stays as it was; the creator passes whatever membership they hold. -/
theorem team_write_authorized_iff (db : Db) (userId teamId : Nat) (team : Team)
    (name description : Field String) (hteam : teamById db teamId = some team) :
    ((putTeamsId db userId teamId name description).2 = 403 ↔
      ¬ (IsAdmin db userId teamId ∨ team.created_by_user_id = userId)) ∧
    ((deleteTeamsId db userId teamId).2 = 403 ↔
      ¬ (IsAdmin db userId teamId ∨ team.created_by_user_id = userId)) ∧
    (¬ (IsAdmin db userId teamId ∨ team.created_by_user_id = userId) →
      putTeamsId db userId teamId name description = (db, 403) ∧
      deleteTeamsId db userId teamId = (db, 403)) := by
  have hiff := teamWriteForbidden_iff db userId teamId team hteam
  have hput := putTeamsId_status db userId teamId name description
  have hdel := deleteTeamsId_status db userId teamId
  refine ⟨⟨fun h => ?_, fun h => ?_⟩, ⟨fun h => ?_, fun h => ?_⟩, fun h => ?_⟩
  · intro hauth
    have hf : teamWriteForbidden db userId teamId = false := by
      cases hb : teamWriteForbidden db userId teamId with
      | false => rfl
      | true => exact absurd hauth (hiff.mp hb)
    exact hput.2 hf h
  · rw [hput.1 (hiff.mpr h)]
  · intro hauth
    have hf : teamWriteForbidden db userId teamId = false := by
      cases hb : teamWriteForbidden db userId teamId with
      | false => rfl
      | true => exact absurd hauth (hiff.mp hb)
    exact hdel.2 hf h
  · rw [hdel.1 (hiff.mpr h)]
  · exact ⟨hput.1 (hiff.mpr h), hdel.1 (hiff.mpr h)⟩

/-- C21 at concrete stores: in `handedOver` the creator a holds no membership and still
renames and deletes the team; outsider c is answered 403. -/
theorem team_write_authorized_iff_witness :
    ¬ IsMember handedOver 1 1 ∧
      (putTeamsId handedOver 1 1 (.value "Core") .undefined).2 ≠ 403 ∧
      (deleteTeamsId handedOver 1 1).2 ≠ 403 ∧
      putTeamsId handedOver 3 1 (.value "Core") .undefined = (handedOver, 403) ∧
      deleteTeamsId handedOver 3 1 = (handedOver, 403) :=
  have h1 := team_write_authorized_iff handedOver 1 1 ⟨1, "Eng", none, 1⟩ (.value "Core")
    .undefined (by decide)
  have h3 := team_write_authorized_iff handedOver 3 1 ⟨1, "Eng", none, 1⟩ (.value "Core")
    .undefined (by decide)
  ⟨by decide, fun h => h1.1.mp h (Or.inr rfl), fun h => h1.2.1.mp h (Or.inr rfl),
    (h3.2.2 (by decide)).1, (h3.2.2 (by decide)).2⟩


/-! ## Deleting a team: the cascade, and the branch that no request takes -/

theorem filter_length_ne_zero_iff {α : Type} (l : List α) (p : α → Bool) :
    (l.filter p).length ≠ 0 ↔ ∃ x ∈ l, p x = true := by
  constructor
  · intro h
    cases hf : l.filter p with
    | nil => rw [hf] at h; exact absurd rfl h
    | cons x xs =>
      have hx : x ∈ l.filter p := by rw [hf]; exact List.mem_cons_self _ _
      rw [List.mem_filter] at hx
      exact ⟨x, hx.1, hx.2⟩
  · rintro ⟨x, hx, hp⟩ h0
    rw [List.length_eq_zero] at h0
    have : x ∈ l.filter p := List.mem_filter.mpr ⟨hx, hp⟩
    rw [h0] at this
    simp at this

/-- C22: a team delete answered 200 leaves no team, no membership and no task of that team,
and keeps every other team, membership and task, and every user, as it was. -/
theorem deleteTeamsId_cascade (db : Db) (userId teamId : Nat)
    (h : (deleteTeamsId db userId teamId).2 = 200) :
    (deleteTeamsId db userId teamId).1.teams
      = db.teams.filter (fun t => !decide (t.id = teamId)) ∧
    (deleteTeamsId db userId teamId).1.team_memberships
      = db.team_memberships.filter (fun m => !decide (m.team_id = teamId)) ∧
    (deleteTeamsId db userId teamId).1.tasks
      = db.tasks.filter (fun t => !decide (t.team_id = teamId)) ∧
    (deleteTeamsId db userId teamId).1.users = db.users ∧
    (∀ m ∈ (deleteTeamsId db userId teamId).1.team_memberships, m.team_id ≠ teamId) ∧
    (∀ t ∈ (deleteTeamsId db userId teamId).1.tasks, t.team_id ≠ teamId) ∧
    (∀ m ∈ db.team_memberships, m.team_id ≠ teamId →
      m ∈ (deleteTeamsId db userId teamId).1.team_memberships) ∧
    (∀ t ∈ db.tasks, t.team_id ≠ teamId → t ∈ (deleteTeamsId db userId teamId).1.tasks) ∧
    (∀ t ∈ db.teams, t.id ≠ teamId → t ∈ (deleteTeamsId db userId teamId).1.teams) := by
  have hres : (deleteTeamsId db userId teamId).1 = { db with teams := db.teams.filter (fun t => !decide (t.id = teamId)), team_memberships := db.team_memberships.filter (fun m => !decide (m.team_id = teamId)), tasks := db.tasks.filter (fun t => !decide (t.team_id = teamId)) } := by
    unfold deleteTeamsId deleteTeamRow at h ⊢
    split at h
    · simp at h
    · rename_i hf
      rw [if_neg hf]
      by_cases hd : (db.teams.filter (fun t => decide (t.id = teamId))).length = 0
      · simp [hd] at h
      · simp only [if_neg hd]
  rw [hres]
  refine ⟨rfl, rfl, rfl, rfl, ?_, ?_, ?_, ?_, ?_⟩
  · intro m hm
    simpa using (List.mem_filter.mp hm).2
  · intro t ht
    simpa using (List.mem_filter.mp ht).2
  · intro m hm hne
    exact List.mem_filter.mpr ⟨hm, by simpa using hne⟩
  · intro t ht hne
    exact List.mem_filter.mpr ⟨ht, by simpa using hne⟩
  · intro t ht hne
    exact List.mem_filter.mpr ⟨ht, by simpa using hne⟩

/-- C22 at a concrete store: admin a deletes team Eng of `twoTasks`; nothing of it is left
and the three users stay. -/
theorem deleteTeamsId_cascade_witness :
    twoTasks.tasks.length = 2 ∧ twoTasks.team_memberships.length = 2 ∧
      (deleteTeamsId twoTasks 1 1).1.team_memberships = [] ∧
      (deleteTeamsId twoTasks 1 1).1.tasks = [] ∧
      (deleteTeamsId twoTasks 1 1).1.users = twoTasks.users :=
  have h := deleteTeamsId_cascade twoTasks 1 1 (by decide)
  ⟨by decide, by decide, h.2.1.trans (by decide), h.2.2.1.trans (by decide), h.2.2.2.1⟩

theorem teamWriteForbidden_false_team {db : Db} {userId teamId : Nat}
    (hfk : MembershipsReferenceTeams db) (h : teamWriteForbidden db userId teamId = false) :
    ∃ t ∈ db.teams, t.id = teamId := by
  unfold teamWriteForbidden at h
  split at h
  · rename_i x hx
    obtain ⟨m, hm, _, hmt, _⟩ := (adminMembershipOf_isSome_iff db userId teamId).mp ⟨x, hx⟩
    obtain ⟨t, ht, hid⟩ := hfk m hm
    exact ⟨t, ht, by rw [hid, hmt]⟩
  · split at h
    · simp at h
    · rename_i team hteam
      unfold teamById at hteam
      have h1 := List.mem_of_find?_eq_some hteam
      have h2 := List.find?_some hteam
      exact ⟨team, h1, by simpa using h2⟩

/-- With every membership referencing an existing team, `putTeamsId` and `deleteTeamsId`,
the two routes on a team id that fits the `integer` column, never answer 404: for a team id
no team has, both answer 403 and leave the store as it was. -/
theorem teamWrite_fitting_id (db : Db) (userId teamId : Nat)
    (name description : Field String) (hfk : MembershipsReferenceTeams db) :
    (putTeamsId db userId teamId name description).2 ≠ 404 ∧
    (deleteTeamsId db userId teamId).2 ≠ 404 ∧
    ((∀ t ∈ db.teams, t.id ≠ teamId) →
      putTeamsId db userId teamId name description = (db, 403) ∧
      deleteTeamsId db userId teamId = (db, 403)) ∧
    (teamWriteForbidden db userId teamId = false → ∃ t ∈ db.teams, t.id = teamId) := by
  have hrows : teamWriteForbidden db userId teamId = false →
      (db.teams.filter (fun t => decide (t.id = teamId))).length ≠ 0 := by
    intro h
    obtain ⟨t, ht, hid⟩ := teamWriteForbidden_false_team hfk h
    exact (filter_length_ne_zero_iff _ _).mpr ⟨t, ht, by simpa using hid⟩
  refine ⟨?_, ?_, ?_, teamWriteForbidden_false_team hfk⟩
  · unfold putTeamsId
    split
    · simp
    · rename_i hf
      have hne := hrows (by simpa using hf)
      split
      · rcases catchStatus_cases ‹DbError› with hc | hc <;> simp [hc]
      · rename_i db1 updated hu
        have hupd : updated ≠ 0 := by
          unfold updateTeamRow at hu
          simp only [if_neg hne] at hu
          split at hu
          · simp at hu
          · split_ifs at hu
            simp only [Except.ok.injEq, Prod.mk.injEq] at hu
            rw [← hu.2]; exact hne
          · simp only [Except.ok.injEq, Prod.mk.injEq] at hu
            rw [← hu.2]; exact hne
        rw [if_neg hupd]
        simp
  · unfold deleteTeamsId
    split
    · simp
    · rename_i hf
      have hne := hrows (by simpa using hf)
      simp only [deleteTeamRow, if_neg hne]
      simp
  · intro hnone
    have hforbidden : teamWriteForbidden db userId teamId = true := by
      cases hb : teamWriteForbidden db userId teamId with
      | true => rfl
      | false =>
        obtain ⟨t, ht, hid⟩ := teamWriteForbidden_false_team hfk hb
        exact absurd hid (hnone t ht)
    exact ⟨(putTeamsId_status db userId teamId name description).1 hforbidden,
      (deleteTeamsId_status db userId teamId).1 hforbidden⟩

/-- C28 as stated fails: no team has the id 2147483648, which lies above the `integer`
column; the admin lookup of team update and of team delete throws and both answer 500, not
403. -/
theorem team_write_counterexample :
    MembershipsReferenceTeams twoTasks ∧ (∀ t ∈ twoTasks.teams, t.id ≠ 2147483648) ∧
      putTeamsIdServed twoTasks 1 2147483648 (.value "Core") .undefined = (twoTasks, 500) ∧
      deleteTeamsIdServed twoTasks 1 2147483648 = (twoTasks, 500) := by
  decide

/-- C28, amended: when every membership references an existing team, team update and team
delete never answer 404, whatever the team id. For a team id no team has, both leave the
store as it was, answering 403 when the id fits the `integer` column and 500 when it lies
above it; and a request that passes the authorization check finds the team row. -/
theorem team_write_never_not_found (db : Db) (userId teamId : Nat)
    (name description : Field String) (hfk : MembershipsReferenceTeams db) :
    (putTeamsIdServed db userId teamId name description).2 ≠ 404 ∧
    (deleteTeamsIdServed db userId teamId).2 ≠ 404 ∧
    ((∀ t ∈ db.teams, t.id ≠ teamId) → teamId ≤ int4Max →
      putTeamsIdServed db userId teamId name description = (db, 403) ∧
      deleteTeamsIdServed db userId teamId = (db, 403)) ∧
    (int4Max < teamId →
      putTeamsIdServed db userId teamId name description = (db, 500) ∧
      deleteTeamsIdServed db userId teamId = (db, 500)) ∧
    (teamWriteForbidden db userId teamId = false → ∃ t ∈ db.teams, t.id = teamId) := by
  have hcore := teamWrite_fitting_id db userId teamId name description hfk
  have hput : ∀ hfit : teamId ≤ int4Max, putTeamsIdServed db userId teamId name description
      = putTeamsId db userId teamId name description := by
    intro hfit
    unfold putTeamsIdServed
    rw [fitsInt4_of_le hfit]
    rfl
  have hdel : ∀ hfit : teamId ≤ int4Max, deleteTeamsIdServed db userId teamId
      = deleteTeamsId db userId teamId := by
    intro hfit
    unfold deleteTeamsIdServed
    rw [fitsInt4_of_le hfit]
    rfl
  have hhigh : int4Max < teamId →
      putTeamsIdServed db userId teamId name description = (db, 500) ∧
      deleteTeamsIdServed db userId teamId = (db, 500) := by
    intro hlt
    unfold putTeamsIdServed deleteTeamsIdServed
    rw [fitsInt4_of_lt hlt]
    exact ⟨rfl, rfl⟩
  refine ⟨?_, ?_, ?_, hhigh, teamWriteForbidden_false_team hfk⟩
  · rcases Nat.lt_or_ge int4Max teamId with hlt | hfit
    · rw [(hhigh hlt).1]; simp
    · rw [hput hfit]; exact hcore.1
  · rcases Nat.lt_or_ge int4Max teamId with hlt | hfit
    · rw [(hhigh hlt).2]; simp
    · rw [hdel hfit]; exact hcore.2.1
  · intro hnone hfit
    rw [hput hfit, hdel hfit]
    exact hcore.2.2.1 hnone

/-- C28, amended, at a concrete store: admin a asks to rename and to delete team 9, which
does not exist. -/
theorem team_write_never_not_found_witness :
    teamById twoTasks 9 = none ∧
      putTeamsIdServed twoTasks 1 9 (.value "Core") .undefined = (twoTasks, 403) ∧
      deleteTeamsIdServed twoTasks 1 9 = (twoTasks, 403) :=
  have h := team_write_never_not_found twoTasks 1 9 (.value "Core") .undefined (by decide)
  ⟨by decide, (h.2.2.1 (by decide) (by decide)).1, (h.2.2.1 (by decide) (by decide)).2⟩


/-! ## Remove member: the redundant conjunct and the frame -/

theorem lastAdmin_is_acting {db : Db} {adminUserId teamId memberIdToRemove : Nat}
    (hadmin : IsAdmin db adminUserId teamId)
    (hlast : isLastAdmin db teamId memberIdToRemove = true) :
    adminUserId = memberIdToRemove := by
  unfold isLastAdmin at hlast
  simp only [Bool.and_eq_true, decide_eq_true_eq] at hlast
  obtain ⟨x, hx, hxu, hxt, hxr⟩ := hadmin
  have hmem : adminUserId ∈ currentAdminMemberships db teamId := by
    unfold currentAdminMemberships
    rw [List.mem_map]
    exact ⟨x, List.mem_filter.mpr ⟨hx, by simp [hxt, hxr]⟩, hxu⟩
  match hl : currentAdminMemberships db teamId, hlast, hmem with
  | [y], hlast, hmem =>
    simp only [List.head?_cons, Option.some.injEq] at hlast
    rw [List.mem_singleton] at hmem
    rw [hmem, hlast.2]
  | [], hlast, _ => simp at hlast
  | _ :: _ :: _, hlast, _ => simp at hlast

/-- C27: past the admin check of remove-member, a target that is the only admin of the
team is the acting user, so the handler answers the same, and leaves the same store, with
the last-admin guard reduced to `isLastAdmin`; and no admin faces a different user who is
the sole admin. -/
theorem lastAdmin_conjunct_redundant (db : Db) (adminUserId teamId memberIdToRemove : Nat) :
    (IsAdmin db adminUserId teamId → isLastAdmin db teamId memberIdToRemove = true →
      adminUserId = memberIdToRemove) ∧
    (IsAdmin db adminUserId teamId →
      ((isLastAdmin db teamId memberIdToRemove && decide (adminUserId = memberIdToRemove))
        = isLastAdmin db teamId memberIdToRemove)) ∧
    deleteTeamsMembers db adminUserId teamId memberIdToRemove
      = deleteTeamsMembersLastAdminOnly db adminUserId teamId memberIdToRemove ∧
    (IsAdmin db adminUserId teamId → adminUserId ≠ memberIdToRemove →
      ¬ (∀ x ∈ db.team_memberships,
        x.team_id = teamId → x.role = some "admin" → x.user_id = memberIdToRemove)) := by
  have hguard : IsAdmin db adminUserId teamId →
      ((isLastAdmin db teamId memberIdToRemove && decide (adminUserId = memberIdToRemove))
        = isLastAdmin db teamId memberIdToRemove) := by
    intro hadmin
    cases hl : isLastAdmin db teamId memberIdToRemove with
    | false => rfl
    | true => simp [lastAdmin_is_acting hadmin hl]
  refine ⟨lastAdmin_is_acting, hguard, ?_, ?_⟩
  · unfold deleteTeamsMembers deleteTeamsMembersLastAdminOnly
    cases ha : adminMembershipOf db adminUserId teamId with
    | none => rfl
    | some x =>
      have hadmin := (adminMembershipOf_isSome_iff db adminUserId teamId).mp ⟨x, ha⟩
      simp only [hguard hadmin]
  · rintro ⟨x, hx, hxu, hxt, hxr⟩ hne hsole
    exact hne (by rw [← hxu]; exact hsole x hx hxt hxr)

/-- C27 at a concrete store: in `handedOver` b is the only admin; asked by b to remove b,
both handlers answer 403. -/
theorem lastAdmin_conjunct_redundant_witness :
    isLastAdmin handedOver 1 2 = true ∧
      deleteTeamsMembersLastAdminOnly handedOver 2 1 2 = (handedOver, 403) ∧
      deleteTeamsMembers handedOver 2 1 2 = (handedOver, 403) :=
  have h := lastAdmin_conjunct_redundant handedOver 2 1 2
  ⟨by decide, by decide, h.2.2.1.trans (by decide)⟩

theorem db_with_same_memberships (db : Db) (l : List Membership)
    (h : l = db.team_memberships) : { db with team_memberships := l } = db := by
  rw [h]

theorem deleteTeamsMembers_cases (db : Db) (adminUserId teamId memberIdToRemove : Nat) :
    deleteTeamsMembers db adminUserId teamId memberIdToRemove = (db, 403) ∨
    (deleteTeamsMembers db adminUserId teamId memberIdToRemove
        = ((deleteMembershipRows db memberIdToRemove teamId).1, 404) ∧
      (deleteMembershipRows db memberIdToRemove teamId).2 = 0) ∨
    (deleteTeamsMembers db adminUserId teamId memberIdToRemove
        = ((deleteMembershipRows db memberIdToRemove teamId).1, 200) ∧
      (deleteMembershipRows db memberIdToRemove teamId).2 ≠ 0) := by
  unfold deleteTeamsMembers
  split
  · left; rfl
  · split
    · left; rfl
    · split
      · left; rfl
      · by_cases hd : (deleteMembershipRows db memberIdToRemove teamId).2 = 0
        · right; left
          exact ⟨if_pos hd, hd⟩
        · right; right
          exact ⟨if_neg hd, hd⟩

/-- C30: remove-member answers 200, 403 or 404. Answered 200, it deletes the rows of the
pair (target, team), which existed, and nothing else: every other membership, every team,
every task with its `assigned_to_user_id`, and every user are as before. Answered anything
else, it leaves the whole store as it was. -/
theorem deleteTeamsMembers_frame (db : Db) (adminUserId teamId memberIdToRemove : Nat) :
    ((deleteTeamsMembers db adminUserId teamId memberIdToRemove).2 = 200 ∨
      (deleteTeamsMembers db adminUserId teamId memberIdToRemove).2 = 403 ∨
      (deleteTeamsMembers db adminUserId teamId memberIdToRemove).2 = 404) ∧
    ((deleteTeamsMembers db adminUserId teamId memberIdToRemove).2 = 200 →
      (deleteTeamsMembers db adminUserId teamId memberIdToRemove).1.team_memberships
        = db.team_memberships.filter
            (fun x => !decide (x.user_id = memberIdToRemove ∧ x.team_id = teamId)) ∧
      (deleteTeamsMembers db adminUserId teamId memberIdToRemove).1.teams = db.teams ∧
      (deleteTeamsMembers db adminUserId teamId memberIdToRemove).1.tasks = db.tasks ∧
      (deleteTeamsMembers db adminUserId teamId memberIdToRemove).1.users = db.users ∧
      IsMember db memberIdToRemove teamId) ∧
    ((deleteTeamsMembers db adminUserId teamId memberIdToRemove).2 ≠ 200 →
      (deleteTeamsMembers db adminUserId teamId memberIdToRemove).1 = db) := by
  rcases deleteTeamsMembers_cases db adminUserId teamId memberIdToRemove with
    he | ⟨he, hd⟩ | ⟨he, hd⟩
  · rw [he]
    exact ⟨Or.inr (Or.inl rfl), fun h => absurd h (by simp), fun _ => rfl⟩
  · rw [he]
    refine ⟨Or.inr (Or.inr rfl), fun h => absurd h (by simp), fun _ => ?_⟩
    apply db_with_same_memberships
    rw [List.filter_eq_self]
    intro x hx
    by_contra hmatch
    have hmem : x ∈ db.team_memberships.filter
        (fun m => decide (m.user_id = memberIdToRemove ∧ m.team_id = teamId)) :=
      List.mem_filter.mpr ⟨hx, by simpa using hmatch⟩
    simp only [deleteMembershipRows] at hd
    rw [List.length_eq_zero] at hd
    rw [hd] at hmem
    simp at hmem
  · rw [he]
    refine ⟨Or.inl rfl, fun _ => ⟨rfl, rfl, rfl, rfl, ?_⟩, fun h => absurd rfl h⟩
    obtain ⟨x, hx, hp⟩ := (filter_length_ne_zero_iff _ _).mp hd
    simp only [decide_eq_true_eq] at hp
    exact ⟨x, hx, hp.1, hp.2⟩

/-- C30 at a concrete store: admin a removes b, to whom task 1 is assigned; the task stays
assigned to b. Outsider c asking the same changes nothing. -/
theorem deleteTeamsMembers_frame_witness :
    (deleteTeamsMembers assignedTask 1 1 2).2 = 200 ∧
      (deleteTeamsMembers assignedTask 1 1 2).1.tasks
        = [⟨1, "Fix bug", none, some "pending", 1, some 2, none, some 1⟩] ∧
      (deleteTeamsMembers assignedTask 1 1 2).1.team_memberships
        = [⟨1, 1, 1, some "admin"⟩] ∧
      (deleteTeamsMembers assignedTask 3 1 2).1 = assignedTask :=
  have h := deleteTeamsMembers_frame assignedTask 1 1 2
  have h3 := deleteTeamsMembers_frame assignedTask 3 1 2
  ⟨by decide, (h.2.1 (by decide)).2.2.1.trans (by decide),
    (h.2.1 (by decide)).1.trans (by decide), h3.2.2 (by decide)⟩


/-! ## Task list returns each visible task once -/

theorem leftJoinUsername_singleton (db : Db) (husers : UniqueUserIds db) (id : Option Nat) :
    ∃ x, leftJoinUsername db id = [x] := by
  unfold leftJoinUsername
  have hlen : (db.users.filter (fun u => decide (some u.id = id))).length ≤ 1 := by
    apply length_le_one_of_pairwise_of_all _
      (List.Pairwise.sublist (List.filter_sublist _) husers)
    intro a ha b hb
    simp only [List.mem_filter, decide_eq_true_eq] at ha hb
    have : some a.id = some b.id := ha.2.trans hb.2.symm
    simpa using this
  cases hf : db.users.filter (fun u => decide (some u.id = id)) with
  | nil => exact ⟨none, rfl⟩
  | cons u us =>
    cases us with
    | nil => exact ⟨some u.username, rfl⟩
    | cons v vs => rw [hf] at hlen; simp at hlen

/-- Under the unique constraint a user has one membership row in a team, or none. -/
theorem memberRows_of_unique (db : Db) (huniq : UniqueMembership db) (userId teamId : Nat) :
    (db.team_memberships.filter
        (fun m => decide (teamId = m.team_id) && decide (m.user_id = userId))).length
      = if IsMember db userId teamId then 1 else 0 := by
  by_cases hmem : IsMember db userId teamId
  · rw [if_pos hmem]
    obtain ⟨m, hm, hu, ht⟩ := hmem
    have := filter_eq_singleton
      (p := fun x => decide (teamId = x.team_id) && decide (x.user_id = userId))
      huniq hm (by simp [hu, ht]) (by
        intro a _ b _ ha hb
        simp only [Bool.and_eq_true, decide_eq_true_eq] at ha hb
        simp [ha.2, hb.2, ← ha.1, ← hb.1])
    rw [this]; rfl
  · rw [if_neg hmem, List.length_eq_zero, List.filter_eq_nil_iff]
    intro m hm hc
    simp only [Bool.and_eq_true, decide_eq_true_eq] at hc
    exact hmem ⟨m, hm, hc.2, hc.1.symm⟩

theorem replicate_of_length_if {α : Type} (l : List α) (t : α) (c : Prop) [Decidable c]
    (h : l.length = if c then 1 else 0) (hall : ∀ x ∈ l, x = t) :
    l = if c then [t] else [] := by
  by_cases hc : c
  · rw [if_pos hc] at h ⊢
    match l, h, hall with
    | [x], _, hall => rw [hall x (by simp)]
  · rw [if_neg hc] at h ⊢
    exact List.length_eq_zero.mp h

theorem flatMap_singleton_eq_map {α β : Type} (l : List α) (h : α → β) :
    l.flatMap (fun a => [h a]) = l.map h := by
  induction l with
  | nil => rfl
  | cons a l ih => simp [List.flatMap_cons, ih]

/-- The rows one task contributes to `GET /tasks`: the task itself when the acting user is
a member of its team and the filters match, nothing otherwise. -/
theorem joined_rows_of_task (db : Db) (huniq : UniqueMembership db) (husers : UniqueUserIds db)
    (userId : Nat) (team_id assigned_to_user_id : Option Nat) (status : Option String)
    (t : Task) :
    ((((db.team_memberships.filter (fun m => decide (t.team_id = m.team_id))).flatMap (fun m =>
        (leftJoinUsername db t.assigned_to_user_id).flatMap (fun assigned =>
          (leftJoinUsername db t.created_by_user_id).map (fun creator =>
            (m, TaskRow.mk t m.role assigned creator))))).filter (fun r =>
        decide (r.1.user_id = userId)
        && (match team_id with
            | some t => decide (r.2.task.team_id = t)
            | none => true)
        && (match assigned_to_user_id with
            | some a => decide (r.2.task.assigned_to_user_id = some a)
            | none => true)
        && (if truthyStr status then decide (r.2.task.status = status) else true))).map
      (fun r => r.2.task))
    = if (decide (IsMember db userId t.team_id)
          && taskMatches team_id assigned_to_user_id status t) = true then [t] else [] := by
  obtain ⟨x, hx⟩ := leftJoinUsername_singleton db husers t.assigned_to_user_id
  obtain ⟨y, hy⟩ := leftJoinUsername_singleton db husers t.created_by_user_id
  rw [hx, hy]
  simp only [List.flatMap_cons, List.flatMap_nil, List.append_nil, List.map_cons, List.map_nil]
  rw [flatMap_singleton_eq_map, List.filter_map, List.map_map, List.filter_filter]
  by_cases hc : taskMatches team_id assigned_to_user_id status t = true
  · have hpred : (db.team_memberships.filter (fun a =>
          ((fun r : Membership × TaskRow =>
            decide (r.1.user_id = userId)
            && (match team_id with
                | some t => decide (r.2.task.team_id = t)
                | none => true)
            && (match assigned_to_user_id with
                | some a => decide (r.2.task.assigned_to_user_id = some a)
                | none => true)
            && (if truthyStr status then decide (r.2.task.status = status) else true)) ∘
            fun m => (m, TaskRow.mk t m.role x y)) a && decide (t.team_id = a.team_id)))
        = db.team_memberships.filter
            (fun m => decide (t.team_id = m.team_id) && decide (m.user_id = userId)) := by
      apply List.filter_congr
      intro m _
      unfold taskMatches at hc
      simp only [Bool.and_eq_true] at hc
      simp only [Function.comp, hc.1.1, hc.1.2, hc.2, Bool.and_true]
      exact Bool.and_comm _ _
    rw [hpred, hc, Bool.and_true]
    have hlen := memberRows_of_unique db huniq userId t.team_id
    have hrep := replicate_of_length_if
      ((db.team_memberships.filter
        (fun m => decide (t.team_id = m.team_id) && decide (m.user_id = userId))).map
          ((fun r : Membership × TaskRow => r.2.task) ∘ fun m => (m, TaskRow.mk t m.role x y)))
      t (IsMember db userId t.team_id) (by rw [List.length_map]; exact hlen)
      (by
        intro z hz
        simp only [List.mem_map, Function.comp] at hz
        obtain ⟨_, _, hz⟩ := hz
        exact hz.symm)
    rw [hrep]
    by_cases hm : IsMember db userId t.team_id <;> simp [hm]
  · have hcf : taskMatches team_id assigned_to_user_id status t = false := by
      simpa using hc
    have hnil : (db.team_memberships.filter (fun a =>
          ((fun r : Membership × TaskRow =>
            decide (r.1.user_id = userId)
            && (match team_id with
                | some t => decide (r.2.task.team_id = t)
                | none => true)
            && (match assigned_to_user_id with
                | some a => decide (r.2.task.assigned_to_user_id = some a)
                | none => true)
            && (if truthyStr status then decide (r.2.task.status = status) else true)) ∘
            fun m => (m, TaskRow.mk t m.role x y)) a && decide (t.team_id = a.team_id)))
        = [] := by
      rw [List.filter_eq_nil_iff]
      intro m _
      unfold taskMatches at hcf
      simp only [Function.comp, Bool.and_assoc] at hcf ⊢
      simp only [Bool.and_eq_true, decide_eq_true_eq, not_and, ite_eq_left_iff,
        Bool.not_eq_true, Bool.if_true_right, Bool.or_eq_true, Bool.not_eq_eq_eq_not,
        Bool.not_true]
      intro _ h2 h3 h4
      rw [h2, h3] at hcf
      simp only [Bool.true_and] at hcf
      rcases h4 with h4 | h4
      · simp [h4] at hcf
      · simp [h4] at hcf
    rw [hnil, hcf]
    simp

theorem rows_of_tasks (db : Db) (huniq : UniqueMembership db) (husers : UniqueUserIds db)
    (userId : Nat) (team_id assigned_to_user_id : Option Nat) (status : Option String)
    (ts : List Task) :
    (((ts.flatMap (fun t =>
        (db.team_memberships.filter (fun m => decide (t.team_id = m.team_id))).flatMap (fun m =>
          (leftJoinUsername db t.assigned_to_user_id).flatMap (fun assigned =>
            (leftJoinUsername db t.created_by_user_id).map (fun creator =>
              (m, TaskRow.mk t m.role assigned creator)))))).filter (fun r =>
        decide (r.1.user_id = userId)
        && (match team_id with
            | some t => decide (r.2.task.team_id = t)
            | none => true)
        && (match assigned_to_user_id with
            | some a => decide (r.2.task.assigned_to_user_id = some a)
            | none => true)
        && (if truthyStr status then decide (r.2.task.status = status) else true))).map
      (fun r => r.2.task))
    = ts.filter (fun t => decide (IsMember db userId t.team_id)
        && taskMatches team_id assigned_to_user_id status t) := by
  induction ts with
  | nil => rfl
  | cons t ts ih =>
    rw [List.flatMap_cons, List.filter_append, List.map_append, ih,
      joined_rows_of_task db huniq husers userId team_id assigned_to_user_id status t,
      List.filter_cons]
    split <;> rfl

theorem getTasks_tasks (db : Db) (huniq : UniqueMembership db) (husers : UniqueUserIds db)
    (userId : Nat) (team_id assigned_to_user_id : Option Nat) (status : Option String) :
    (getTasks db userId team_id assigned_to_user_id status).1.map (fun row => row.task)
      = db.tasks.filter (fun t => decide (IsMember db userId t.team_id)
          && taskMatches team_id assigned_to_user_id status t) := by
  unfold getTasks tasksJoined
  rw [List.map_map]
  exact rows_of_tasks db huniq husers userId team_id assigned_to_user_id status db.tasks

/-- C29: with at most one membership row per (user, team) pair (and the primary key of
`users`), task list returns, in the order of the table, exactly the tasks whose team the
acting user is a member of and that match the filters, each task row once; with no filter
these are all the tasks of the acting user's teams, and no two rows are the same task when
task ids are unique. -/
theorem getTasks_each_task_once (db : Db) (userId : Nat)
    (team_id assigned_to_user_id : Option Nat) (status : Option String)
    (huniq : UniqueMembership db) (husers : UniqueUserIds db) :
    (getTasks db userId team_id assigned_to_user_id status).1.map (fun row => row.task)
      = db.tasks.filter (fun t => decide (IsMember db userId t.team_id)
          && taskMatches team_id assigned_to_user_id status t) ∧
    (getTasks db userId none none none).1.map (fun row => row.task)
      = db.tasks.filter (fun t => decide (IsMember db userId t.team_id)) ∧
    (db.tasks.Pairwise (fun a b => a.id ≠ b.id) →
      ((getTasks db userId team_id assigned_to_user_id status).1.map
        (fun row => row.task.id)).Nodup) := by
  have hall := getTasks_tasks db huniq husers userId team_id assigned_to_user_id status
  refine ⟨hall, ?_, ?_⟩
  · rw [getTasks_tasks db huniq husers userId none none none]
    apply List.filter_congr
    intro t _
    simp [taskMatches, truthyStr]
  · intro hids
    have hmap : (getTasks db userId team_id assigned_to_user_id status).1.map
        (fun row => row.task.id)
        = ((getTasks db userId team_id assigned_to_user_id status).1.map
            (fun row => row.task)).map (fun t => t.id) := by
      rw [List.map_map]; rfl
    rw [hmap, hall, List.Nodup, List.pairwise_map]
    exact List.Pairwise.sublist (List.filter_sublist _) hids

/-- C29 at a concrete store: plain member b lists tasks 1 and 2 once each; outsider c gets
an empty list. -/
theorem getTasks_each_task_once_witness :
    (getTasks twoTasks 2 none none none).1.map (fun row => row.task.id) = [1, 2] ∧
      (getTasks twoTasks 2 none none none).1.map (fun row => row.task)
        = twoTasks.tasks.filter (fun t => decide (IsMember twoTasks 2 t.team_id)) ∧
      (getTasks twoTasks 3 none none none).1.map (fun row => row.task) = [] :=
  ⟨by decide,
    (getTasks_each_task_once twoTasks 2 none none none (by decide) (by decide)).2.1,
    (getTasks_each_task_once twoTasks 3 none none none (by decide) (by decide)).2.1.trans
      (by decide)⟩


/-! ## Task status -/

/-- C23 as stated fails: plain member b sets the status of task 1 to `'archived'`; the
request is answered 200 and the value is stored. -/
theorem status_archived_counterexample :
    Reachable archivedTask ∧
      (putTasksId twoTasks 2 1 .undefined .undefined (.value "archived") .undefined
        .undefined).2 = 200 ∧
      archivedTask.tasks.map (fun t => t.status) = [some "archived", some "pending"] ∧
      ¬ StatusesKnown archivedTask :=
  ⟨reachable_run _ _ (reachable_run _ _ (reachable_run _ _ (reachable_run _ _ .init))),
    by decide, by decide, by decide⟩

/-- What task creation can do to the store, with the status it writes. -/
theorem postTasks_effect_status (db : Db) (userId : Nat) (title description : Option String)
    (team_id assigned_to_user_id due_date : Option Nat) :
    (postTasks db userId title description team_id assigned_to_user_id due_date).1 = db ∨
    ∃ task, (postTasks db userId title description team_id assigned_to_user_id due_date).1 = { db with tasks := db.tasks ++ [task], next_task_id := db.next_task_id + 1 } ∧
      task.status = some "pending" := by
  unfold postTasks
  split
  · left; rfl
  · simp only
    split
    · left; rfl
    · split
      · left; rfl
      · split
        · left; rfl
        · rename_i db1 taskId h
          right
          exact ⟨_, insertTask_ok h, rfl⟩

theorem handle_statuses (db : Db) (r : Request) (h : StatusesKnown db)
    (hr : sendsKnownStatus r) : StatusesKnown (handle db r).1 := by
  have hsame : ∀ db1 : Db, db1.tasks = db.tasks → StatusesKnown db1 := by
    intro db1 h1 task ht
    rw [h1] at ht
    exact h task ht
  cases r with
  | register u e p => exact hsame _ (postAuthRegister_effect db u e p).2.2.1
  | createTeam u n d =>
    show StatusesKnown (postTeams db u n d).1
    rcases postTeams_effect db u n d with ⟨he, _⟩ | ⟨he, _⟩ | ⟨he, _, _⟩ <;>
      (rw [he]; exact h)
  | updateTeam u t n d => exact hsame _ (putTeamsId_effect db u t n d).2.1
  | deleteTeam u t =>
    show StatusesKnown (deleteTeamsId db u t).1
    rcases deleteTeamsId_effect db u t with he | he
    · rw [he]; exact h
    · rw [he]
      intro task ht
      exact h task (List.mem_of_mem_filter ht)
  | addMember u t e role =>
    show StatusesKnown (postTeamsMembers db u t e role).1
    rcases postTeamsMembers_effect db u t e role with he | ⟨_, _, he, _⟩ <;>
      (rw [he]; exact h)
  | removeMember u t m =>
    show StatusesKnown (deleteTeamsMembers db u t m).1
    rcases deleteTeamsMembers_effect db u t m with he | ⟨he, _, _⟩ <;>
      (rw [he]; exact h)
  | createTask u ti de te a du =>
    show StatusesKnown (postTasks db u ti de te a du).1
    rcases postTasks_effect_status db u ti de te a du with he | ⟨task, he, hs⟩
    · rw [he]; exact h
    · rw [he]
      intro t ht
      simp only [List.mem_append, List.mem_singleton] at ht
      rcases ht with ht | ht
      · exact h t ht
      · rw [ht, hs]; exact Or.inl rfl
  | updateTask u t ti de st a du =>
    show StatusesKnown (putTasksId db u t ti de st a du).1
    rcases putTasksId_effect db u t ti de st a du with he | ⟨_, _, _, he, _⟩
    · rw [he]; exact h
    · rw [he]
      intro task ht
      simp only [List.mem_map] at ht
      obtain ⟨t0, ht0, he0⟩ := ht
      rw [← he0]
      split_ifs
      · rcases hr with hs | hs | hs | hs <;> rw [hs] <;>
          simp [Task.updated, knownStatus, h t0 ht0]
        exact h t0 ht0
      · exact h t0 ht0
  | deleteTask u t =>
    show StatusesKnown (deleteTasksId db u t).1
    rcases deleteTasksId_effect db u t with he | he
    · rw [he]; exact h
    · rw [he]
      intro task ht
      exact h task (List.mem_of_mem_filter ht)

/-- A status update alone, by a user the permission guard lets through, is answered 200 and
rewrites the status of the task, whatever string of at most 50 characters is sent. -/
theorem putTasksId_status_accepted (db : Db) (userId : Nat) (task : Task) (m : Membership)
    (newStatus : String) (hi : Integrity db) (htask : task ∈ db.tasks)
    (hm : m ∈ db.team_memberships) (huser : m.user_id = userId)
    (hteam : m.team_id = task.team_id)
    (hallowed : task.created_by_user_id = some userId ∨ m.role = some "admin"
      ∨ m.role = some "member")
    (hlen : newStatus.length ≤ 50) :
    (putTasksId db userId task.id .undefined .undefined (.value newStatus) .undefined
      .undefined).2 = 200 ∧
    ∀ t ∈ (putTasksId db userId task.id .undefined .undefined (.value newStatus) .undefined
        .undefined).1.tasks,
      t.id = task.id → t.status = some newStatus := by
  have hjoin : taskJoinMembership db task.id userId = some (task, m) := by
    rw [← huser]; exact taskJoinMembership_eq_some hi htask hm hteam
  have hrows : (db.tasks.filter (fun t => decide (t.id = task.id))).length ≠ 0 :=
    (filter_length_ne_zero_iff _ _).mpr ⟨task, htask, by simp⟩
  have hrow : updateTaskRow db task.id .undefined .undefined (.value newStatus) .undefined
      .undefined = .ok ({ db with tasks := db.tasks.map (fun t => if t.id = task.id then t.updated .undefined .undefined (.value newStatus) .undefined .undefined else t) }, (db.tasks.filter (fun t => decide (t.id = task.id))).length) := by
    unfold updateTaskRow
    simp only [if_neg hrows]
    have hnot : ¬ 50 < newStatus.length := Nat.not_lt.mpr hlen
    simp [hnot]
  rw [putTasksId_past_guard db userId task.id task m .undefined .undefined (.value newStatus)
    .undefined .undefined hjoin hallowed, hrow]
  simp only [Bool.false_eq_true, if_false, if_neg hrows]
  refine ⟨trivial, ?_⟩
  intro t ht hid
  simp only [List.mem_map] at ht
  obtain ⟨t0, _, he0⟩ := ht
  by_cases h0 : t0.id = task.id
  · rw [if_pos h0] at he0
    rw [← he0]
    rfl
  · rw [if_neg h0] at he0
    rw [← he0] at hid
    exact absurd hid h0

/-- C23, amended. In every store reachable from the empty store by requests whose
task-update bodies carry no status or one of `'pending'`, `'in-progress'`, `'completed'`,
every task has one of these three statuses. Task update does not check the status it is
sent: from a user the permission guard lets through, any string of at most 50 characters
is accepted, whatever the current status, so every transition among the three strings is
accepted in any order. -/
theorem task_status_unchecked :
    (∀ db : Db, ReachableVia (fun _ r => sendsKnownStatus r) db → StatusesKnown db) ∧
    (∀ (db : Db) (userId : Nat) (task : Task) (m : Membership) (newStatus : String),
      Integrity db → task ∈ db.tasks → m ∈ db.team_memberships → m.user_id = userId →
      m.team_id = task.team_id →
      (task.created_by_user_id = some userId ∨ m.role = some "admin"
        ∨ m.role = some "member") →
      newStatus.length ≤ 50 →
      (putTasksId db userId task.id .undefined .undefined (.value newStatus) .undefined
        .undefined).2 = 200 ∧
      ∀ t ∈ (putTasksId db userId task.id .undefined .undefined (.value newStatus) .undefined
          .undefined).1.tasks,
        t.id = task.id → t.status = some newStatus) := by
  refine ⟨?_, ?_⟩
  · intro db h
    refine ReachableVia.induct (P := StatusesKnown) ?_ ?_ db h
    · intro task ht
      simp [Db.empty] at ht
    · intro db r hp hr
      exact handle_statuses db r hp hr
  · intro db userId task m newStatus hi htask hm huser hteam hallowed hlen
    exact putTasksId_status_accepted db userId task m newStatus hi htask hm huser hteam
      hallowed hlen

/-- C23, amended, at a concrete store: the tasks of `twoTasks` are pending; b moves task 1
straight to `'completed'`, and then back to `'pending'`. -/
theorem task_status_unchecked_witness :
    StatusesKnown engCreated ∧
      (putTasksId twoTasks 2 1 .undefined .undefined (.value "completed") .undefined
        .undefined).2 = 200 ∧
      (putTasksId (putTasksId twoTasks 2 1 .undefined .undefined (.value "completed")
        .undefined .undefined).1 2 1 .undefined .undefined (.value "pending") .undefined
        .undefined).2 = 200 :=
  ⟨task_status_unchecked.1 engCreated
      (.step (.createTeam 1 (some "Eng") none)
        (.step (.register (some "c") (some "c@x") (some "pw"))
          (.step (.register (some "b") (some "b@x") (some "pw"))
            (.step (.register (some "a") (some "a@x") (some "pw")) .init
              trivial) trivial) trivial) trivial),
    (task_status_unchecked.2 twoTasks 2
      ⟨1, "Fix bug", none, some "pending", 1, none, none, some 2⟩ ⟨2, 2, 1, some "member"⟩
      "completed" (by decide) (by decide) (by decide) rfl rfl (by decide) (by decide)).1,
    (task_status_unchecked.2
      (putTasksId twoTasks 2 1 .undefined .undefined (.value "completed") .undefined
        .undefined).1 2
      ⟨1, "Fix bug", none, some "completed", 1, none, none, some 2⟩ ⟨2, 2, 1, some "member"⟩
      "pending" (by decide) (by decide) (by decide) rfl rfl (by decide) (by decide)).1⟩


/-! ## Registration, logout and the serialisation of the user -/

/-- C24: a registration with username, email and password supplied, whose username or email
is that of a stored user, is answered 409; the store stays as it was, `req.login` is not
called and no session is stored. -/
theorem postAuthRegister_conflict (db : Db) (sessions : List Session) (sid : Nat)
    (username email password : String) (hu : username ≠ "") (he : email ≠ "")
    (hp : password ≠ "")
    (hexists : ∃ u ∈ db.users, u.username = username ∨ u.email = email) :
    postAuthRegister db (some username) (some email) (some password) = (db, 409, none) ∧
    sessionsAfterRegister sessions sid
      (postAuthRegister db (some username) (some email) (some password)).2.2 = sessions := by
  have hres : postAuthRegister db (some username) (some email) (some password)
      = (db, 409, none) := by
    unfold postAuthRegister
    rw [truthyStr_some hu, truthyStr_some he, truthyStr_some hp]
    simp only [Bool.not_true, Bool.or_self, Bool.false_eq_true, if_false, Option.getD_some]
    have hany : db.users.any (fun u => decide (u.username = username ∨ u.email = email))
        = true := by
      rw [List.any_eq_true]
      obtain ⟨u, hmem, h⟩ := hexists
      exact ⟨u, hmem, by simpa using h⟩
    rw [if_pos hany]
  rw [hres]
  exact ⟨rfl, rfl⟩

/-- C24 at a concrete store: a new username with the email of a. -/
theorem postAuthRegister_conflict_witness :
    postAuthRegister onlyUserA (some "z") (some "a@x") (some "pw") = (onlyUserA, 409, none) ∧
      sessionsAfterRegister oneSession 8
        (postAuthRegister onlyUserA (some "z") (some "a@x") (some "pw")).2.2 = oneSession :=
  postAuthRegister_conflict onlyUserA oneSession 8 "z" "a@x" "pw" (by decide) (by decide)
    (by decide) ⟨⟨1, "a", "a@x"⟩, by decide, Or.inr rfl⟩

/-- C25 as stated fails: with user 1 logged in under session 7, the first logout is
answered 200 and deletes the session, and the second logout, sent with the same cookie or
with none, is answered 200 as well, not 401. -/
theorem logout_twice_counterexample :
    isAuthenticated onlyUserA oneSession (some 7) = true ∧
      postAuthLogout oneSession (some 7) = ([], 200) ∧
      (postAuthLogout (postAuthLogout oneSession (some 7)).1 (some 7)).2 = 200 ∧
      (postAuthLogout (postAuthLogout oneSession (some 7)).1 none).2 = 200 := by
  decide

theorem reqUser_after_logout (db : Db) (sessions : List Session) (cookie : Option Nat) :
    reqUser db (postAuthLogout sessions cookie).1 cookie = none := by
  unfold reqUser postAuthLogout
  cases cookie with
  | none => rfl
  | some sid =>
    have hnone : (sessions.filter (fun s => !decide (some s.sid = some sid))).find?
        (fun s => decide (s.sid = sid)) = none := by
      rw [List.find?_eq_none]
      intro s hs
      simp only [List.mem_filter, Bool.not_eq_true', decide_eq_false_iff_not,
        Option.some.injEq] at hs
      simpa using hs.2
    simp only [hnone]

/-- C25, amended: for a logged-in session, logout is answered 200 on the first call and on
a second call in a row; after the first call the session is gone, so the cookie no longer
authenticates and every route behind `isAuthenticated` answers 401 without touching the
store. -/
theorem logout_twice (db : Db) (sessions : List Session) (cookie : Option Nat)
    (handler : Nat → Db × Nat) (hlogged : isAuthenticated db sessions cookie = true) :
    (postAuthLogout sessions cookie).2 = 200 ∧
    (postAuthLogout (postAuthLogout sessions cookie).1 cookie).2 = 200 ∧
    (∀ s ∈ (postAuthLogout sessions cookie).1, some s.sid ≠ cookie) ∧
    isAuthenticated db (postAuthLogout sessions cookie).1 cookie = false ∧
    behindIsAuthenticated db (postAuthLogout sessions cookie).1 cookie handler = (db, 401) ∧
    ∃ user, behindIsAuthenticated db sessions cookie handler = handler user := by
  refine ⟨rfl, rfl, ?_, ?_, ?_, ?_⟩
  · intro s hs
    simp only [postAuthLogout, List.mem_filter, Bool.not_eq_true',
      decide_eq_false_iff_not] at hs
    exact hs.2
  · unfold isAuthenticated
    rw [reqUser_after_logout]
    rfl
  · unfold behindIsAuthenticated
    rw [reqUser_after_logout]
  · unfold isAuthenticated at hlogged
    unfold behindIsAuthenticated
    cases hu : reqUser db sessions cookie with
    | none => rw [hu] at hlogged; simp at hlogged
    | some user => exact ⟨user.id, rfl⟩

/-- C25, amended, at a concrete store: user 1 logs out of session 7 twice, then asks to
create a team. -/
theorem logout_twice_witness :
    (postAuthLogout oneSession (some 7)).2 = 200 ∧
      (postAuthLogout (postAuthLogout oneSession (some 7)).1 (some 7)).2 = 200 ∧
      behindIsAuthenticated onlyUserA (postAuthLogout oneSession (some 7)).1 (some 7)
        (fun userId => postTeams onlyUserA userId (some "Eng") none) = (onlyUserA, 401) :=
  have h := logout_twice onlyUserA oneSession (some 7)
    (fun userId => postTeams onlyUserA userId (some "Eng") none) (by decide)
  ⟨h.1, h.2.1, h.2.2.2.2.1⟩

/-- C26: the code at the user `{ id: { id: 0 } }`. No error is reported and the value
stored is the object `{ id: 0 }`, neither a primitive nor the inner `0`, against the two
comments of the function ("extract the raw ID, even if 'user.id' is an object { id: N }",
"Store the actual numeric ID in the session"); for the user `{ id: {} }` the value stored
is the object `{}`. -/
theorem serializeUser_stores_object :
    serializeUser (.object (.object (.number 0))) = .ok (.object (.number 0)) ∧
      (JsValue.object (.number 0)).isPrimitive = false ∧
      JsValue.object (.number 0) ≠ JsValue.number 0 ∧
      serializeUser (.object (.object .undefined)) = .ok (.object .undefined) := by
  refine ⟨rfl, rfl, ?_, rfl⟩
  intro h
  cases h

/-- What `serializeUser` does with a user object whose `id` is `uid`: it reports an error
when `uid` is `undefined` or `null`; stores `N` when `uid` is an object `{ id: N }` with a
truthy `N`; stores the object `uid` itself when `uid` is an object whose `id` is falsy or
missing; and stores `uid` when `uid` is any other primitive. So what it stores is a
primitive exactly when `uid` is a primitive or an object whose `id` is a truthy
primitive. -/
theorem serializeUser_spec (uid : JsValue) :
    (uid = .undefined ∨ uid = .null →
      serializeUser (.object uid) = .error "User ID is missing for serialization.") ∧
    (∀ n, uid = .object n → n.truthy = true → serializeUser (.object uid) = .ok n) ∧
    (∀ n, uid = .object n → n.truthy = false → serializeUser (.object uid) = .ok uid) ∧
    (uid.isPrimitive = true → uid ≠ .undefined → uid ≠ .null →
      serializeUser (.object uid) = .ok uid) ∧
    (∀ stored, serializeUser (.object uid) = .ok stored →
      (stored.isPrimitive = true ↔
        (uid.isPrimitive = true ∨ (uid.getId.truthy = true ∧ uid.getId.isPrimitive = true)))) := by
  have h1 : uid = .undefined ∨ uid = .null →
      serializeUser (.object uid) = .error "User ID is missing for serialization." := by
    rintro (h | h) <;> rw [h] <;> rfl
  have h2 : ∀ n, uid = .object n → n.truthy = true → serializeUser (.object uid) = .ok n := by
    intro n hn ht
    rw [hn]
    cases n <;> simp_all [serializeUser, JsValue.truthy, JsValue.getId, JsValue.typeofObject]
  have h3 : ∀ n, uid = .object n → n.truthy = false →
      serializeUser (.object uid) = .ok uid := by
    intro n hn ht
    rw [hn]
    cases n <;> simp_all [serializeUser, JsValue.truthy, JsValue.getId, JsValue.typeofObject]
  have h4 : uid.isPrimitive = true → uid ≠ .undefined → uid ≠ .null →
      serializeUser (.object uid) = .ok uid := by
    intro hp hu hn
    cases uid <;> simp_all [serializeUser, JsValue.truthy, JsValue.getId,
      JsValue.typeofObject, JsValue.isPrimitive]
  refine ⟨h1, h2, h3, h4, ?_⟩
  intro stored hs
  cases huid : uid with
  | object n =>
    cases ht : n.truthy with
    | true =>
      have := h2 n huid ht
      rw [this, Except.ok.injEq] at hs
      rw [← hs]
      simp [JsValue.isPrimitive, JsValue.getId, ht]
    | false =>
      have := h3 n huid ht
      rw [this, Except.ok.injEq] at hs
      rw [← hs, huid]
      simp [JsValue.isPrimitive, JsValue.getId, ht]
  | undefined => rw [h1 (Or.inl huid)] at hs; cases hs
  | null => rw [h1 (Or.inr huid)] at hs; cases hs
  | boolean b =>
    have := h4 (by rw [huid]; rfl) (by rw [huid]; intro h; cases h) (by rw [huid]; intro h; cases h)
    rw [this, Except.ok.injEq] at hs
    rw [← hs, huid]
    simp [JsValue.isPrimitive]
  | number k =>
    have := h4 (by rw [huid]; rfl) (by rw [huid]; intro h; cases h) (by rw [huid]; intro h; cases h)
    rw [this, Except.ok.injEq] at hs
    rw [← hs, huid]
    simp [JsValue.isPrimitive]
  | nan =>
    have := h4 (by rw [huid]; rfl) (by rw [huid]; intro h; cases h) (by rw [huid]; intro h; cases h)
    rw [this, Except.ok.injEq] at hs
    rw [← hs, huid]
    simp [JsValue.isPrimitive]
  | string k =>
    have := h4 (by rw [huid]; rfl) (by rw [huid]; intro h; cases h) (by rw [huid]; intro h; cases h)
    rw [this, Except.ok.injEq] at hs
    rw [← hs, huid]
    simp [JsValue.isPrimitive]


/-! ## The primary key of users in the reachable stores -/

theorem putTeamsId_users (db : Db) (userId teamId : Nat) (name description : Field String) :
    (putTeamsId db userId teamId name description).1.users = db.users ∧
    (putTeamsId db userId teamId name description).1.next_user_id = db.next_user_id := by
  unfold putTeamsId
  split
  · exact ⟨rfl, rfl⟩
  · split
    · exact ⟨rfl, rfl⟩
    · rename_i db1 updated h
      have hdb1 : db1.users = db.users ∧ db1.next_user_id = db.next_user_id := by
        unfold updateTeamRow at h
        simp only at h
        split_ifs at h
        · simp only [Except.ok.injEq, Prod.mk.injEq] at h
          rw [← h.1]; exact ⟨rfl, rfl⟩
        · split at h
          · simp at h
          · split_ifs at h
            simp only [Except.ok.injEq, Prod.mk.injEq] at h
            rw [← h.1]; exact ⟨rfl, rfl⟩
          · simp only [Except.ok.injEq, Prod.mk.injEq] at h
            rw [← h.1]; exact ⟨rfl, rfl⟩
      split <;> exact hdb1

theorem handle_users (db : Db) (r : Request) (hr : ∀ u e p, r ≠ .register u e p) :
    (handle db r).1.users = db.users ∧ (handle db r).1.next_user_id = db.next_user_id := by
  cases r with
  | register u e p => exact absurd rfl (hr u e p)
  | createTeam u n d =>
    show (postTeams db u n d).1.users = _ ∧ (postTeams db u n d).1.next_user_id = _
    rcases postTeams_effect db u n d with ⟨he, _⟩ | ⟨he, _⟩ | ⟨he, _, _⟩ <;>
      (rw [he]; exact ⟨rfl, rfl⟩)
  | updateTeam u t n d => exact putTeamsId_users db u t n d
  | deleteTeam u t =>
    show (deleteTeamsId db u t).1.users = _ ∧ (deleteTeamsId db u t).1.next_user_id = _
    rcases deleteTeamsId_effect db u t with he | he <;> (rw [he]; exact ⟨rfl, rfl⟩)
  | addMember u t e role =>
    show (postTeamsMembers db u t e role).1.users = _ ∧
      (postTeamsMembers db u t e role).1.next_user_id = _
    rcases postTeamsMembers_effect db u t e role with he | ⟨_, _, he, _⟩ <;>
      (rw [he]; exact ⟨rfl, rfl⟩)
  | removeMember u t m =>
    show (deleteTeamsMembers db u t m).1.users = _ ∧
      (deleteTeamsMembers db u t m).1.next_user_id = _
    rcases deleteTeamsMembers_effect db u t m with he | ⟨he, _, _⟩ <;>
      (rw [he]; exact ⟨rfl, rfl⟩)
  | createTask u ti de te a du =>
    show (postTasks db u ti de te a du).1.users = _ ∧
      (postTasks db u ti de te a du).1.next_user_id = _
    rcases postTasks_effect db u ti de te a du with he | ⟨_, he, _, _⟩ <;>
      (rw [he]; exact ⟨rfl, rfl⟩)
  | updateTask u t ti de st a du =>
    show (putTasksId db u t ti de st a du).1.users = _ ∧
      (putTasksId db u t ti de st a du).1.next_user_id = _
    rcases putTasksId_effect db u t ti de st a du with he | ⟨_, _, _, he, _⟩ <;>
      (rw [he]; exact ⟨rfl, rfl⟩)
  | deleteTask u t =>
    show (deleteTasksId db u t).1.users = _ ∧ (deleteTasksId db u t).1.next_user_id = _
    rcases deleteTasksId_effect db u t with he | he <;> (rw [he]; exact ⟨rfl, rfl⟩)

theorem postAuthRegister_users (db : Db) (username email password : Option String) :
    ((postAuthRegister db username email password).1.users = db.users ∧
      (postAuthRegister db username email password).1.next_user_id = db.next_user_id) ∨
    ∃ n e, (postAuthRegister db username email password).1.users
        = db.users ++ [⟨db.next_user_id, n, e⟩] ∧
      (postAuthRegister db username email password).1.next_user_id = db.next_user_id + 1 := by
  unfold postAuthRegister
  split
  · left; exact ⟨rfl, rfl⟩
  · simp only
    split
    · left; exact ⟨rfl, rfl⟩
    · split
      · left; exact ⟨rfl, rfl⟩
      · rename_i db1 userId h
        right
        unfold insertUser at h
        split_ifs at h
        simp only [Except.ok.injEq, Prod.mk.injEq] at h
        rw [← h.1]
        exact ⟨_, _, rfl, rfl⟩

/-- Every reachable store satisfies the primary key of `users`. -/
theorem ReachableVia.uniqueUserIds {allowed : Db → Request → Prop} {db : Db}
    (h : ReachableVia allowed db) : UniqueUserIds db := by
  have hinv : (∀ u ∈ db.users, u.id < db.next_user_id) ∧ UniqueUserIds db := by
    refine ReachableVia.induct
      (P := fun db => (∀ u ∈ db.users, u.id < db.next_user_id) ∧ UniqueUserIds db) ?_ ?_ db h
    · exact ⟨by simp [Db.empty], by simp [UniqueUserIds, Db.empty]⟩
    · intro db r hp _
      obtain ⟨hlt, huniq⟩ := hp
      by_cases hreg : ∃ u e p, r = .register u e p
      · obtain ⟨u, e, p, hr⟩ := hreg
        rw [hr]
        show (∀ x ∈ (postAuthRegister db u e p).1.users,
            x.id < (postAuthRegister db u e p).1.next_user_id) ∧
          UniqueUserIds (postAuthRegister db u e p).1
        unfold UniqueUserIds
        rcases postAuthRegister_users db u e p with ⟨hu, hn⟩ | ⟨n, e', hu, hn⟩
        · rw [hu, hn]; exact ⟨hlt, huniq⟩
        · rw [hu, hn]
          refine ⟨?_, ?_⟩
          · intro x hx
            simp only [List.mem_append, List.mem_singleton] at hx
            rcases hx with hx | hx
            · exact Nat.lt_succ_of_lt (hlt x hx)
            · rw [hx]; exact Nat.lt_succ_self _
          · rw [List.pairwise_append]
            refine ⟨huniq, List.pairwise_singleton _ _, ?_⟩
            intro a ha b hb
            rw [List.mem_singleton] at hb
            rw [hb]
            exact Nat.ne_of_lt (hlt a ha)
      · have hr : ∀ u e p, r ≠ .register u e p := fun u e p he => hreg ⟨u, e, p, he⟩
        obtain ⟨hu, hn⟩ := handle_users db r hr
        unfold UniqueUserIds
        rw [hu, hn]
        exact ⟨hlt, huniq⟩
  exact hinv.2

/-! ## The routes on every id and the handlers on ids that fit -/

theorem putTeamsIdServed_of_fits (db : Db) (userId teamId : Nat)
    (name description : Field String) (hfit : teamId ≤ int4Max) :
    putTeamsIdServed db userId teamId name description
      = putTeamsId db userId teamId name description := by
  unfold putTeamsIdServed
  rw [fitsInt4_of_le hfit]
  rfl

theorem deleteTeamsIdServed_of_fits (db : Db) (userId teamId : Nat)
    (hfit : teamId ≤ int4Max) :
    deleteTeamsIdServed db userId teamId = deleteTeamsId db userId teamId := by
  unfold deleteTeamsIdServed
  rw [fitsInt4_of_le hfit]
  rfl

theorem postTeamsMembersServed_of_fits (db : Db) (adminUserId teamId : Nat)
    (member_email : Option String) (role : Field String) (hfit : teamId ≤ int4Max) :
    postTeamsMembersServed db adminUserId teamId member_email role
      = postTeamsMembers db adminUserId teamId member_email role := by
  unfold postTeamsMembersServed postTeamsMembers
  rw [fitsInt4_of_le hfit]
  rfl

theorem deleteTeamsMembersServed_of_fits (db : Db) (adminUserId teamId memberIdToRemove : Nat)
    (hfit : teamId ≤ int4Max) (hmember : memberIdToRemove ≤ int4Max) :
    deleteTeamsMembersServed db adminUserId teamId memberIdToRemove
      = deleteTeamsMembers db adminUserId teamId memberIdToRemove := by
  unfold deleteTeamsMembersServed deleteTeamsMembers
  rw [fitsInt4_of_le hfit, fitsInt4_of_le hmember]
  rfl

theorem postTasksServed_of_fits (db : Db) (userId : Nat) (title description : Option String)
    (team_id assigned_to_user_id due_date : Option Nat)
    (hfit : team_id.getD 0 ≤ int4Max) (hassignee : assigned_to_user_id.getD 0 ≤ int4Max) :
    postTasksServed db userId title description team_id assigned_to_user_id due_date
      = postTasks db userId title description team_id assigned_to_user_id due_date := by
  unfold postTasksServed postTasks
  simp only [fitsInt4_of_le hfit, fitsInt4_of_le hassignee, Bool.not_true, Bool.and_false,
    Bool.false_eq_true, if_false]

theorem putTasksIdServed_of_fits (db : Db) (userId taskId : Nat)
    (title description status : Field String) (assigned_to_user_id due_date : Field Nat)
    (hfit : taskId ≤ int4Max)
    (hassignee : ∀ a, assigned_to_user_id = .value a → a ≤ int4Max) :
    putTasksIdServed db userId taskId title description status assigned_to_user_id due_date
      = putTasksId db userId taskId title description status assigned_to_user_id due_date := by
  unfold putTasksIdServed putTasksId
  cases assigned_to_user_id with
  | undefined => simp only [fitsInt4_of_le hfit, Bool.not_true, Bool.false_eq_true, if_false]
  | null => simp only [fitsInt4_of_le hfit, Bool.not_true, Bool.false_eq_true, if_false]
  | value a =>
    simp only [fitsInt4_of_le hfit, fitsInt4_of_le (hassignee a rfl), Bool.not_true,
      Bool.false_eq_true, if_false]

end TeamTaskManager
